import Mathlib

/-! Atmospheric particles (snow and rain) of Warzone 2100: `src/atmos.cpp`

A shallow embedding of the particle pool, its allocator, the per-particle
simulation step and the spawn-rate accumulator, followed by theorems about them.

Conventions of the embedding

* `float` / `double` values are rationals (`ℚ`); the only non-rational value the
  code tests for, a NaN game-speed multiplier, is `none`. The result of a `float`
  addition the code stores in a particle position (`testParticleWrap`, the
  integration step) is rounded to IEEE binary32, nearest with ties to even
  (`roundF32`); infinities are not modelled, a sum beyond the largest finite
  `float` is rounded like any other. The `double` accumulator is exact.
* An `int` operand converted to `float` is rounded by `roundF32` in
  `testParticleWrap`; elsewhere (the comparisons with map bounds, the spawn
  candidate of lines 282-286, the velocities) it is taken as it is, which is the
  conversion for every magnitude up to `2 ^ 24` (`roundF32_intCast`).
* Conversions from a floating value to `int` (`(int)`, `static_cast<int>`) are
  truncation toward zero; the conversion to the 32-bit `UDWORD` is truncation
  reduced modulo `2 ^ 32`.
* `UDWORD` counters (`i`, `activeCount`, `freeParticle`) are `Nat`; in the loop of
  `atmosAddParticle` they never exceed the pool capacity.
* The globals `asAtmosParts`, `freeParticle`, `weather` and the function-local
  static `accumulatedParticlesToAdd` are the fields of `AtmosState`.
* `rand()` is a stream `rand : Nat → Nat` read at a running index.
* A read through a null pool pointer or past the end of the pool has no defined
  result: the functions return `none` there.
-/

namespace Atmos

/-! ## Data model -/

/-- Particle kinds, `enum AP_TYPE` (lines 55-59). -/
inductive AP_TYPE where
  | AP_RAIN
  | AP_SNOW
  deriving DecidableEq, Repr

/-- Particle lifecycle status, `enum AP_STATUS` (lines 61-65). -/
inductive AP_STATUS where
  | APS_INACTIVE
  | APS_ACTIVE
  deriving DecidableEq, Repr

/-- Modelled from the spec: the weather modes (none / rain / snow) of `WT_CLASS`,
declared in `atmos.h`, which is not among the sources. -/
inductive WT_CLASS where
  | WT_RAINING
  | WT_SNOWING
  | WT_NONE
  deriving DecidableEq, Repr

/-- Modelled from the spec: the visual assets of the two particle kinds and of the
splash, the indices `MI_RAIN`, `MI_SNOW`, `MI_SPLASH` of `miscimd.h` (not among
the sources). -/
inductive MI where
  | MI_RAIN
  | MI_SNOW
  | MI_SPLASH
  deriving DecidableEq, Repr

/-- Modelled from the spec: a 3D floating-point vector (`Vector3f` of the vector
library, not among the sources); the components are rationals. -/
structure Vector3f where
  x : ℚ
  y : ℚ
  z : ℚ
  deriving DecidableEq

/-- Modelled from the spec: a 3D integer vector (`Vector3i` of the vector library,
not among the sources). -/
structure Vector3i where
  x : Int
  y : Int
  z : Int
  deriving DecidableEq

/-- Modelled from the spec: the particle record `ATPART` of `atmos.h` (not among the
sources): kind, status, position, velocity, visual size and visual asset. The
asset pointer `imd` is the index it was looked up with, `none` for a null pointer. -/
structure ATPART where
  status : AP_STATUS
  type : AP_TYPE
  size : Nat
  position : Vector3f
  velocity : Vector3f
  imd : Option MI
  deriving DecidableEq

/-- The record `calloc` produces: every byte zero, hence `APS_INACTIVE`
(line 76), kind 0, null asset. -/
def zeroPart : ATPART :=
  { status := AP_STATUS.APS_INACTIVE, type := AP_TYPE.AP_RAIN, size := 0,
    position := ⟨0, 0, 0⟩, velocity := ⟨0, 0, 0⟩, imd := none }

/-- The module's global state: `asAtmosParts` (`none` is the null pointer),
`freeParticle`, `weather` (lines 67-69) and `accumulatedParticlesToAdd`
(line 268). -/
structure AtmosState where
  asAtmosParts : Option (List ATPART)
  freeParticle : Nat
  weather : WT_CLASS
  accumulatedParticlesToAdd : ℚ
  deriving DecidableEq

/-- The state at program start: no pool, `weather = WT_NONE`, zero-initialised
statics. -/
def initialState : AtmosState :=
  { asAtmosParts := none, freeParticle := 0, weather := WT_CLASS.WT_NONE,
    accumulatedParticlesToAdd := 0 }

/-- Number of slots of a pool whose status is `APS_ACTIVE`. -/
def activeSlots (parts : List ATPART) : Nat :=
  parts.countP (fun p => p.status = AP_STATUS.APS_ACTIVE)

/-! ## Constants and collaborators that live outside `atmos.cpp` -/

/-- Modelled from the spec: the tile-units-to-world conversion of the map
collaborator (`map.h`, not among the sources). A tile is `1 << TILE_SHIFT`
world units wide, with `TILE_SHIFT = 7`. -/
def TILE_SHIFT : Nat := 7

/-- Modelled from the spec: `TILE_UNITS`, the number of world units across a tile
(`map.h`, not among the sources): `1 << TILE_SHIFT`. -/
def TILE_UNITS : Int := 2 ^ TILE_SHIFT

/-- Modelled from the spec: `world_coord` of `map.h` (not among the sources), the
tile-to-world conversion `mapCoord << TILE_SHIFT`. -/
def world_coord (mapCoord : Int) : Int := mapCoord * 2 ^ TILE_SHIFT

/-- Modelled from the spec: `map_coord` of `map.h` (not among the sources), the
world-to-tile conversion `worldCoord >> TILE_SHIFT`. -/
def map_coord (worldCoord : Int) : Int := worldCoord / 2 ^ TILE_SHIFT

/-- Conversion of a floating value to an integer type: truncation toward zero. -/
def truncToInt (q : ℚ) : Int := Int.tdiv q.num q.den

/-! ## Rounding to `float` -/

/-- The power `2 ^ e` for an integer exponent. -/
def pow2 (e : Int) : ℚ :=
  if 0 ≤ e then ((2 ^ e.toNat : Nat) : ℚ) else 1 / ((2 ^ (-e).toNat : Nat) : ℚ)

/-- The position of the highest set bit of `n` (0 for `n < 2`), by halving at most
`fuel` times. -/
def log2Fuel : Nat → Nat → Nat
  | 0, _ => 0
  | fuel + 1, n => if 2 ≤ n then log2Fuel fuel (n / 2) + 1 else 0

/-- The binary exponent of a positive rational: the `e` with
`2 ^ e ≤ a < 2 ^ (e + 1)`. -/
def binaryExp (a : ℚ) : Int :=
  let e0 : Int := (log2Fuel a.num.natAbs a.num.natAbs : Int) - (log2Fuel a.den a.den : Int)
  if pow2 e0 ≤ a then e0 else e0 - 1

/-- Rounding of a rational to the nearest integer, a tie going to the even one. -/
def roundHalfEven (t : ℚ) : Int :=
  let n : Int := t.num / (t.den : Int)
  let r : ℚ := t - (n : ℚ)
  if r < 1 / 2 then n
  else if 1 / 2 < r then n + 1
  else if n % 2 = 0 then n else n + 1

/-- The value a 32-bit `float` takes for the exact result `q` of an operation
(IEEE binary32, round to nearest, ties to even): the nearest multiple of the unit
in the last place `2 ^ (e - 23)`, where `e` is the binary exponent of `q`, not
below the exponent `-126` of the subnormal range. There is no overflow to
infinity: the exponent is not bounded above. -/
def roundF32 (q : ℚ) : ℚ :=
  if q = 0 then 0
  else
    let a : ℚ := if q < 0 then -q else q
    let e : Int := max (binaryExp a) (-126)
    let ulp : ℚ := pow2 (e - 23)
    let m : Int := roundHalfEven (a / ulp)
    if q < 0 then -((m : ℚ) * ulp) else (m : ℚ) * ulp

/-- Modelled from the spec: the external collaborators, as parameters of one call:
the pause flag and timing functions (`loop.h`, `gtime.h`), the camera and
visible window (`display3d.h`), the map (`map.h`), none of them among the
sources, and the `rand()` stream. -/
structure Env where
  /-- The result of `gamePaused()`. -/
  gamePaused : Bool
  /-- The function `graphicsTimeAdjustedIncrement`. -/
  graphicsTimeAdjustedIncrement : ℚ → ℚ
  /-- The value `gameTimeGetMod().asDouble()`; `none` is NaN. -/
  gameTimeMod : Option ℚ
  /-- The camera position `playerPos.p`. -/
  playerPos : Vector3i
  /-- The visible window `visibleTiles.x`, in tiles. -/
  visibleTilesX : Int
  /-- The visible window `visibleTiles.y`, in tiles. -/
  visibleTilesY : Int
  /-- The map width in tiles. -/
  mapWidth : Int
  /-- The map height in tiles. -/
  mapHeight : Int
  /-- The near-ground threshold `TILE_MAX_HEIGHT` of `map.h`. -/
  TILE_MAX_HEIGHT : Int
  /-- The ground height `map_Height(x, z)` at a world position. -/
  map_Height : Int → Int → Int
  /-- Whether `terrainType(mapTile(x, y)) == TER_WATER` for a tile. -/
  isWater : Int → Int → Bool
  /-- Whether `TEST_TILE_VISIBLE_TO_SELECTEDPLAYER(mapTile(x, y))` for a tile. -/
  tileVisible : Int → Int → Bool
  /-- The successive results of `rand()`. -/
  rand : Nat → Nat

/-- What a call does to the outside: a call of the allocator with a position and
a kind, or a splash effect (`effectSetSize(size)` followed by `addEffect` at
`pos` with the model `imd`). -/
inductive Event where
  | spawn (pos : Vector3f) (type : AP_TYPE)
  | splash (pos : Vector3i) (size : Nat) (imd : MI)
  deriving DecidableEq

/-- Whether an event is a call of the allocator. -/
def Event.isSpawn : Event → Bool
  | Event.spawn _ _ => true
  | Event.splash _ _ _ => false

/-! ## Random velocity macros (lines 50-53) -/

/-- The macro `SNOW_SPEED_DRIFT`: `40 - rand() % 80`. -/
def SNOW_SPEED_DRIFT (r : Nat) : Int := 40 - ((r % 80 : Nat) : Int)

/-- The macro `SNOW_SPEED_FALL`: `0 - (rand() % 40 + 80)`. -/
def SNOW_SPEED_FALL (r : Nat) : Int := 0 - (((r % 40 + 80 : Nat)) : Int)

/-- The macro `RAIN_SPEED_DRIFT`: `rand() % 50`. -/
def RAIN_SPEED_DRIFT (r : Nat) : Int := ((r % 50 : Nat) : Int)

/-- The macro `RAIN_SPEED_FALL`: `0 - ((rand() % 300) + 700)`. -/
def RAIN_SPEED_FALL (r : Nat) : Int := 0 - (((r % 300 + 700 : Nat)) : Int)

/-! ## Pool lifecycle -/

/-- The function `atmosInitSystem` (lines 72-81) for a pool of
`MAX_ATMOS_PARTICLES = C` records; `calloc` is taken to succeed. -/
def atmosInitSystem (C : Nat) (st : AtmosState) : AtmosState :=
  let parts :=
    if st.asAtmosParts = none ∧ st.weather ≠ WT_CLASS.WT_NONE then
      some (List.replicate C zeroPart)
    else st.asAtmosParts
  { st with asAtmosParts := parts, freeParticle := 0 }

/-- The function `atmosSetWeatherType` (lines 367-379). -/
def atmosSetWeatherType (C : Nat) (type : WT_CLASS) (st : AtmosState) : AtmosState :=
  let st1 :=
    if type ≠ st.weather then atmosInitSystem C { st with weather := type } else st
  if type = WT_CLASS.WT_NONE ∧ st1.asAtmosParts ≠ none then
    { st1 with asAtmosParts := none }
  else st1

/-- The function `atmosGetWeatherType` (lines 381-384). -/
def atmosGetWeatherType (st : AtmosState) : WT_CLASS := st.weather

/-! ## The allocator -/

/-- The `for` loop of `atmosAddParticle` (lines 190-199), started at
`(i, activeCount)`. Each turn reads `asAtmosParts[i].status`; while it is
`APS_ACTIVE` and `activeCount < C`, the body increments `activeCount`, resets `i`
to 0 when `i >= C - 1`, and then the loop's `i++` runs. The result is the pair
`(i, activeCount)` at exit. `fuel` bounds the number of turns (`C + 1` always
suffices, since `activeCount` grows every turn). -/
def scanLoop (C : Nat) (parts : List ATPART) : Nat → Nat → Nat → Option (Nat × Nat)
  | 0, _, _ => none
  | fuel + 1, i, activeCount =>
    match parts[i]? with
    | none => none
    | some p =>
      if p.status = AP_STATUS.APS_ACTIVE ∧ activeCount < C then
        scanLoop C parts fuel ((if i ≥ C - 1 then 0 else i) + 1) (activeCount + 1)
      else some (i, activeCount)

/-- The record `atmosAddParticle` leaves in the slot it selected (lines 212-244):
kind, status, asset and size per kind, position, and a velocity drawn from
the `rand()` results `rx`, `ry`, `rz`, one per component (the order in
which the three macro arguments call `rand()` is not fixed by the language). -/
def spawnedPart (old : ATPART) (pos : Vector3f) (type : AP_TYPE) (rx ry rz : Nat) : ATPART :=
  let p1 := { old with type := type, status := AP_STATUS.APS_ACTIVE }
  let p2 :=
    match type with
    | AP_TYPE.AP_SNOW => { p1 with imd := some MI.MI_SNOW, size := 80 }
    | AP_TYPE.AP_RAIN => { p1 with imd := some MI.MI_RAIN, size := 50 }
  let p3 := { p2 with position := pos }
  if type = AP_TYPE.AP_RAIN then
    { p3 with velocity := ⟨RAIN_SPEED_DRIFT rx, RAIN_SPEED_FALL ry, RAIN_SPEED_DRIFT rz⟩ }
  else
    { p3 with velocity := ⟨SNOW_SPEED_DRIFT rx, SNOW_SPEED_FALL ry, SNOW_SPEED_DRIFT rz⟩ }

/-- The function `atmosAddParticle` (lines 185-245) on a pool of capacity `C`.
`n` is the index of the next `rand()` result; the call returns the new state and
the new index (three draws are consumed when a particle is created, none when
the request is dropped). -/
def atmosAddParticle (C : Nat) (rand : Nat → Nat) (st : AtmosState) (pos : Vector3f)
    (type : AP_TYPE) (n : Nat) : Option (AtmosState × Nat) :=
  match st.asAtmosParts with
  | none => none
  | some parts =>
    match scanLoop C parts (C + 1) st.freeParticle 0 with
    | none => none
    | some (i, activeCount) =>
      if activeCount ≥ C - 1 then some (st, n)
      else
        match parts[i]? with
        | none => none
        | some old =>
          some ({ st with
                  freeParticle := i,
                  asAtmosParts :=
                    some (parts.set i
                      (spawnedPart old pos type (rand n) (rand (n + 1)) (rand (n + 2)))) },
                n + 3)

/-! ## Simulation of one particle -/

/-- The function `testParticleWrap` (lines 85-110): a particle that has left the
camera-centred window on an axis is shifted by one window width on that axis. The
bounds `playerPos.p.x ∓ world_coord(visibleTiles.x) / 2` are integer
expressions (truncating division), converted to `float` for the comparison; the
shift `+=` / `-=` converts the width to `float` and stores the rounded sum. -/
def testParticleWrap (env : Env) (psPart : ATPART) : ATPART :=
  let wx : Int := world_coord env.visibleTilesX
  let wz : Int := world_coord env.visibleTilesY
  let x : ℚ := psPart.position.x
  let z : ℚ := psPart.position.z
  let x1 : ℚ :=
    if x < roundF32 ((env.playerPos.x - Int.tdiv wx 2 : Int) : ℚ) then
      roundF32 (x + roundF32 (wx : ℚ))
    else if x > roundF32 ((env.playerPos.x + Int.tdiv wx 2 : Int) : ℚ) then
      roundF32 (x - roundF32 (wx : ℚ))
    else x
  let z1 : ℚ :=
    if z < roundF32 ((env.playerPos.z - Int.tdiv wz 2 : Int) : ℚ) then
      roundF32 (z + roundF32 (wz : ℚ))
    else if z > roundF32 ((env.playerPos.z + Int.tdiv wz 2 : Int) : ℚ) then
      roundF32 (z - roundF32 (wz : ℚ))
    else z
  { psPart with position := { psPart.position with x := x1, z := z1 } }

/-- The position update of `processParticle` (lines 124-126): each axis advances
by `graphicsTimeAdjustedIncrement` of its velocity component, the sum stored as a
`float`. -/
def integrate (env : Env) (psPart : ATPART) : ATPART :=
  { psPart with position :=
      ⟨roundF32 (psPart.position.x + env.graphicsTimeAdjustedIncrement psPart.velocity.x),
       roundF32 (psPart.position.y + env.graphicsTimeAdjustedIncrement psPart.velocity.y),
       roundF32 (psPart.position.z + env.graphicsTimeAdjustedIncrement psPart.velocity.z)⟩ }

/-- The world-exit test of `processParticle` (lines 132-134). -/
def offWorld (env : Env) (p : ATPART) : Prop :=
  p.position.x < 0 ∨ p.position.z < 0 ∨
  p.position.x > (((env.mapWidth - 1) * TILE_UNITS : Int) : ℚ) ∨
  p.position.z > (((env.mapHeight - 1) * TILE_UNITS : Int) : ℚ)

instance (env : Env) (p : ATPART) : Decidable (offWorld env p) := by
  unfold offWorld; infer_instance

/-- The ground test of `processParticle` (lines 142-149): when the height is below
`TILE_MAX_HEIGHT`, the ground height under the particle is fetched, and the
result is `some groundHeight` if the particle is below ground or below zero. -/
def groundContact (env : Env) (p : ATPART) : Option Int :=
  if p.position.y < (env.TILE_MAX_HEIGHT : ℚ) then
    let groundHeight := env.map_Height (truncToInt p.position.x) (truncToInt p.position.z)
    if truncToInt p.position.y < groundHeight ∨ p.position.y < 0 then some groundHeight
    else none
  else none

/-- The splash of a dying rain drop (lines 153-166): one effect of size 60 at the
truncated position and ground height when the tile is water and visible. -/
def splashEvents (env : Env) (p : ATPART) (groundHeight : Int) : List Event :=
  if p.type = AP_TYPE.AP_RAIN then
    let x := map_coord (truncToInt p.position.x)
    let y := map_coord (truncToInt p.position.z)
    if env.isWater x y = true ∧ env.tileVisible x y = true then
      [Event.splash ⟨truncToInt p.position.x, groundHeight, truncToInt p.position.z⟩ 60
        MI.MI_SPLASH]
    else []
  else []

/-- The drift change of a snow flake (lines 170-180): two tests `rand() % 30 == 1`,
each followed, when it holds, by a fresh `SNOW_SPEED_DRIFT` for `velocity.z`,
respectively `velocity.x`. -/
def snowDrift (env : Env) (p : ATPART) (n : Nat) : ATPART × Nat :=
  if p.type = AP_TYPE.AP_SNOW then
    let r1 : ATPART × Nat :=
      if env.rand n % 30 = 1 then
        ({ p with velocity := { p.velocity with z := SNOW_SPEED_DRIFT (env.rand (n + 1)) } },
          n + 2)
      else (p, n + 1)
    if env.rand r1.2 % 30 = 1 then
      ({ r1.1 with velocity :=
          { r1.1.velocity with x := SNOW_SPEED_DRIFT (env.rand (r1.2 + 1)) } }, r1.2 + 2)
    else (r1.1, r1.2 + 1)
  else (p, n)

/-- The function `processParticle` (lines 113-182). The result is the particle
after the step, the effects emitted and the next `rand()` index. -/
def processParticle (env : Env) (psPart : ATPART) (n : Nat) : ATPART × List Event × Nat :=
  if env.gamePaused = true then (psPart, [], n)
  else
    let p := testParticleWrap env (integrate env psPart)
    if offWorld env p then
      ({ p with status := AP_STATUS.APS_INACTIVE }, [], n)
    else
      match groundContact env p with
      | some groundHeight =>
        ({ p with status := AP_STATUS.APS_INACTIVE }, splashEvents env p groundHeight, n)
      | none =>
        let r := snowDrift env p n
        (r.1, [], r.2)

/-! ## The update tick -/

/-- The first loop of `atmosUpdateSystem` (lines 257-264): every slot whose status
is `APS_ACTIVE` is processed, in index order. -/
def processAll (env : Env) : List ATPART → Nat → List ATPART × List Event × Nat
  | [], n => ([], [], n)
  | p :: ps, n =>
    let r1 : ATPART × List Event × Nat :=
      if p.status = AP_STATUS.APS_ACTIVE then processParticle env p n else (p, [], n)
    let r2 := processAll env ps r1.2.2
    (r1.1 :: r2.1, r1.2.1 ++ r2.2.1, r2.2.2)

/-- The rate of line 273, `(weather == WT_SNOWING) ? 2.0 : 4.0`: 2 for snow, 4 for
rain. -/
def kindRate (weather : WT_CLASS) : ℚ := if weather = WT_CLASS.WT_SNOWING then 2 else 4

/-- The spawn-rate accumulator (lines 268-277). A multiplier that is not NaN adds
`kindRate` times itself to the accumulator; then `numberToAdd` is the
accumulator converted to the 32-bit `UDWORD`, and it is subtracted back. The
conversion takes the integer part; from `2 ^ 32` on, where the language leaves
the conversion undefined, it keeps the low 32 bits, as the conversion
instruction followed by the 32-bit store does. The accumulator itself is a
`double`, here an exact rational. The result is
`(numberToAdd, accumulatedParticlesToAdd)`. -/
def accumulate (weather : WT_CLASS) (gameTimeModVal : Option ℚ) (acc : ℚ) : Nat × ℚ :=
  let acc1 : ℚ :=
    match gameTimeModVal with
    | some m => acc + kindRate weather * m
    | none => acc
  let numberToAdd : Nat := (truncToInt acc1).toNat % 2 ^ 32
  (numberToAdd, acc1 - (numberToAdd : ℚ))

/-- The candidate position of one spawn attempt (lines 282-286), from two
successive `rand()` results; both offsets take `rand() % visibleTiles.x`. -/
def spawnPos (env : Env) (r1 r2 : Nat) : Vector3f :=
  { x := (env.playerPos.x : ℚ) +
      ((world_coord (Int.tmod (r1 : Int) env.visibleTilesX - Int.tdiv env.visibleTilesX 2) : Int) : ℚ),
    y := 1000,
    z := (env.playerPos.z : ℚ) +
      ((world_coord (Int.tmod (r2 : Int) env.visibleTilesX - Int.tdiv env.visibleTilesY 2) : Int) : ℚ) }

/-- The on-grid test of a spawn candidate (lines 289-291). -/
def onGrid (env : Env) (pos : Vector3f) : Prop :=
  pos.x > 0 ∧ pos.z > 0 ∧
  pos.x < ((world_coord (env.mapWidth - 1) : Int) : ℚ) ∧
  pos.z < ((world_coord (env.mapHeight - 1) : Int) : ℚ)

instance (env : Env) (pos : Vector3f) : Decidable (onGrid env pos) := by
  unfold onGrid; infer_instance

/-- One turn of the spawn loop of `atmosUpdateSystem` (lines 282-305): a candidate
position is drawn; if it is on the grid the allocator is called with the kind
of the current weather, which is logged as `Event.spawn`. A zero
`visibleTiles.x` makes `rand() % visibleTiles.x` undefined. -/
def spawnOne (C : Nat) (env : Env) (st : AtmosState) (n : Nat) :
    Option (AtmosState × List Event × Nat) :=
  if env.visibleTilesX = 0 then none
  else
    let pos := spawnPos env (env.rand n) (env.rand (n + 1))
    if onGrid env pos then
      match st.weather with
      | WT_CLASS.WT_SNOWING =>
        match atmosAddParticle C env.rand st pos AP_TYPE.AP_SNOW (n + 2) with
        | none => none
        | some (st1, n1) => some (st1, [Event.spawn pos AP_TYPE.AP_SNOW], n1)
      | WT_CLASS.WT_RAINING =>
        match atmosAddParticle C env.rand st pos AP_TYPE.AP_RAIN (n + 2) with
        | none => none
        | some (st1, n1) => some (st1, [Event.spawn pos AP_TYPE.AP_RAIN], n1)
      | WT_CLASS.WT_NONE => some (st, [], n + 2)
    else some (st, [], n + 2)

/-- The spawn loop of `atmosUpdateSystem` (lines 280-306), run `numberToAdd`
times. -/
def spawnLoop (C : Nat) (env : Env) :
    Nat → AtmosState → Nat → Option (AtmosState × List Event × Nat)
  | 0, st, n => some (st, [], n)
  | k + 1, st, n =>
    match spawnOne C env st n with
    | none => none
    | some (st1, evs1, n1) =>
      match spawnLoop C env k st1 n1 with
      | none => none
      | some (st2, evs2, n2) => some (st2, evs1 ++ evs2, n2)

/-- The function `atmosUpdateSystem` (lines 248-308) for a pool of capacity `C`.
The result is the new state, the events of the tick (splashes of the
simulation pass, then allocator calls) and the next `rand()` index. -/
def atmosUpdateSystem (C : Nat) (env : Env) (st : AtmosState) (n : Nat) :
    Option (AtmosState × List Event × Nat) :=
  if env.gamePaused = false ∧ st.weather ≠ WT_CLASS.WT_NONE then
    match st.asAtmosParts with
    | none => none
    | some parts =>
      if parts.length ≠ C then none
      else
        let r := processAll env parts n
        let a := accumulate st.weather env.gameTimeMod st.accumulatedParticlesToAdd
        let st1 : AtmosState :=
          { st with asAtmosParts := some r.1, accumulatedParticlesToAdd := a.2 }
        match spawnLoop C env a.1 st1 r.2.2 with
        | none => none
        | some (st2, evs, n2) => some (st2, r.2.1 ++ evs, n2)
  else some (st, [], n)

/-! ## Call sequences and pool shapes used by the theorems -/

/-- A sequence of `atmosAddParticle` calls, one per `(position, kind)` entry, each
reading its random draws at the running `rand()` index. -/
def runAdds (C : Nat) (rand : Nat → Nat) :
    List (Vector3f × AP_TYPE) → AtmosState × Nat → Option (AtmosState × Nat)
  | [], s => some s
  | c :: cs, s =>
    match atmosAddParticle C rand s.1 c.1 c.2 s.2 with
    | none => none
    | some s1 => runAdds C rand cs s1

/-- The states the module can be in: the state at program start and whatever
`atmosSetWeatherType`, `atmosInitSystem` and `atmosUpdateSystem` (under any
environment) make of such a state. -/
inductive Reachable (C : Nat) : AtmosState → Prop where
  | start : Reachable C initialState
  | setWeatherType (type : WT_CLASS) {st : AtmosState} :
      Reachable C st → Reachable C (atmosSetWeatherType C type st)
  | initSystem {st : AtmosState} : Reachable C st → Reachable C (atmosInitSystem C st)
  | updateSystem (env : Env) (n : Nat) {st st1 : AtmosState} {evs : List Event} {n1 : Nat} :
      Reachable C st → atmosUpdateSystem C env st n = some (st1, evs, n1) → Reachable C st1

/-- Number of `APS_ACTIVE` slots of the state's pool (0 without a pool). -/
def poolActive (st : AtmosState) : Nat :=
  match st.asAtmosParts with
  | some parts => activeSlots parts
  | none => 0

/-- A pool of `C` slots whose first `k` slots are `APS_ACTIVE` and whose other
slots are `APS_INACTIVE`. -/
def FilledTo (C k : Nat) (parts : List ATPART) : Prop :=
  parts.map (fun p => p.status) =
    List.replicate k AP_STATUS.APS_ACTIVE ++ List.replicate (C - k) AP_STATUS.APS_INACTIVE

/-- The number of slots that repeated allocation on an empty pool of capacity `C`
fills before every further request is dropped: all `C` of them when `C ≥ 3`,
and `C - 1` for the capacities 1 and 2. -/
def fillLimit (C : Nat) : Nat := if C ≤ 2 then C - 1 else C

/-- The size `atmosAddParticle` gives a particle of each kind (lines 223, 227). -/
def kindSize (type : AP_TYPE) : Nat :=
  match type with
  | AP_TYPE.AP_SNOW => 80
  | AP_TYPE.AP_RAIN => 50

/-! ## Concrete inputs on which the theorems are exercised -/

/-- The state after `atmosSetWeatherType(WT_SNOWING)` at program start: a fresh
pool of capacity `C`, every slot inactive, search cursor 0. -/
def snowPool (C : Nat) : AtmosState := atmosSetWeatherType C WT_CLASS.WT_SNOWING initialState

/-- A spawn position high above the map. -/
def skyPos : Vector3f := ⟨640, 1000, 640⟩

/-- A `rand()` that always returns 0. -/
def zeroRand : Nat → Nat := fun _ => 0

/-- Three requests for a snow flake at `skyPos`. -/
def threeSnow : List (Vector3f × AP_TYPE) :=
  [(skyPos, AP_TYPE.AP_SNOW), (skyPos, AP_TYPE.AP_SNOW), (skyPos, AP_TYPE.AP_SNOW)]

/-- An unpaused game at normal speed: camera over tile (5, 5) of a flat, dry
10 x 10 map, a window of 4 x 4 tiles, `graphicsTimeAdjustedIncrement` the
identity, `TILE_MAX_HEIGHT = 510`. -/
def calmEnv : Env :=
  { gamePaused := false, graphicsTimeAdjustedIncrement := fun v => v, gameTimeMod := some 1,
    playerPos := ⟨640, 0, 640⟩, visibleTilesX := 4, visibleTilesY := 4,
    mapWidth := 10, mapHeight := 10, TILE_MAX_HEIGHT := 510,
    map_Height := fun _ _ => 0, isWater := fun _ _ => false, tileVisible := fun _ _ => true,
    rand := zeroRand }

/-- The environment `calmEnv` with the camera close to the map corner, so that the
visible window reaches beyond the map. -/
def edgeEnv : Env := { calmEnv with playerPos := ⟨100, 0, 100⟩ }

/-- The environment `calmEnv` with an undefined game-speed multiplier. -/
def nanEnv : Env := { calmEnv with gameTimeMod := none }

/-- The environment `calmEnv` over ground of height 600, above `TILE_MAX_HEIGHT`. -/
def highEnv : Env := { calmEnv with map_Height := fun _ _ => 600 }

/-- The state `snowPool 3` with half a particle accumulated. -/
def halfState : AtmosState := { snowPool 3 with accumulatedParticlesToAdd := 1 / 2 }

/-- An active snow flake at rest at `pos`. -/
def flakeAt (pos : Vector3f) : ATPART :=
  { status := AP_STATUS.APS_ACTIVE, type := AP_TYPE.AP_SNOW, size := 80, position := pos,
    velocity := ⟨0, 0, 0⟩, imd := some MI.MI_SNOW }

/-- An active snow flake at `pos` moving with `vel`. -/
def flakeMoving (pos vel : Vector3f) : ATPART :=
  { status := AP_STATUS.APS_ACTIVE, type := AP_TYPE.AP_SNOW, size := 80, position := pos,
    velocity := vel, imd := some MI.MI_SNOW }

/-- A pool of capacity 2 whose slot 0 is active, with the cursor on it: the state
of `snowPool 2` after one allocation. -/
def onePlaced : AtmosState :=
  { asAtmosParts := some [spawnedPart zeroPart skyPos AP_TYPE.AP_SNOW 0 0 0, zeroPart],
    freeParticle := 0, weather := WT_CLASS.WT_SNOWING, accumulatedParticlesToAdd := 0 }

/-- The kind of particle the spawn loop requests under a weather mode (the
`switch` of lines 294-304). -/
def kindOfWeather : WT_CLASS → Option AP_TYPE
  | WT_CLASS.WT_SNOWING => some AP_TYPE.AP_SNOW
  | WT_CLASS.WT_RAINING => some AP_TYPE.AP_RAIN
  | WT_CLASS.WT_NONE => none

/-- The environment `calmEnv` over a map that is water everywhere. -/
def lakeEnv : Env := { calmEnv with isWater := fun _ _ => true }

/-- The environment `calmEnv` with the game paused. -/
def pausedEnv : Env := { calmEnv with gamePaused := true }

/-- An active rain drop at `pos` moving with `vel`. -/
def dropMoving (pos vel : Vector3f) : ATPART :=
  { status := AP_STATUS.APS_ACTIVE, type := AP_TYPE.AP_RAIN, size := 50, position := pos,
    velocity := vel, imd := some MI.MI_RAIN }

/-- The first index, in the circular order `k, k+1, ..., C-1, 0, ..., k-1`, whose
slot is not active (`none` when every slot is active). -/
def firstFreeCircular (C : Nat) (parts : List ATPART) (k : Nat) : Option Nat :=
  ((List.range C).map (fun j => (k + j) % C)).find?
    (fun i => decide ((parts[i]?).map (fun p => p.status) ≠ some AP_STATUS.APS_ACTIVE))

/-- A pool of capacity 3 whose last slot only is active, with the cursor on it. -/
def lastPlaced : AtmosState :=
  { asAtmosParts := some [zeroPart, zeroPart, spawnedPart zeroPart skyPos AP_TYPE.AP_SNOW 0 0 0],
    freeParticle := 2, weather := WT_CLASS.WT_SNOWING, accumulatedParticlesToAdd := 0 }

/-- A value that `atmosAddParticle` can store in a drift component (`velocity.x`
or `velocity.z`) of a new particle of the given kind, for some random draws. -/
def DriftAttainable (type : AP_TYPE) (v : ℚ) : Prop :=
  ∃ (old : ATPART) (pos : Vector3f) (rx ry rz : Nat),
    (spawnedPart old pos type rx ry rz).velocity.x = v ∨
    (spawnedPart old pos type rx ry rz).velocity.z = v

/-- An unpaused game with a window of 10 x 2 tiles on a 64 x 64 map, camera at
(640, 640), and a `rand()` that always returns 9. -/
def wideEnv : Env :=
  { gamePaused := false, graphicsTimeAdjustedIncrement := fun v => v, gameTimeMod := some 1,
    playerPos := ⟨640, 0, 640⟩, visibleTilesX := 10, visibleTilesY := 2,
    mapWidth := 64, mapHeight := 64, TILE_MAX_HEIGHT := 510,
    map_Height := fun _ _ => 0, isWater := fun _ _ => false, tileVisible := fun _ _ => true,
    rand := fun _ => 9 }

/-- The step of the scan of `atmosAddParticle` from index `i`: the body's reset to
0 when `i >= C - 1`, followed by the loop's `i++`. -/
def scanNext (C i : Nat) : Nat := (if i ≥ C - 1 then 0 else i) + 1

/-- The index the scan examines after `j` steps from index `i`. -/
def visit (C : Nat) : Nat → Nat → Nat
  | i, 0 => i
  | i, j + 1 => visit C (scanNext C i) j

/-- The slot indices the scan of `atmosAddParticle` reads, in order: the loop of
`scanLoop`, recording `i` at every test of `asAtmosParts[i].status`. The
record stops with the loop, or at the first index outside the pool. -/
def scanReads (C : Nat) (parts : List ATPART) : Nat → Nat → Nat → List Nat
  | 0, _, _ => []
  | fuel + 1, i, activeCount =>
    match parts[i]? with
    | none => [i]
    | some p =>
      if p.status = AP_STATUS.APS_ACTIVE ∧ activeCount < C then
        i :: scanReads C parts fuel ((if i ≥ C - 1 then 0 else i) + 1) (activeCount + 1)
      else [i]

/-- The states reachable from program start through `atmosInitSystem`,
`atmosSetWeatherType` and `atmosAddParticle` with any arguments, and through
`atmosUpdateSystem` under any environment. -/
inductive AllocReachable (C : Nat) : AtmosState → Prop where
  | start : AllocReachable C initialState
  | setWeatherType (type : WT_CLASS) {st : AtmosState} :
      AllocReachable C st → AllocReachable C (atmosSetWeatherType C type st)
  | initSystem {st : AtmosState} : AllocReachable C st → AllocReachable C (atmosInitSystem C st)
  | addParticle (rand : Nat → Nat) (pos : Vector3f) (type : AP_TYPE) (n : Nat)
      {st st1 : AtmosState} {n1 : Nat} :
      AllocReachable C st → atmosAddParticle C rand st pos type n = some (st1, n1) →
      AllocReachable C st1
  | updateSystem (env : Env) (n : Nat) {st st1 : AtmosState} {evs : List Event} {n1 : Nat} :
      AllocReachable C st → atmosUpdateSystem C env st n = some (st1, evs, n1) →
      AllocReachable C st1

/-- A pool of capacity 1 whose only slot is active. -/
def soleActive : AtmosState :=
  { asAtmosParts := some [spawnedPart zeroPart skyPos AP_TYPE.AP_SNOW 0 0 0],
    freeParticle := 0, weather := WT_CLASS.WT_SNOWING, accumulatedParticlesToAdd := 0 }

/-- The invariant behind the bound on the cursor: the cursor is below `C`, a pool
has `C` slots, and the single slot of a pool of capacity 1 is inactive. -/
def CursorInv (C : Nat) (st : AtmosState) : Prop :=
  st.freeParticle < C ∧
  ∀ parts, st.asAtmosParts = some parts →
    parts.length = C ∧ (C = 1 → ∀ p ∈ parts, p.status = AP_STATUS.APS_INACTIVE)

/-- The value of the local `numberToAdd` in a tick of `atmosUpdateSystem` from
state `st` under `env` (line 276): the number of turns of the spawn loop. A tick
that is paused or without weather does not reach the accumulator and spawns
nothing: 0. -/
def tickNumberToAdd (env : Env) (st : AtmosState) : Nat :=
  if env.gamePaused = false ∧ st.weather ≠ WT_CLASS.WT_NONE then
    (accumulate st.weather env.gameTimeMod st.accumulatedParticlesToAdd).1
  else 0

/-- A sequence of ticks, each a weather mode and an environment: before every
tick the mode is set with `atmosSetWeatherType`, then `atmosUpdateSystem` runs.
The result is the final state, the next `rand()` index and the `numberToAdd`
of every tick. -/
def runUpdates (C : Nat) :
    List (WT_CLASS × Env) → AtmosState → Nat → Option (AtmosState × Nat × List Nat)
  | [], st, n => some (st, n, [])
  | t :: ts, st, n =>
    match atmosUpdateSystem C t.2 (atmosSetWeatherType C t.1 st) n with
    | none => none
    | some (st1, _, n1) =>
      match runUpdates C ts st1 n1 with
      | none => none
      | some (st2, n2, ks) =>
        some (st2, n2, tickNumberToAdd t.2 (atmosSetWeatherType C t.1 st) :: ks)

/-- The rate a tick adds to the accumulator: `kindRate` of the mode times the
game-speed multiplier (0 for a NaN multiplier). -/
def tickRate (t : WT_CLASS × Env) : ℚ := kindRate t.1 * t.2.gameTimeMod.getD 0

/-- The environment `calmEnv` at game speed `m`. -/
def speedEnv (m : ℚ) : Env := { calmEnv with gameTimeMod := some m }

/-- The environment `calmEnv` with the camera far out, at `x = 2 ^ 25 + 258`. -/
def farEnv : Env := { calmEnv with playerPos := ⟨33554690, 0, 640⟩ }

/-- Three ticks: snow at half speed, rain at a third, snow at three quarters. -/
def demoTicks : List (WT_CLASS × Env) :=
  [(WT_CLASS.WT_SNOWING, speedEnv (1 / 2)), (WT_CLASS.WT_RAINING, speedEnv (1 / 3)),
    (WT_CLASS.WT_SNOWING, speedEnv (3 / 4))]

/-! ## Lemmas on the allocator -/

theorem FilledTo.length {C k : Nat} {parts : List ATPART} (h : FilledTo C k parts) (hk : k ≤ C) :
    parts.length = C := by
  have := congrArg List.length h
  simp at this
  omega

theorem FilledTo.get_lt {C k : Nat} {parts : List ATPART} (h : FilledTo C k parts) {j : Nat}
    (hj : j < k) : ∃ p, parts[j]? = some p ∧ p.status = AP_STATUS.APS_ACTIVE := by
  have h1 := congrArg (fun l => l[j]?) h
  simp only [List.getElem?_map] at h1
  rw [List.getElem?_append_left (by simpa using hj), List.getElem?_replicate, if_pos hj] at h1
  cases hp : parts[j]? with
  | none => rw [hp] at h1; simp at h1
  | some p => rw [hp] at h1; exact ⟨p, rfl, by simpa using h1⟩

theorem FilledTo.get_ge {C k : Nat} {parts : List ATPART} (h : FilledTo C k parts) {j : Nat}
    (hj : k ≤ j) (hjC : j < C) : ∃ p, parts[j]? = some p ∧ p.status = AP_STATUS.APS_INACTIVE := by
  have h1 := congrArg (fun l => l[j]?) h
  simp only [List.getElem?_map] at h1
  rw [List.getElem?_append_right (by simpa using hj), List.getElem?_replicate,
    if_pos (by simp; omega)] at h1
  cases hp : parts[j]? with
  | none => rw [hp] at h1; simp at h1
  | some p => rw [hp] at h1; exact ⟨p, rfl, by simpa using h1⟩

theorem FilledTo.set {C k : Nat} {parts : List ATPART} (h : FilledTo C k parts) (hk : k < C)
    (q : ATPART) (hq : q.status = AP_STATUS.APS_ACTIVE) : FilledTo C (k + 1) (parts.set k q) := by
  unfold FilledTo at *
  obtain ⟨m, hm⟩ : ∃ m, C - k = m + 1 := ⟨C - k - 1, by omega⟩
  have hm2 : C - (k + 1) = m := by omega
  rw [List.map_set, h, hq, hm, hm2, List.replicate_succ, List.set_append,
    if_neg (by simp), List.length_replicate, Nat.sub_self, List.set_cons_zero,
    List.replicate_succ', List.append_assoc]
  rfl

theorem FilledTo.activeSlots_eq {C k : Nat} {parts : List ATPART} (h : FilledTo C k parts) :
    activeSlots parts = k := by
  have : activeSlots parts = (parts.map (fun p => p.status)).count AP_STATUS.APS_ACTIVE := by
    unfold activeSlots
    rw [List.count, List.countP_map]
    congr 1
  rw [this, h]
  simp [List.count_append, List.count_replicate]

theorem scanLoop_inactive (C : Nat) (parts : List ATPART) (fuel i ac : Nat) (p : ATPART)
    (hp : parts[i]? = some p) (hs : p.status = AP_STATUS.APS_INACTIVE) :
    scanLoop C parts (fuel + 1) i ac = some (i, ac) := by
  simp [scanLoop, hp, hs]

theorem scanLoop_active (C : Nat) (parts : List ATPART) (fuel i ac : Nat) (p : ATPART)
    (hp : parts[i]? = some p) (hs : p.status = AP_STATUS.APS_ACTIVE) (hac : ac < C) :
    scanLoop C parts (fuel + 1) i ac =
      scanLoop C parts fuel ((if i ≥ C - 1 then 0 else i) + 1) (ac + 1) := by
  simp [scanLoop, hp, hs, hac]

theorem scanLoop_capped (C : Nat) (parts : List ATPART) (fuel i : Nat) (p : ATPART)
    (hp : parts[i]? = some p) :
    scanLoop C parts (fuel + 1) i C = some (i, C) := by
  simp [scanLoop, hp]

theorem scanLoop_all_active (C : Nat) (parts : List ATPART) (hC : 2 ≤ C)
    (hall : ∀ j, j < C → ∃ p, parts[j]? = some p ∧ p.status = AP_STATUS.APS_ACTIVE) :
    ∀ (fuel i ac : Nat), i < C → ac ≤ C → C - ac < fuel →
      ∃ i', i' < C ∧ scanLoop C parts fuel i ac = some (i', C) := by
  intro fuel
  induction fuel with
  | zero => intro i ac _ _ h; omega
  | succ f ih =>
    intro i ac hi hac hf
    obtain ⟨p, hp, hs⟩ := hall i hi
    by_cases h : ac < C
    · rw [scanLoop_active C parts f i ac p hp hs h]
      apply ih
      · split <;> omega
      · omega
      · omega
    · have : ac = C := by omega
      subst this
      exact ⟨i, hi, scanLoop_capped _ parts f i p hp⟩

/-- The result of the scan does not depend on the fuel once it exceeds
`C - activeCount`: the fuel `C + 1` of `atmosAddParticle` never runs out. -/
theorem scanLoop_fuel (C : Nat) (parts : List ATPART) :
    ∀ (f1 f2 i ac : Nat), C - ac < f1 → C - ac < f2 →
      scanLoop C parts f1 i ac = scanLoop C parts f2 i ac := by
  intro f1
  induction f1 with
  | zero => intro f2 i ac h; omega
  | succ f ih =>
    intro f2 i ac h1 h2
    obtain ⟨g, rfl⟩ : ∃ g, f2 = g + 1 := ⟨f2 - 1, by omega⟩
    unfold scanLoop
    cases parts[i]? with
    | none => rfl
    | some p =>
      simp only
      split
      · rename_i hc
        exact ih g _ _ (by omega) (by omega)
      · rfl

theorem slot_exists (parts : List ATPART) (i : Nat) (h : i < parts.length) :
    ∃ p, parts[i]? = some p :=
  ⟨parts[i], List.getElem?_eq_getElem h⟩

theorem scanLoop_total (C : Nat) (parts : List ATPART) (hC : 2 ≤ C) (hlen : parts.length = C) :
    ∀ (fuel i ac : Nat), i < C → ac ≤ C → C - ac < fuel →
      ∃ i1 ac1, scanLoop C parts fuel i ac = some (i1, ac1) ∧ i1 < C ∧ ac1 ≤ C := by
  intro fuel
  induction fuel with
  | zero => intro i ac _ _ h; omega
  | succ f ih =>
    intro i ac hi hac hf
    obtain ⟨p, hget⟩ := slot_exists parts i (by omega)
    by_cases hcond : p.status = AP_STATUS.APS_ACTIVE ∧ ac < C
    · rw [scanLoop_active C parts f i ac _ hget hcond.1 hcond.2]
      apply ih
      · split <;> omega
      · omega
      · omega
    · refine ⟨i, ac, ?_, hi, hac⟩
      simp [scanLoop, hget, hcond]

theorem spawnedPart_status (old : ATPART) (pos : Vector3f) (type : AP_TYPE) (rx ry rz : Nat) :
    (spawnedPart old pos type rx ry rz).status = AP_STATUS.APS_ACTIVE := by
  cases type <;> simp [spawnedPart]

theorem scan_filled_below {C k : Nat} {parts : List ATPART} (hF : FilledTo C k parts)
    (hk : k < fillLimit C) :
    scanLoop C parts (C + 1) (k - 1) 0 = some (k, if k = 0 then 0 else 1) := by
  have hkC : k < C := by unfold fillLimit at hk; split at hk <;> omega
  obtain ⟨q, hq, hqs⟩ := hF.get_ge (Nat.le_refl k) hkC
  by_cases h0 : k = 0
  · subst h0
    simpa using scanLoop_inactive C parts C 0 0 q hq hqs
  · obtain ⟨p, hp, hps⟩ := hF.get_lt (show k - 1 < k by omega)
    rw [scanLoop_active C parts C (k - 1) 0 p hp hps (by omega)]
    have hi : (if k - 1 ≥ C - 1 then 0 else k - 1) + 1 = k := by
      rw [if_neg (by omega)]; omega
    obtain ⟨f, hf⟩ : ∃ f, C = f + 1 := ⟨C - 1, by omega⟩
    rw [hi, if_neg h0]
    conv => lhs; arg 3; rw [hf]
    exact scanLoop_inactive C parts f k 1 q hq hqs

theorem add_filled_below {C k : Nat} {parts : List ATPART} (hF : FilledTo C k parts)
    (hk : k < fillLimit C) (rand : Nat → Nat) (st : AtmosState)
    (hst : st.asAtmosParts = some parts) (hcur : st.freeParticle = k - 1)
    (pos : Vector3f) (type : AP_TYPE) (n : Nat) :
    ∃ old, parts[k]? = some old ∧ old.status = AP_STATUS.APS_INACTIVE ∧
      atmosAddParticle C rand st pos type n =
        some ({ st with
                freeParticle := k,
                asAtmosParts := some (parts.set k
                  (spawnedPart old pos type (rand n) (rand (n + 1)) (rand (n + 2)))) },
              n + 3) := by
  have hkC : k < C := by unfold fillLimit at hk; split at hk <;> omega
  obtain ⟨q, hq, hqs⟩ := hF.get_ge (Nat.le_refl k) hkC
  refine ⟨q, hq, hqs, ?_⟩
  have hlt : ¬ (if k = 0 then 0 else 1) ≥ C - 1 := by
    unfold fillLimit at hk
    split <;> split at hk <;> omega
  simp only [atmosAddParticle, hst, hcur, scan_filled_below hF hk, hq]
  rw [if_neg hlt]

theorem add_filled_full {C : Nat} (hC : 1 ≤ C) {parts : List ATPART}
    (hF : FilledTo C (fillLimit C) parts) (rand : Nat → Nat) (st : AtmosState)
    (hst : st.asAtmosParts = some parts) (hcur : st.freeParticle = fillLimit C - 1)
    (pos : Vector3f) (type : AP_TYPE) (n : Nat) :
    atmosAddParticle C rand st pos type n = some (st, n) := by
  by_cases h3 : 3 ≤ C
  · have hl : fillLimit C = C := by unfold fillLimit; rw [if_neg (by omega)]
    rw [hl] at hF hcur
    obtain ⟨i, _, hi⟩ := scanLoop_all_active C parts (by omega)
      (fun j hj => hF.get_lt hj) (C + 1) (C - 1) 0 (by omega) (by omega) (by omega)
    simp only [atmosAddParticle, hst, hcur, hi]
    rw [if_pos (by omega)]
  · have hl : fillLimit C = C - 1 := by unfold fillLimit; rw [if_pos (by omega)]
    rw [hl] at hF hcur
    obtain ⟨q, hq, hqs⟩ := hF.get_ge (Nat.le_refl _) (show C - 1 < C by omega)
    have hscan : scanLoop C parts (C + 1) (C - 1 - 1) 0 = some (C - 1, C - 1) := by
      have hC12 : C = 1 ∨ C = 2 := by omega
      rcases hC12 with h | h
      · subst h
        simpa using scanLoop_inactive 1 parts 1 0 0 q (by simpa using hq) hqs
      · subst h
        obtain ⟨p, hp, hps⟩ := hF.get_lt (show 0 < 2 - 1 by omega)
        have := scanLoop_active 2 parts 2 0 0 p hp hps (by omega)
        simp at this
        simp
        rw [this]
        exact scanLoop_inactive 2 parts 1 1 1 q (by simpa using hq) hqs
    simp only [atmosAddParticle, hst, hcur, hscan]
    rw [if_pos (by omega)]

theorem atmosAddParticle_total (C : Nat) (hC : 2 ≤ C) (rand : Nat → Nat) (st : AtmosState)
    (parts : List ATPART) (hst : st.asAtmosParts = some parts) (hlen : parts.length = C)
    (hcur : st.freeParticle < C) (pos : Vector3f) (type : AP_TYPE) (n : Nat) :
    ∃ st1 n1 parts1, atmosAddParticle C rand st pos type n = some (st1, n1) ∧
      st1.asAtmosParts = some parts1 ∧ parts1.length = C ∧ st1.freeParticle < C := by
  obtain ⟨i, ac, hscan, hi, _⟩ :=
    scanLoop_total C parts hC hlen (C + 1) st.freeParticle 0 hcur (Nat.zero_le _) (by omega)
  obtain ⟨old, hget⟩ := slot_exists parts i (by omega)
  by_cases hdrop : ac ≥ C - 1
  · refine ⟨st, n, parts, ?_, hst, hlen, hcur⟩
    simp only [atmosAddParticle, hst, hscan]
    rw [if_pos hdrop]
  · refine ⟨{ st with freeParticle := i, asAtmosParts := some (parts.set i
        (spawnedPart old pos type (rand n) (rand (n + 1)) (rand (n + 2)))) }, n + 3,
      parts.set i (spawnedPart old pos type (rand n) (rand (n + 1)) (rand (n + 2))),
      ?_, rfl, ?_, hi⟩
    · simp only [atmosAddParticle, hst, hscan, hget]
      rw [if_neg hdrop]
    · simp [hlen]

theorem FilledTo.of_all_inactive {C : Nat} {parts : List ATPART} (hlen : parts.length = C)
    (hall : ∀ p ∈ parts, p.status = AP_STATUS.APS_INACTIVE) : FilledTo C 0 parts := by
  unfold FilledTo
  simp only [List.replicate_zero, List.nil_append, Nat.sub_zero]
  rw [List.eq_replicate_iff]
  refine ⟨by simpa using hlen, ?_⟩
  intro b hb
  obtain ⟨p, hp, rfl⟩ := List.mem_map.1 hb
  exact hall p hp

theorem fillLimit_le (C : Nat) : fillLimit C ≤ C := by
  unfold fillLimit; split <;> omega

theorem runAdds_filled {C : Nat} (hC : 1 ≤ C) (rand : Nat → Nat) :
    ∀ (calls : List (Vector3f × AP_TYPE)) (k : Nat) (st : AtmosState) (n : Nat)
      (parts : List ATPART), FilledTo C k parts → k ≤ fillLimit C →
      st.asAtmosParts = some parts → st.freeParticle = k - 1 →
      ∃ st1 n1 parts1, runAdds C rand calls (st, n) = some (st1, n1) ∧
        st1.asAtmosParts = some parts1 ∧
        FilledTo C (min (k + calls.length) (fillLimit C)) parts1 ∧
        st1.freeParticle = min (k + calls.length) (fillLimit C) - 1 := by
  intro calls
  induction calls with
  | nil =>
    intro k st n parts hF hk hst hcur
    refine ⟨st, n, parts, rfl, hst, ?_, ?_⟩
    · simpa [Nat.min_eq_left hk] using hF
    · simpa [Nat.min_eq_left hk] using hcur
  | cons c cs ih =>
    intro k st n parts hF hk hst hcur
    by_cases hlt : k < fillLimit C
    · obtain ⟨old, _, _, hadd⟩ := add_filled_below hF hlt rand st hst hcur c.1 c.2 n
      have hkC : k < C := lt_of_lt_of_le hlt (fillLimit_le C)
      have hF1 := hF.set hkC (spawnedPart old c.1 c.2 (rand n) (rand (n + 1)) (rand (n + 2)))
        (spawnedPart_status _ _ _ _ _ _)
      obtain ⟨st1, n1, parts1, hrun, hp1, hF2, hc2⟩ :=
        ih (k + 1)
          { st with
            freeParticle := k,
            asAtmosParts := some (parts.set k
              (spawnedPart old c.1 c.2 (rand n) (rand (n + 1)) (rand (n + 2)))) }
          (n + 3) _ hF1 hlt rfl (by simp)
      refine ⟨st1, n1, parts1, ?_, hp1, ?_, ?_⟩
      · simp only [runAdds, hadd]; exact hrun
      · have : k + 1 + cs.length = k + (c :: cs).length := by simp; omega
        rw [← this]; exact hF2
      · have : k + 1 + cs.length = k + (c :: cs).length := by simp; omega
        rw [← this]; exact hc2
    · have hk2 : k = fillLimit C := by omega
      subst hk2
      have hadd := add_filled_full hC hF rand st hst hcur c.1 c.2 n
      obtain ⟨st1, n1, parts1, hrun, hp1, hF2, hc2⟩ := ih _ st n parts hF hk hst hcur
      refine ⟨st1, n1, parts1, ?_, hp1, ?_, ?_⟩
      · simp only [runAdds, hadd]; exact hrun
      · have e1 : min (fillLimit C + cs.length) (fillLimit C) = fillLimit C := by omega
        have e2 : min (fillLimit C + (c :: cs).length) (fillLimit C) = fillLimit C := by omega
        rw [e2]; rw [e1] at hF2; exact hF2
      · have e1 : min (fillLimit C + cs.length) (fillLimit C) = fillLimit C := by omega
        have e2 : min (fillLimit C + (c :: cs).length) (fillLimit C) = fillLimit C := by omega
        rw [e2]; rw [e1] at hc2; exact hc2

/-- C1, as stated, fails: on the fresh pool of capacity 3 (every slot inactive,
cursor 0), three `atmosAddParticle` calls leave all 3 slots active, which is
more than `C - 1 = 2`. -/
theorem capacity_bound_exceeded :
    (snowPool 3).asAtmosParts = some (List.replicate 3 zeroPart) ∧
    (snowPool 3).freeParticle = 0 ∧
    (runAdds 3 zeroRand threeSnow (snowPool 3, 0)).map (fun r => poolActive r.1) = some 3 ∧
    ¬ (3 ≤ 3 - 1) := by
  decide

/-- C1 (amended): starting from a pool of capacity `C ≥ 1` with every slot inactive
and search cursor 0, every finite sequence of `atmosAddParticle` calls, with any
positions, kinds and random draws, runs to completion, keeps the pool at `C`
slots, and leaves exactly `min n C` slots active after `n` calls when `C ≥ 3`
(`min n (C - 1)` for the capacities 1 and 2). The number of active slots is
therefore at most `C`; it is not bounded by `C - 1` once `C ≥ 3`. -/
theorem active_count_after_adds (C : Nat) (hC : 1 ≤ C) (rand : Nat → Nat) (st : AtmosState)
    (parts : List ATPART) (n : Nat) (calls : List (Vector3f × AP_TYPE))
    (hst : st.asAtmosParts = some parts) (hlen : parts.length = C)
    (hall : ∀ p ∈ parts, p.status = AP_STATUS.APS_INACTIVE) (hcur : st.freeParticle = 0) :
    ∃ st1 n1 parts1, runAdds C rand calls (st, n) = some (st1, n1) ∧
      st1.asAtmosParts = some parts1 ∧ parts1.length = C ∧
      activeSlots parts1 = min calls.length (if C ≤ 2 then C - 1 else C) ∧
      activeSlots parts1 ≤ C := by
  obtain ⟨st1, n1, parts1, hrun, hp1, hF, _⟩ :=
    runAdds_filled hC rand calls 0 st n parts (FilledTo.of_all_inactive hlen hall)
      (Nat.zero_le _) hst (by simpa using hcur)
  have hle : min (0 + calls.length) (fillLimit C) ≤ C :=
    le_trans (Nat.min_le_right _ _) (fillLimit_le C)
  refine ⟨st1, n1, parts1, hrun, hp1, hF.length hle, ?_, ?_⟩
  · rw [hF.activeSlots_eq]; simp [fillLimit]
  · rw [hF.activeSlots_eq]; exact hle

/-- An instance of the count of active slots: the fresh pool of capacity 3 and
three snow requests. -/
theorem active_count_after_adds_witness :
    1 ≤ 3 ∧ (snowPool 3).asAtmosParts = some (List.replicate 3 zeroPart) ∧
    (List.replicate 3 zeroPart).length = 3 ∧
    (∀ p ∈ List.replicate 3 zeroPart, p.status = AP_STATUS.APS_INACTIVE) ∧
    (snowPool 3).freeParticle = 0 ∧
    ∃ st1 n1 parts1, runAdds 3 zeroRand threeSnow (snowPool 3, 0) = some (st1, n1) ∧
      st1.asAtmosParts = some parts1 ∧ parts1.length = 3 ∧
      activeSlots parts1 = min threeSnow.length (if 3 ≤ 2 then 3 - 1 else 3) ∧
      activeSlots parts1 ≤ 3 :=
  ⟨by decide, by decide, by decide, by decide, by decide,
    active_count_after_adds 3 (by decide) zeroRand (snowPool 3) (List.replicate 3 zeroPart) 0
      threeSnow (by decide) (by decide) (by decide) (by decide)⟩

theorem scanLoop_exit (C : Nat) (parts : List ATPART) :
    ∀ (fuel i ac i1 ac1 : Nat), scanLoop C parts fuel i ac = some (i1, ac1) →
      ∃ p, parts[i1]? = some p ∧ (p.status = AP_STATUS.APS_INACTIVE ∨ C ≤ ac1) := by
  intro fuel
  induction fuel with
  | zero => intro i ac i1 ac1 h; simp [scanLoop] at h
  | succ f ih =>
    intro i ac i1 ac1 h
    unfold scanLoop at h
    cases hp : parts[i]? with
    | none => rw [hp] at h; simp at h
    | some p =>
      rw [hp] at h
      simp only at h
      split at h
      · exact ih _ _ _ _ h
      · rename_i hc
        simp only [Option.some.injEq, Prod.mk.injEq] at h
        obtain ⟨rfl, rfl⟩ := h
        refine ⟨p, hp, ?_⟩
        by_cases hs : p.status = AP_STATUS.APS_ACTIVE
        · right
          have : ¬ ac < C := fun h' => hc ⟨hs, h'⟩
          omega
        · left
          cases hps : p.status with
          | APS_INACTIVE => rfl
          | APS_ACTIVE => exact absurd hps hs

theorem spawnedPart_fields (old : ATPART) (pos : Vector3f) (type : AP_TYPE) (rx ry rz : Nat) :
    (spawnedPart old pos type rx ry rz).status = AP_STATUS.APS_ACTIVE ∧
    (spawnedPart old pos type rx ry rz).type = type ∧
    (spawnedPart old pos type rx ry rz).position = pos ∧
    (spawnedPart old pos type rx ry rz).size = kindSize type := by
  cases type <;> simp [spawnedPart, kindSize]

/-- C3: for every pool of capacity `C`, every position and kind, if the scan of
`atmosAddParticle` ends at slot `i` with `activeCount < C - 1` (the request is
not dropped), then slot `i` was inactive before the call, the call returns, and
afterwards the search cursor is `i`, slot `i` is active with the given kind and
position and size 80 (snow) or 50 (rain), every other slot is unchanged, and so
are the weather mode and the accumulator. This holds for every cursor, in
particular for every cursor `< C`. -/
theorem allocation_success (C : Nat) (rand : Nat → Nat) (st : AtmosState) (parts : List ATPART)
    (pos : Vector3f) (type : AP_TYPE) (n i activeCount : Nat)
    (hst : st.asAtmosParts = some parts) (hlen : parts.length = C)
    (hscan : scanLoop C parts (C + 1) st.freeParticle 0 = some (i, activeCount))
    (hkeep : ¬ activeCount ≥ C - 1) :
    ∃ old st1 parts1 new,
      parts[i]? = some old ∧ old.status = AP_STATUS.APS_INACTIVE ∧
      atmosAddParticle C rand st pos type n = some (st1, n + 3) ∧
      st1.freeParticle = i ∧ i < C ∧
      st1.asAtmosParts = some parts1 ∧ parts1.length = C ∧
      parts1[i]? = some new ∧
      new.status = AP_STATUS.APS_ACTIVE ∧ new.type = type ∧ new.position = pos ∧
      new.size = (match type with
        | AP_TYPE.AP_SNOW => 80
        | AP_TYPE.AP_RAIN => 50) ∧
      (∀ j, j ≠ i → parts1[j]? = parts[j]?) ∧
      st1.weather = st.weather ∧
      st1.accumulatedParticlesToAdd = st.accumulatedParticlesToAdd := by
  obtain ⟨old, hold, hor⟩ := scanLoop_exit C parts _ _ _ _ _ hscan
  have hinact : old.status = AP_STATUS.APS_INACTIVE := by
    rcases hor with h | h
    · exact h
    · omega
  have hi : i < C := by
    rw [← hlen]
    by_contra hge
    rw [List.getElem?_eq_none (by omega)] at hold
    simp at hold
  obtain ⟨h1, h2, h3, h4⟩ :=
    spawnedPart_fields old pos type (rand n) (rand (n + 1)) (rand (n + 2))
  refine ⟨old, { st with freeParticle := i, asAtmosParts := some (parts.set i
      (spawnedPart old pos type (rand n) (rand (n + 1)) (rand (n + 2)))) },
    parts.set i (spawnedPart old pos type (rand n) (rand (n + 1)) (rand (n + 2))),
    spawnedPart old pos type (rand n) (rand (n + 1)) (rand (n + 2)),
    hold, hinact, ?_, rfl, hi, rfl, ?_, ?_, h1, h2, h3, ?_, ?_, rfl, rfl⟩
  · simp only [atmosAddParticle, hst, hscan, hold]
    rw [if_neg hkeep]
  · simp [hlen]
  · exact List.getElem?_set_self (by omega)
  · rw [h4]; cases type <;> rfl
  · intro j hj
    exact List.getElem?_set_ne (fun h => hj h.symm)

/-- An instance of the allocation postcondition: on the fresh pool of capacity 3
the scan ends at slot 0 with `activeCount = 0`. -/
theorem allocation_success_witness :
    (snowPool 3).asAtmosParts = some (List.replicate 3 zeroPart) ∧
    (List.replicate 3 zeroPart).length = 3 ∧
    scanLoop 3 (List.replicate 3 zeroPart) (3 + 1) (snowPool 3).freeParticle 0 = some (0, 0) ∧
    ¬ 0 ≥ 3 - 1 ∧
    ∃ old st1 parts1 new,
      (List.replicate 3 zeroPart)[0]? = some old ∧ old.status = AP_STATUS.APS_INACTIVE ∧
      atmosAddParticle 3 zeroRand (snowPool 3) skyPos AP_TYPE.AP_SNOW 0 = some (st1, 0 + 3) ∧
      st1.freeParticle = 0 ∧ 0 < 3 ∧
      st1.asAtmosParts = some parts1 ∧ parts1.length = 3 ∧
      parts1[0]? = some new ∧
      new.status = AP_STATUS.APS_ACTIVE ∧ new.type = AP_TYPE.AP_SNOW ∧ new.position = skyPos ∧
      new.size = (match AP_TYPE.AP_SNOW with
        | AP_TYPE.AP_SNOW => 80
        | AP_TYPE.AP_RAIN => 50) ∧
      (∀ j, j ≠ 0 → parts1[j]? = (List.replicate 3 zeroPart)[j]?) ∧
      st1.weather = (snowPool 3).weather ∧
      st1.accumulatedParticlesToAdd = (snowPool 3).accumulatedParticlesToAdd :=
  ⟨by decide, by decide, by decide, by decide,
    allocation_success 3 zeroRand (snowPool 3) (List.replicate 3 zeroPart) skyPos
      AP_TYPE.AP_SNOW 0 0 0 (by decide) (by decide) (by decide) (by decide)⟩

/-- C4: if the scan of `atmosAddParticle` from the cursor ends with
`activeCount ≥ C - 1`, the call returns with the whole state (pool, search
cursor, weather mode, accumulator) exactly as before, and consumes no random
draw: no particle is created. This holds for every cursor, in particular for
every cursor `< C`. -/
theorem allocation_drop (C : Nat) (rand : Nat → Nat) (st : AtmosState) (parts : List ATPART)
    (pos : Vector3f) (type : AP_TYPE) (n i activeCount : Nat)
    (hst : st.asAtmosParts = some parts)
    (hscan : scanLoop C parts (C + 1) st.freeParticle 0 = some (i, activeCount))
    (hdrop : activeCount ≥ C - 1) :
    atmosAddParticle C rand st pos type n = some (st, n) := by
  simp only [atmosAddParticle, hst, hscan]
  rw [if_pos hdrop]


theorem runAdds_append (C : Nat) (rand : Nat → Nat) :
    ∀ (l1 l2 : List (Vector3f × AP_TYPE)) (s : AtmosState × Nat),
      runAdds C rand (l1 ++ l2) s = (runAdds C rand l1 s).bind (runAdds C rand l2) := by
  intro l1
  induction l1 with
  | nil => intro l2 s; simp [runAdds]
  | cons c cs ih =>
    intro l2 s
    simp only [List.cons_append, runAdds]
    cases h : atmosAddParticle C rand s.1 c.1 c.2 s.2 with
    | none => simp
    | some s1 => simp [ih]

/-- An instance of the dropped request: on a pool of capacity 2 whose slot 0 is
active the scan counts one active slot, which is `C - 1`. -/
theorem allocation_drop_witness :
    onePlaced.asAtmosParts =
      some [spawnedPart zeroPart skyPos AP_TYPE.AP_SNOW 0 0 0, zeroPart] ∧
    scanLoop 2 [spawnedPart zeroPart skyPos AP_TYPE.AP_SNOW 0 0 0, zeroPart] (2 + 1)
      onePlaced.freeParticle 0 = some (1, 1) ∧
    1 ≥ 2 - 1 ∧
    atmosAddParticle 2 zeroRand onePlaced skyPos AP_TYPE.AP_RAIN 0 = some (onePlaced, 0) :=
  ⟨by decide, by decide, by decide,
    allocation_drop 2 zeroRand onePlaced
      [spawnedPart zeroPart skyPos AP_TYPE.AP_SNOW 0 0 0, zeroPart] skyPos AP_TYPE.AP_RAIN 0 1 1
      (by decide) (by decide) (by decide)⟩

/-- C5: on a pool of capacity `C ≥ 3` with every slot inactive and cursor 0, for
every `k ≤ C - 2` the `(k+1)`-th `atmosAddParticle` call finds slots `0..k-1`
active and slots `k..C-1` inactive, writes the new particle into slot `k`
(inactive until then) and nothing else, and sets the cursor to `k`; after it
exactly the slots `0..k` are active. So the first `C - 1` calls fill slots
`0..C-2` in increasing order and none of them overwrites an active slot. -/
theorem allocator_rotation (C : Nat) (hC : 3 ≤ C) (rand : Nat → Nat) (st : AtmosState)
    (parts : List ATPART) (n : Nat) (calls : List (Vector3f × AP_TYPE))
    (hst : st.asAtmosParts = some parts) (hlen : parts.length = C)
    (hall : ∀ p ∈ parts, p.status = AP_STATUS.APS_INACTIVE) (hcur : st.freeParticle = 0)
    (k : Nat) (hk : k ≤ C - 2) (hcalls : k < calls.length) :
    ∃ sk nk pk old,
      runAdds C rand (calls.take k) (st, n) = some (sk, nk) ∧
      sk.asAtmosParts = some pk ∧ FilledTo C k pk ∧
      pk[k]? = some old ∧ old.status = AP_STATUS.APS_INACTIVE ∧
      atmosAddParticle C rand sk calls[k].1 calls[k].2 nk =
        some ({ sk with
                freeParticle := k,
                asAtmosParts := some (pk.set k
                  (spawnedPart old calls[k].1 calls[k].2 (rand nk) (rand (nk + 1))
                    (rand (nk + 2)))) }, nk + 3) ∧
      runAdds C rand (calls.take (k + 1)) (st, n) =
        some ({ sk with
                freeParticle := k,
                asAtmosParts := some (pk.set k
                  (spawnedPart old calls[k].1 calls[k].2 (rand nk) (rand (nk + 1))
                    (rand (nk + 2)))) }, nk + 3) ∧
      FilledTo C (k + 1) (pk.set k
        (spawnedPart old calls[k].1 calls[k].2 (rand nk) (rand (nk + 1)) (rand (nk + 2)))) := by
  have hlim : fillLimit C = C := by unfold fillLimit; rw [if_neg (by omega)]
  obtain ⟨sk, nk, pk, hrun, hpk, hF, hc⟩ :=
    runAdds_filled (show 1 ≤ C by omega) rand (calls.take k) 0 st n parts
      (FilledTo.of_all_inactive hlen hall) (Nat.zero_le _) hst (by simpa using hcur)
  have hmin : min (0 + (calls.take k).length) (fillLimit C) = k := by
    rw [hlim, List.length_take]; omega
  rw [hmin] at hF hc
  have hklt : k < fillLimit C := by omega
  obtain ⟨old, hold, hinact, hadd⟩ :=
    add_filled_below hF hklt rand sk hpk hc calls[k].1 calls[k].2 nk
  refine ⟨sk, nk, pk, old, hrun, hpk, hF, hold, hinact, hadd, ?_, ?_⟩
  · have ht : calls.take (k + 1) = calls.take k ++ [calls[k]] := by
      rw [List.take_succ, List.getElem?_eq_getElem hcalls]; rfl
    rw [ht, runAdds_append, hrun]
    simp only [Option.bind, runAdds, hadd]
  · exact hF.set (by omega) _ (spawnedPart_status _ _ _ _ _ _)

/-- An instance of the rotation: the second of three snow requests on the fresh
pool of capacity 3. -/
theorem allocator_rotation_witness :
    3 ≤ 3 ∧ (snowPool 3).asAtmosParts = some (List.replicate 3 zeroPart) ∧
    (List.replicate 3 zeroPart).length = 3 ∧
    (∀ p ∈ List.replicate 3 zeroPart, p.status = AP_STATUS.APS_INACTIVE) ∧
    (snowPool 3).freeParticle = 0 ∧ 1 ≤ 3 - 2 ∧
    ∃ (h : 1 < threeSnow.length), ∃ sk nk pk old,
      runAdds 3 zeroRand (threeSnow.take 1) (snowPool 3, 0) = some (sk, nk) ∧
      sk.asAtmosParts = some pk ∧ FilledTo 3 1 pk ∧
      pk[1]? = some old ∧ old.status = AP_STATUS.APS_INACTIVE ∧
      atmosAddParticle 3 zeroRand sk threeSnow[1].1 threeSnow[1].2 nk =
        some ({ sk with
                freeParticle := 1,
                asAtmosParts := some (pk.set 1
                  (spawnedPart old threeSnow[1].1 threeSnow[1].2 (zeroRand nk)
                    (zeroRand (nk + 1)) (zeroRand (nk + 2)))) }, nk + 3) ∧
      runAdds 3 zeroRand (threeSnow.take (1 + 1)) (snowPool 3, 0) =
        some ({ sk with
                freeParticle := 1,
                asAtmosParts := some (pk.set 1
                  (spawnedPart old threeSnow[1].1 threeSnow[1].2 (zeroRand nk)
                    (zeroRand (nk + 1)) (zeroRand (nk + 2)))) }, nk + 3) ∧
      FilledTo 3 (1 + 1) (pk.set 1
        (spawnedPart old threeSnow[1].1 threeSnow[1].2 (zeroRand nk) (zeroRand (nk + 1))
          (zeroRand (nk + 2)))) :=
  ⟨by decide, by decide, by decide, by decide, by decide, by decide, by decide,
    allocator_rotation 3 (by decide) zeroRand (snowPool 3) (List.replicate 3 zeroPart) 0
      threeSnow (by decide) (by decide) (by decide) (by decide) 1 (by decide) (by decide)⟩

theorem atmosAddParticle_frame {C : Nat} {rand : Nat → Nat} {st st1 : AtmosState}
    {pos : Vector3f} {type : AP_TYPE} {n n1 : Nat}
    (h : atmosAddParticle C rand st pos type n = some (st1, n1)) :
    st1.weather = st.weather ∧
    st1.accumulatedParticlesToAdd = st.accumulatedParticlesToAdd ∧
    ∃ parts parts1, st.asAtmosParts = some parts ∧ st1.asAtmosParts = some parts1 ∧
      parts1.length = parts.length := by
  unfold atmosAddParticle at h
  cases hp : st.asAtmosParts with
  | none => rw [hp] at h; simp at h
  | some parts =>
    rw [hp] at h
    simp only at h
    cases hs : scanLoop C parts (C + 1) st.freeParticle 0 with
    | none => rw [hs] at h; simp at h
    | some r =>
      obtain ⟨i, ac⟩ := r
      rw [hs] at h
      simp only at h
      split at h
      · simp only [Option.some.injEq, Prod.mk.injEq] at h
        obtain ⟨rfl, _⟩ := h
        refine ⟨rfl, rfl, parts, parts, ?_, ?_, rfl⟩ <;> first | rfl | exact hp
      · cases ho : parts[i]? with
        | none => rw [ho] at h; simp at h
        | some old =>
          rw [ho] at h
          simp only [Option.some.injEq, Prod.mk.injEq] at h
          obtain ⟨rfl, _⟩ := h
          exact ⟨rfl, rfl, parts, _, rfl, rfl, by simp⟩

theorem spawnOne_frame {C : Nat} {env : Env} {st st1 : AtmosState} {n n1 : Nat}
    {evs : List Event} (h : spawnOne C env st n = some (st1, evs, n1)) :
    st1.weather = st.weather ∧ (st1.asAtmosParts = none ↔ st.asAtmosParts = none) ∧
    st1.accumulatedParticlesToAdd = st.accumulatedParticlesToAdd := by
  unfold spawnOne at h
  split at h
  · simp at h
  · simp only at h
    split at h
    · split at h
      · split at h
        · simp at h
        · rename_i sa na ha
          simp only [Option.some.injEq, Prod.mk.injEq] at h
          obtain ⟨rfl, _, _⟩ := h
          obtain ⟨hw, hacc, parts, parts1, hp, hp1, _⟩ := atmosAddParticle_frame ha
          exact ⟨hw, by rw [hp, hp1]; simp, hacc⟩
      · split at h
        · simp at h
        · rename_i sa na ha
          simp only [Option.some.injEq, Prod.mk.injEq] at h
          obtain ⟨rfl, _, _⟩ := h
          obtain ⟨hw, hacc, parts, parts1, hp, hp1, _⟩ := atmosAddParticle_frame ha
          exact ⟨hw, by rw [hp, hp1]; simp, hacc⟩
      · simp only [Option.some.injEq, Prod.mk.injEq] at h
        obtain ⟨rfl, _, _⟩ := h
        exact ⟨rfl, Iff.rfl, rfl⟩
    · simp only [Option.some.injEq, Prod.mk.injEq] at h
      obtain ⟨rfl, _, _⟩ := h
      exact ⟨rfl, Iff.rfl, rfl⟩

theorem spawnLoop_frame {C : Nat} {env : Env} :
    ∀ (k : Nat) (st st1 : AtmosState) (n n1 : Nat) (evs : List Event),
      spawnLoop C env k st n = some (st1, evs, n1) →
      st1.weather = st.weather ∧ (st1.asAtmosParts = none ↔ st.asAtmosParts = none) ∧
      st1.accumulatedParticlesToAdd = st.accumulatedParticlesToAdd := by
  intro k
  induction k with
  | zero =>
    intro st st1 n n1 evs h
    simp only [spawnLoop, Option.some.injEq, Prod.mk.injEq] at h
    obtain ⟨rfl, _, _⟩ := h
    exact ⟨rfl, Iff.rfl, rfl⟩
  | succ k ih =>
    intro st st1 n n1 evs h
    unfold spawnLoop at h
    split at h
    · simp at h
    · rename_i sa ea na ha
      split at h
      · simp at h
      · rename_i s2 e2 n2 hl
        simp only [Option.some.injEq, Prod.mk.injEq] at h
        obtain ⟨rfl, _, _⟩ := h
        obtain ⟨hw, hn, hacc⟩ := spawnOne_frame ha
        obtain ⟨hw2, hn2, hacc2⟩ := ih _ _ _ _ _ hl
        exact ⟨hw2.trans hw, hn2.trans hn, hacc2.trans hacc⟩

theorem atmosUpdateSystem_frame {C : Nat} {env : Env} {st st1 : AtmosState} {n n1 : Nat}
    {evs : List Event} (h : atmosUpdateSystem C env st n = some (st1, evs, n1)) :
    st1.weather = st.weather ∧ (st1.asAtmosParts = none ↔ st.asAtmosParts = none) := by
  unfold atmosUpdateSystem at h
  split at h
  · cases hp : st.asAtmosParts with
    | none => rw [hp] at h; simp at h
    | some parts =>
      rw [hp] at h
      simp only at h
      split at h
      · simp at h
      · split at h
        · simp at h
        · rename_i st2 evs2 n2 hl
          simp only [Option.some.injEq, Prod.mk.injEq] at h
          obtain ⟨rfl, _, _⟩ := h
          obtain ⟨hw, hn, _⟩ := spawnLoop_frame _ _ _ _ _ _ hl
          exact ⟨hw, by rw [hn]; simp⟩
  · simp only [Option.some.injEq, Prod.mk.injEq] at h
    obtain ⟨rfl, _, _⟩ := h
    exact ⟨rfl, Iff.rfl⟩

theorem atmosUpdateSystem_accumulator {C : Nat} {env : Env} {st st1 : AtmosState} {n n1 : Nat}
    {evs : List Event} (hp : env.gamePaused = false) (hw : st.weather ≠ WT_CLASS.WT_NONE)
    (h : atmosUpdateSystem C env st n = some (st1, evs, n1)) :
    st1.accumulatedParticlesToAdd =
      (accumulate st.weather env.gameTimeMod st.accumulatedParticlesToAdd).2 := by
  unfold atmosUpdateSystem at h
  rw [if_pos ⟨hp, hw⟩] at h
  cases hparts : st.asAtmosParts with
  | none => rw [hparts] at h; simp at h
  | some parts =>
    rw [hparts] at h
    simp only at h
    split at h
    · simp at h
    · split at h
      · simp at h
      · rename_i st2 evs2 n2 hl
        simp only [Option.some.injEq, Prod.mk.injEq] at h
        obtain ⟨rfl, _, _⟩ := h
        obtain ⟨_, _, hacc⟩ := spawnLoop_frame _ _ _ _ _ _ hl
        exact hacc

theorem atmosInitSystem_inv (C : Nat) (st : AtmosState)
    (h : st.asAtmosParts ≠ none ↔ st.weather ≠ WT_CLASS.WT_NONE) :
    (atmosInitSystem C st).asAtmosParts ≠ none ↔
      (atmosInitSystem C st).weather ≠ WT_CLASS.WT_NONE := by
  unfold atmosInitSystem
  by_cases hw : st.weather = WT_CLASS.WT_NONE <;> by_cases hp : st.asAtmosParts = none <;>
    simp_all

theorem atmosSetWeatherType_inv (C : Nat) (type : WT_CLASS) (st : AtmosState)
    (h : st.asAtmosParts ≠ none ↔ st.weather ≠ WT_CLASS.WT_NONE) :
    (atmosSetWeatherType C type st).asAtmosParts ≠ none ↔
      (atmosSetWeatherType C type st).weather ≠ WT_CLASS.WT_NONE := by
  unfold atmosSetWeatherType atmosInitSystem
  by_cases hw : st.weather = WT_CLASS.WT_NONE <;> by_cases hp : st.asAtmosParts = none <;>
    by_cases ht : type = WT_CLASS.WT_NONE <;> by_cases hts : type = st.weather <;>
    simp_all

/-- C2: in every state reachable from the initial state (weather mode
`WT_NONE`, no pool) by any sequence of `atmosSetWeatherType`, `atmosInitSystem`
and `atmosUpdateSystem` calls, the particle pool is allocated if and only if
the weather mode is not `WT_NONE`. -/
theorem pool_iff_weather (C : Nat) (st : AtmosState) (h : Reachable C st) :
    st.asAtmosParts ≠ none ↔ st.weather ≠ WT_CLASS.WT_NONE := by
  induction h with
  | start => simp [initialState]
  | setWeatherType type _ ih => exact atmosSetWeatherType_inv C type _ ih
  | initSystem _ ih => exact atmosInitSystem_inv C _ ih
  | updateSystem env n _ hu ih =>
    obtain ⟨hw, hn⟩ := atmosUpdateSystem_frame hu
    rw [hw, Ne, hn]
    exact ih

/-- An instance of the pool/mode invariant: the state reached by
`atmosSetWeatherType(WT_SNOWING)` followed by one update tick under `calmEnv`. -/
theorem pool_iff_weather_witness :
    ∃ st1 evs n1, atmosUpdateSystem 3 calmEnv (snowPool 3) 0 = some (st1, evs, n1) ∧
      Reachable 3 st1 ∧ (st1.asAtmosParts ≠ none ↔ st1.weather ≠ WT_CLASS.WT_NONE) := by
  have h : (atmosUpdateSystem 3 calmEnv (snowPool 3) 0).isSome = true := by decide!
  obtain ⟨⟨st1, evs, n1⟩, hr⟩ := Option.isSome_iff_exists.1 h
  have hreach : Reachable 3 st1 :=
    Reachable.updateSystem calmEnv 0 (Reachable.setWeatherType _ Reachable.start) hr
  exact ⟨st1, evs, n1, hr, hreach, pool_iff_weather 3 st1 hreach⟩

/-! ## The spawn-rate accumulator -/

theorem truncToInt_of_nonneg {q : ℚ} (hq : 0 ≤ q) : truncToInt q = ⌊q⌋ := by
  unfold truncToInt
  rw [Int.tdiv_eq_ediv (Rat.num_nonneg.2 hq) (Int.natCast_nonneg _), Rat.floor_def]

theorem toNat_trunc_cast {q : ℚ} (hq : 0 ≤ q) : (((truncToInt q).toNat : Nat) : ℚ) = (⌊q⌋ : ℚ) := by
  rw [truncToInt_of_nonneg hq]
  have h : 0 ≤ ⌊q⌋ := Int.floor_nonneg.2 hq
  have : (((⌊q⌋.toNat : Nat) : Int)) = ⌊q⌋ := Int.toNat_of_nonneg h
  exact_mod_cast this

theorem kindRate_nonneg (w : WT_CLASS) : 0 ≤ kindRate w := by
  unfold kindRate; split <;> norm_num

theorem atmosSetWeatherType_weather (C : Nat) (type : WT_CLASS) (st : AtmosState) :
    (atmosSetWeatherType C type st).weather = type := by
  unfold atmosSetWeatherType atmosInitSystem
  by_cases h : type = st.weather
  · simp only [h, ne_eq, not_true_eq_false, if_false]
    split_ifs <;> rfl
  · simp only [ne_eq, h, not_false_eq_true, if_true]
    split_ifs <;> rfl

theorem atmosSetWeatherType_accumulator (C : Nat) (type : WT_CLASS) (st : AtmosState) :
    (atmosSetWeatherType C type st).accumulatedParticlesToAdd =
      st.accumulatedParticlesToAdd := by
  unfold atmosSetWeatherType atmosInitSystem
  by_cases h : type = st.weather
  · simp only [h, ne_eq, not_true_eq_false, if_false]
    split_ifs <;> rfl
  · simp only [ne_eq, h, not_false_eq_true, if_true]
    split_ifs <;> rfl

theorem accumulate_in_range (w : WT_CLASS) (m acc : ℚ) (hm : 0 ≤ m) (hacc : 0 ≤ acc)
    (hacc1 : acc < 1) (hb : kindRate w * m ≤ 2 ^ 32 - 1) :
    ((accumulate w (some m) acc).1 : ℚ) = (⌊acc + kindRate w * m⌋ : ℚ) ∧
    (accumulate w (some m) acc).2 = Int.fract (acc + kindRate w * m) := by
  have h0 : 0 ≤ acc + kindRate w * m := add_nonneg hacc (mul_nonneg (kindRate_nonneg w) hm)
  have hlt : acc + kindRate w * m < 2 ^ 32 := by linarith
  have hfl0 : 0 ≤ ⌊acc + kindRate w * m⌋ := Int.floor_nonneg.2 h0
  have hfl : ⌊acc + kindRate w * m⌋ < 2 ^ 32 := by
    rw [Int.floor_lt]
    exact_mod_cast hlt
  have hnat : (truncToInt (acc + kindRate w * m)).toNat % 2 ^ 32 =
      (truncToInt (acc + kindRate w * m)).toNat := by
    apply Nat.mod_eq_of_lt
    rw [truncToInt_of_nonneg h0]
    omega
  simp only [accumulate, hnat]
  rw [toNat_trunc_cast h0]
  exact ⟨rfl, rfl⟩


theorem atmosUpdateSystem_spawnLoop (C : Nat) (env : Env) (st : AtmosState) (n : Nat)
    (parts : List ATPART) (hp : env.gamePaused = false) (hw : st.weather ≠ WT_CLASS.WT_NONE)
    (hst : st.asAtmosParts = some parts) (hlen : parts.length = C) :
    atmosUpdateSystem C env st n =
      (spawnLoop C env (tickNumberToAdd env st)
        { st with
          asAtmosParts := some (processAll env parts n).1,
          accumulatedParticlesToAdd :=
            (accumulate st.weather env.gameTimeMod st.accumulatedParticlesToAdd).2 }
        (processAll env parts n).2.2).map
        (fun r => (r.1, (processAll env parts n).2.1 ++ r.2.1, r.2.2)) := by
  unfold atmosUpdateSystem tickNumberToAdd
  rw [if_pos ⟨hp, hw⟩, if_pos ⟨hp, hw⟩, hst]
  simp only
  rw [if_neg (by simp [hlen])]
  cases spawnLoop C env
      (accumulate st.weather env.gameTimeMod st.accumulatedParticlesToAdd).1
      { st with
        asAtmosParts := some (processAll env parts n).1,
        accumulatedParticlesToAdd :=
          (accumulate st.weather env.gameTimeMod st.accumulatedParticlesToAdd).2 }
      (processAll env parts n).2.2 with
  | none => rfl
  | some r => rfl

theorem runUpdates_conserve (C : Nat) :
    ∀ (ticks : List (WT_CLASS × Env)) (st st1 : AtmosState) (n n1 : Nat) (ks : List Nat),
      0 ≤ st.accumulatedParticlesToAdd → st.accumulatedParticlesToAdd < 1 →
      (∀ t ∈ ticks, t.1 ≠ WT_CLASS.WT_NONE ∧ t.2.gamePaused = false ∧
        ∃ m : ℚ, t.2.gameTimeMod = some m ∧ 0 ≤ m ∧ kindRate t.1 * m ≤ 2 ^ 32 - 1) →
      runUpdates C ticks st n = some (st1, n1, ks) →
      ((ks.sum : Nat) : ℚ) + st1.accumulatedParticlesToAdd =
          st.accumulatedParticlesToAdd + (ticks.map tickRate).sum ∧
        0 ≤ st1.accumulatedParticlesToAdd ∧ st1.accumulatedParticlesToAdd < 1 ∧
        ks.length = ticks.length ∧
        ((∀ t ∈ ticks, t.1 = WT_CLASS.WT_SNOWING ∧ t.2.gameTimeMod = some 1) →
          st.accumulatedParticlesToAdd = 0 →
          (∀ k ∈ ks, k = 2) ∧ st1.accumulatedParticlesToAdd = 0) := by
  intro ticks
  induction ticks with
  | nil =>
    intro st st1 n n1 ks h0 h1 _ hrun
    simp only [runUpdates, Option.some.injEq, Prod.mk.injEq] at hrun
    obtain ⟨rfl, _, rfl⟩ := hrun
    simp only [List.map_nil, List.sum_nil, Nat.cast_zero, zero_add, add_zero, List.length_nil,
      true_and]
    exact ⟨h0, h1, fun _ hz => ⟨fun k hk => by simp at hk, hz⟩⟩
  | cons t ts ih =>
    intro st st1 n n1 ks h0 h1 hall hrun
    obtain ⟨hw, hp, m, hm, hm0, hmb⟩ := hall t (List.mem_cons_self _ _)
    have hts : ∀ u ∈ ts, u.1 ≠ WT_CLASS.WT_NONE ∧ u.2.gamePaused = false ∧
        ∃ m : ℚ, u.2.gameTimeMod = some m ∧ 0 ≤ m ∧ kindRate u.1 * m ≤ 2 ^ 32 - 1 :=
      fun u hu => hall u (List.mem_cons_of_mem _ hu)
    unfold runUpdates at hrun
    cases hupd : atmosUpdateSystem C t.2 (atmosSetWeatherType C t.1 st) n with
    | none => rw [hupd] at hrun; simp at hrun
    | some r =>
      obtain ⟨sa, ea, na⟩ := r
      rw [hupd] at hrun
      simp only at hrun
      cases hrest : runUpdates C ts sa na with
      | none => rw [hrest] at hrun; simp at hrun
      | some r2 =>
        obtain ⟨s2, n2, ks2⟩ := r2
        rw [hrest] at hrun
        simp only [Option.some.injEq, Prod.mk.injEq] at hrun
        obtain ⟨rfl, _, rfl⟩ := hrun
        have hwe := atmosSetWeatherType_weather C t.1 st
        have hae := atmosSetWeatherType_accumulator C t.1 st
        have hsa := atmosUpdateSystem_accumulator hp (by rw [hwe]; exact hw) hupd
        rw [hwe, hae, hm] at hsa
        obtain ⟨hk, ha⟩ := accumulate_in_range t.1 m st.accumulatedParticlesToAdd hm0 h0 h1 hmb
        have hk2 : tickNumberToAdd t.2 (atmosSetWeatherType C t.1 st) =
            (accumulate t.1 (some m) st.accumulatedParticlesToAdd).1 := by
          unfold tickNumberToAdd
          rw [if_pos ⟨hp, by rw [hwe]; exact hw⟩, hwe, hae, hm]
        have hf0 : 0 ≤ sa.accumulatedParticlesToAdd := by
          rw [hsa, ha]; exact Int.fract_nonneg _
        have hf1 : sa.accumulatedParticlesToAdd < 1 := by
          rw [hsa, ha]; exact Int.fract_lt_one _
        obtain ⟨e1, e2, e3, e4, e5⟩ := ih sa s2 na n2 ks2 hf0 hf1 hts hrest
        have hrate : tickRate t = kindRate t.1 * m := by
          unfold tickRate; rw [hm]; rfl
        refine ⟨?_, e2, e3, by simp [e4], ?_⟩
        · simp only [List.sum_cons, List.map_cons, Nat.cast_add]
          rw [hk2, hk, hrate]
          have := Int.floor_add_fract (st.accumulatedParticlesToAdd + kindRate t.1 * m)
          rw [hsa, ha] at e1
          linarith
        · intro hsnow hzero
          obtain ⟨hs1, hs2⟩ := hsnow t (List.mem_cons_self _ _)
          have hm1 : m = 1 := by
            rw [hs2] at hm; exact (Option.some.inj hm).symm
          have hstep : accumulate t.1 (some m) st.accumulatedParticlesToAdd = (2, 0) := by
            rw [hs1, hm1, hzero]; decide!
          obtain ⟨e6, e7⟩ := e5 (fun u hu => hsnow u (List.mem_cons_of_mem _ hu))
            (by rw [hsa, hstep])
          refine ⟨fun k hkmem => ?_, e7⟩
          rcases List.mem_cons.1 hkmem with h | h
          · rw [h, hk2, hstep]
          · exact e6 k h

theorem splashEvents_no_spawn (env : Env) (p : ATPART) (g : Int) :
    ∀ e ∈ splashEvents env p g, Event.isSpawn e = false := by
  intro e he
  unfold splashEvents at he
  split at he
  · simp only at he
    split at he
    · simp only [List.mem_singleton] at he
      subst he
      rfl
    · simp at he
  · simp at he

theorem processParticle_no_spawn (env : Env) (p : ATPART) (n : Nat) :
    ∀ e ∈ (processParticle env p n).2.1, Event.isSpawn e = false := by
  intro e he
  unfold processParticle at he
  split at he
  · simp at he
  · simp only at he
    split at he
    · simp at he
    · split at he
      · exact splashEvents_no_spawn _ _ _ e he
      · simp at he

theorem processAll_no_spawn (env : Env) :
    ∀ (parts : List ATPART) (n : Nat), ∀ e ∈ (processAll env parts n).2.1,
      Event.isSpawn e = false := by
  intro parts
  induction parts with
  | nil => intro n e he; simp [processAll] at he
  | cons p ps ih =>
    intro n e he
    simp only [processAll, List.mem_append] at he
    rcases he with he | he
    · split at he
      · exact processParticle_no_spawn env p n e he
      · simp at he
    · exact ih _ e he

theorem accumulate_nan (w : WT_CLASS) (a : ℚ) (h0 : 0 ≤ a) (h1 : a < 1) :
    accumulate w none a = (0, a) := by
  have hf : truncToInt a = 0 := by
    rw [truncToInt_of_nonneg h0, Int.floor_eq_iff]
    constructor
    · simpa using h0
    · simpa using h1
  simp [accumulate, hf]

/-- C7: for every state whose accumulator lies in `[0, 1)` (and whose pool, when
the weather is not `WT_NONE`, is allocated with `C` slots), a non-paused update
tick whose game-speed multiplier is NaN has `numberToAdd = 0`, returns, calls
the allocator not once, and leaves the accumulator and the search cursor as
they were. -/
theorem nan_multiplier_ignored (C : Nat) (env : Env) (st : AtmosState) (n : Nat)
    (hp : env.gamePaused = false) (hnan : env.gameTimeMod = none)
    (h0 : 0 ≤ st.accumulatedParticlesToAdd) (h1 : st.accumulatedParticlesToAdd < 1)
    (hpool : st.weather ≠ WT_CLASS.WT_NONE →
      ∃ parts, st.asAtmosParts = some parts ∧ parts.length = C) :
    accumulate st.weather env.gameTimeMod st.accumulatedParticlesToAdd =
        (0, st.accumulatedParticlesToAdd) ∧
    ∃ st1 evs n1, atmosUpdateSystem C env st n = some (st1, evs, n1) ∧
      (∀ e ∈ evs, Event.isSpawn e = false) ∧
      st1.accumulatedParticlesToAdd = st.accumulatedParticlesToAdd ∧
      st1.freeParticle = st.freeParticle ∧ st1.weather = st.weather := by
  have hacc := accumulate_nan st.weather _ h0 h1
  rw [hnan]
  refine ⟨hacc, ?_⟩
  by_cases hw : st.weather = WT_CLASS.WT_NONE
  · refine ⟨st, [], n, ?_, by simp, rfl, rfl, rfl⟩
    simp [atmosUpdateSystem, hw]
  · obtain ⟨parts, hparts, hlen⟩ := hpool hw
    refine ⟨{ st with asAtmosParts := some (processAll env parts n).1 },
      (processAll env parts n).2.1, (processAll env parts n).2.2, ?_,
      processAll_no_spawn env parts n, rfl, rfl, rfl⟩
    simp [atmosUpdateSystem, hp, hw, hparts, hlen, hnan, hacc, spawnLoop]

/-- An instance of the ignored NaN multiplier: `halfState` under `nanEnv`. -/
theorem nan_multiplier_ignored_witness :
    nanEnv.gamePaused = false ∧ nanEnv.gameTimeMod = none ∧
    0 ≤ halfState.accumulatedParticlesToAdd ∧ halfState.accumulatedParticlesToAdd < 1 ∧
    (halfState.weather ≠ WT_CLASS.WT_NONE →
      ∃ parts, halfState.asAtmosParts = some parts ∧ parts.length = 3) ∧
    accumulate halfState.weather nanEnv.gameTimeMod halfState.accumulatedParticlesToAdd =
        (0, halfState.accumulatedParticlesToAdd) ∧
    ∃ st1 evs n1, atmosUpdateSystem 3 nanEnv halfState 0 = some (st1, evs, n1) ∧
      (∀ e ∈ evs, Event.isSpawn e = false) ∧
      st1.accumulatedParticlesToAdd = halfState.accumulatedParticlesToAdd ∧
      st1.freeParticle = halfState.freeParticle ∧ st1.weather = halfState.weather :=
  ⟨rfl, rfl, by decide!, by decide!,
    fun _ => ⟨List.replicate 3 zeroPart, by decide!, by decide⟩,
    nan_multiplier_ignored 3 nanEnv halfState 0 rfl rfl (by decide!) (by decide!)
      (fun _ => ⟨List.replicate 3 zeroPart, by decide!, by decide⟩)⟩


/-! ## Simulation of one particle -/

theorem world_coord_half (t : Int) :
    ((Int.tdiv (world_coord t) 2 : Int) : ℚ) = ((world_coord t : Int) : ℚ) / 2 := by
  have h : world_coord t = (t * 64) * 2 := by
    unfold world_coord TILE_SHIFT; ring
  rw [h, Int.mul_tdiv_cancel _ (by decide)]
  push_cast
  ring

theorem pow2_eq_zpow (e : Int) : pow2 e = (2 : ℚ) ^ e := by
  unfold pow2
  split
  · rename_i h
    conv_rhs => rw [← Int.toNat_of_nonneg h]
    rw [zpow_natCast]
    push_cast
    rfl
  · rename_i h
    have h1 : 0 ≤ -e := by omega
    have h2 : e = -((-e).toNat : Int) := by rw [Int.toNat_of_nonneg h1]; ring
    conv_rhs => rw [h2]
    rw [zpow_neg, zpow_natCast]
    push_cast
    rw [one_div]

theorem log2Fuel_eq : ∀ (fuel n : Nat), n ≤ fuel → log2Fuel fuel n = Nat.log2 n := by
  intro fuel
  induction fuel with
  | zero =>
    intro n h
    have : n = 0 := by omega
    subst this
    simp [log2Fuel, Nat.log2_zero]
  | succ f ih =>
    intro n h
    unfold log2Fuel
    rw [Nat.log2]
    split
    · rw [ih (n / 2) (by omega)]
    · rfl

theorem binaryExp_spec (a : ℚ) (ha : 0 < a) :
    (2 : ℚ) ^ binaryExp a ≤ a ∧ a < (2 : ℚ) ^ (binaryExp a + 1) := by
  have hnum : 0 < a.num := Rat.num_pos.2 ha
  have hp0 : a.num.natAbs ≠ 0 := by omega
  have hq0 : a.den ≠ 0 := a.den_nz
  have hp1 := Nat.log2_self_le hp0
  have hp2 := @Nat.lt_log2_self a.num.natAbs
  have hq1 := Nat.log2_self_le hq0
  have hq2 := @Nat.lt_log2_self a.den
  have hden : (0 : ℚ) < (a.den : ℚ) := by exact_mod_cast a.den_pos
  have ha_eq : a = (a.num.natAbs : ℚ) / (a.den : ℚ) := by
    have h1 : ((a.num.natAbs : Nat) : ℚ) = ((a.num : Int) : ℚ) := by
      have h0 : ((a.num.natAbs : Nat) : Int) = a.num := Int.natAbs_of_nonneg hnum.le
      rw [← Int.cast_natCast, h0]
    rw [h1]
    exact (Rat.num_div_den a).symm
  set p := a.num.natAbs with hp
  set q := a.den with hq
  have e1 : (2 : ℚ) ^ (p.log2) ≤ (p : ℚ) := by exact_mod_cast hp1
  have e2 : (p : ℚ) < (2 : ℚ) ^ (p.log2 + 1) := by exact_mod_cast hp2
  have e3 : (2 : ℚ) ^ (q.log2) ≤ (q : ℚ) := by exact_mod_cast hq1
  have e4 : (q : ℚ) < (2 : ℚ) ^ (q.log2 + 1) := by exact_mod_cast hq2
  have hz : ∀ (x y : Nat), (2 : ℚ) ^ ((x : Int) - (y : Int)) = (2 : ℚ) ^ x / (2 : ℚ) ^ y := by
    intro x y
    rw [zpow_sub₀ (by norm_num), zpow_natCast, zpow_natCast]
  unfold binaryExp
  simp only [← hp, ← hq, log2Fuel_eq p p le_rfl, log2Fuel_eq q q le_rfl, pow2_eq_zpow]
  split
  · rename_i h
    refine ⟨h, ?_⟩
    have : ((p.log2 : Int) - (q.log2 : Int) + 1) = (((p.log2 + 1 : Nat) : Int) - (q.log2 : Int)) := by
      push_cast; ring
    rw [this, hz, ha_eq, div_lt_div_iff₀ hden (by positivity)]
    calc (p : ℚ) * 2 ^ q.log2 < 2 ^ (p.log2 + 1) * 2 ^ q.log2 := by
          apply mul_lt_mul_of_pos_right e2 (by positivity)
      _ ≤ 2 ^ (p.log2 + 1) * (q : ℚ) := by
          apply mul_le_mul_of_nonneg_left e3 (by positivity)
  · rename_i h
    push_neg at h
    constructor
    · have : ((p.log2 : Int) - (q.log2 : Int) - 1) = ((p.log2 : Int) - ((q.log2 + 1 : Nat) : Int)) := by
        push_cast; ring
      rw [this, hz, ha_eq, div_le_div_iff₀ (by positivity) hden]
      calc (2 : ℚ) ^ p.log2 * (q : ℚ) ≤ (p : ℚ) * (q : ℚ) := by
            apply mul_le_mul_of_nonneg_right e1 hden.le
        _ ≤ (p : ℚ) * 2 ^ (q.log2 + 1) := by
            apply mul_le_mul_of_nonneg_left e4.le (by positivity)
    · have : ((p.log2 : Int) - (q.log2 : Int) - 1 + 1) = ((p.log2 : Int) - (q.log2 : Int)) := by ring
      rw [this]
      exact h

theorem roundHalfEven_intCast (k : Int) : roundHalfEven (k : ℚ) = k := by
  unfold roundHalfEven
  simp

theorem roundHalfEven_error (t : ℚ) : |((roundHalfEven t : Int) : ℚ) - t| ≤ 1 / 2 := by
  have hfl : t.num / (t.den : Int) = ⌊t⌋ := Rat.floor_def.symm
  have h1 : ((⌊t⌋ : Int) : ℚ) ≤ t := Int.floor_le t
  have h2 : t < ((⌊t⌋ : Int) : ℚ) + 1 := Int.lt_floor_add_one t
  unfold roundHalfEven
  simp only [hfl]
  split_ifs with ha hb hc
  · rw [abs_le]; constructor <;> linarith
  · rw [abs_le]; push_cast; constructor <;> linarith
  · rw [abs_le]; constructor <;> linarith
  · rw [abs_le]; push_cast; constructor <;> linarith

theorem roundF32_neg (q : ℚ) : roundF32 (-q) = -roundF32 q := by
  unfold roundF32
  rcases lt_trichotomy q 0 with h | h | h
  · have h1 : ¬ (-q = 0) := by intro h0; linarith
    have h2 : ¬ (-q < 0) := by linarith
    have h3 : ¬ (q = 0) := by intro h0; linarith
    simp only [h1, h2, h3, h, if_true, if_false, neg_neg]
  · subst h; simp
  · have h1 : ¬ (-q = 0) := by intro h0; linarith
    have h2 : (-q < 0) := by linarith
    have h3 : ¬ (q = 0) := by intro h0; linarith
    have h4 : ¬ (q < 0) := by linarith
    simp only [h1, h2, h3, h4, if_true, if_false, neg_neg]

theorem roundF32_pos (a : ℚ) (ha : 0 < a) :
    roundF32 a =
      ((roundHalfEven (a / (2 : ℚ) ^ (max (binaryExp a) (-126) - 23)) : Int) : ℚ) *
        (2 : ℚ) ^ (max (binaryExp a) (-126) - 23) := by
  unfold roundF32
  have h1 : ¬ (a = 0) := ne_of_gt ha
  have h2 : ¬ (a < 0) := by linarith
  simp only [h1, h2, if_false, pow2_eq_zpow]

/-- A positive value that is a whole number of units in the last place at its own
exponent is a `float`. -/
theorem roundF32_exact (a : ℚ) (ha : 0 < a) (k : Int)
    (hk : a = (k : ℚ) * (2 : ℚ) ^ (max (binaryExp a) (-126) - 23)) : roundF32 a = a := by
  rw [roundF32_pos a ha]
  have hpos : (0 : ℚ) < (2 : ℚ) ^ (max (binaryExp a) (-126) - 23) := by positivity
  have : a / (2 : ℚ) ^ (max (binaryExp a) (-126) - 23) = (k : ℚ) := by
    rw [div_eq_iff hpos.ne.symm]; exact hk
  rw [this, roundHalfEven_intCast]
  exact hk.symm

/-- Every integer of magnitude at most `2 ^ 24` is a `float`: the conversion of
such an `int` to `float` is exact. -/
theorem roundF32_intCast (n : Int) (hn : |n| ≤ 2 ^ 24) : roundF32 (n : ℚ) = (n : ℚ) := by
  have key : ∀ m : Int, 0 < m → m ≤ 2 ^ 24 → roundF32 (m : ℚ) = (m : ℚ) := by
    intro m hm0 hm
    have ha : (0 : ℚ) < (m : ℚ) := by exact_mod_cast hm0
    obtain ⟨hlo, hhi⟩ := binaryExp_spec (m : ℚ) ha
    have hm1 : (1 : ℚ) ≤ (m : ℚ) := by exact_mod_cast hm0
    have hmq : (m : ℚ) ≤ (2 : ℚ) ^ (24 : Int) := by
      have h0 : ((m : Int) : ℚ) ≤ ((2 ^ 24 : Int) : ℚ) := by exact_mod_cast hm
      have h1 : (((2 : Int) ^ 24 : Int) : ℚ) = (2 : ℚ) ^ (24 : Int) := by norm_num
      rw [← h1]; exact h0
    have he0 : 0 ≤ binaryExp (m : ℚ) := by
      by_contra hneg
      push_neg at hneg
      have : (2 : ℚ) ^ (binaryExp (m : ℚ) + 1) ≤ (2 : ℚ) ^ (0 : Int) :=
        zpow_le_zpow_right₀ (by norm_num) (by omega)
      simp at this
      linarith
    have he24 : binaryExp (m : ℚ) ≤ 24 := by
      by_contra hbig
      push_neg at hbig
      have : (2 : ℚ) ^ (24 + 1 : Int) ≤ (2 : ℚ) ^ (binaryExp (m : ℚ)) :=
        zpow_le_zpow_right₀ (by norm_num) (by omega)
      have h25 : (2 : ℚ) ^ (24 : Int) < (2 : ℚ) ^ (24 + 1 : Int) :=
        zpow_lt_zpow_right₀ (by norm_num) (by omega)
      linarith
    have hmax : max (binaryExp (m : ℚ)) (-126) = binaryExp (m : ℚ) := max_eq_left (by omega)
    rcases lt_or_le (binaryExp (m : ℚ)) 24 with hlt | hge
    · -- the unit in the last place is 2 ^ (e - 23) with e ≤ 23
      obtain ⟨d, hd⟩ : ∃ d : Nat, (d : Int) = 23 - binaryExp (m : ℚ) :=
        ⟨(23 - binaryExp (m : ℚ)).toNat, Int.toNat_of_nonneg (by omega)⟩
      apply roundF32_exact (m : ℚ) ha (m * 2 ^ d)
      rw [hmax]
      have e1 : binaryExp (m : ℚ) - 23 = -(d : Int) := by omega
      rw [e1, zpow_neg, zpow_natCast]
      push_cast
      field_simp
    · have he : binaryExp (m : ℚ) = 24 := by omega
      have hm24 : (m : ℚ) = (2 : ℚ) ^ (24 : Int) := by
        rw [he] at hlo
        exact le_antisymm hmq hlo
      apply roundF32_exact (m : ℚ) ha (2 ^ 23)
      rw [hmax, he, hm24]
      norm_num
  rcases lt_trichotomy n 0 with h | h | h
  · have h1 := key (-n) (by omega) (by rw [abs_of_neg h] at hn; exact hn)
    have h2 := roundF32_neg ((-n : Int) : ℚ)
    rw [h1] at h2
    push_cast at h2
    rw [neg_neg] at h2
    linarith
  · subst h; simp [roundF32]
  · exact key n h (by rw [abs_of_pos h] at hn; exact hn)

/-- The rounding error is at most half a unit in the last place: for a value of
magnitude at least `2 ^ (-126)` (the normal range), at most `|q| / 2 ^ 24`. -/
theorem roundF32_error (q : ℚ) (hq : (2 : ℚ) ^ (-126 : Int) ≤ |q|) :
    |roundF32 q - q| ≤ |q| / 2 ^ 24 := by
  have key : ∀ a : ℚ, (2 : ℚ) ^ (-126 : Int) ≤ a → |roundF32 a - a| ≤ a / 2 ^ 24 := by
    intro a ha
    have hpos : 0 < a := lt_of_lt_of_le (by positivity) ha
    obtain ⟨hlo, hhi⟩ := binaryExp_spec a hpos
    have he : -126 ≤ binaryExp a := by
      by_contra hneg
      push_neg at hneg
      have : (2 : ℚ) ^ (binaryExp a + 1) ≤ (2 : ℚ) ^ (-126 : Int) :=
        zpow_le_zpow_right₀ (by norm_num) (by omega)
      linarith
    have hmax : max (binaryExp a) (-126) = binaryExp a := max_eq_left he
    rw [roundF32_pos a hpos, hmax]
    set u : ℚ := (2 : ℚ) ^ (binaryExp a - 23) with hu
    have hupos : 0 < u := by positivity
    have herr := roundHalfEven_error (a / u)
    have h1 : ((roundHalfEven (a / u) : Int) : ℚ) * u - a =
        (((roundHalfEven (a / u) : Int) : ℚ) - a / u) * u := by
      field_simp
    rw [h1, abs_mul, abs_of_pos hupos]
    have h2 : u / 2 ≤ a / 2 ^ 24 := by
      have : u = (2 : ℚ) ^ (binaryExp a) / 2 ^ 23 := by
        rw [hu, zpow_sub₀ (by norm_num)]
        norm_num
      rw [this]
      have h3 : (2 : ℚ) ^ binaryExp a / 2 ^ 23 / 2 = (2 : ℚ) ^ binaryExp a / 2 ^ 24 := by
        rw [div_div]; norm_num
      rw [h3]
      exact div_le_div_of_nonneg_right hlo (by positivity)
    calc |((roundHalfEven (a / u) : Int) : ℚ) - a / u| * u ≤ 1 / 2 * u :=
          mul_le_mul_of_nonneg_right herr hupos.le
      _ = u / 2 := by ring
      _ ≤ a / 2 ^ 24 := h2
  rcases le_total 0 q with h | h
  · rw [abs_of_nonneg h] at hq ⊢
    exact key q hq
  · rw [abs_of_nonpos h] at hq ⊢
    have := key (-q) hq
    rw [roundF32_neg] at this
    rw [show roundF32 q - q = -(-roundF32 q - -q) by ring, abs_neg]
    exact this

theorem abs_window_bound (c w : Int) (hw : 0 < w) (h : |c| + w ≤ 2 ^ 24) :
    |c - Int.tdiv w 2| ≤ 2 ^ 24 ∧ |c + Int.tdiv w 2| ≤ 2 ^ 24 ∧ |w| ≤ 2 ^ 24 := by
  have h1 : 0 ≤ Int.tdiv w 2 := Int.tdiv_nonneg hw.le (by decide)
  have h2 : Int.tdiv w 2 ≤ w := by
    rw [Int.tdiv_eq_ediv hw.le (by decide)]
    omega
  have hc := abs_le.1 (le_of_eq (rfl : |c| = |c|))
  refine ⟨abs_le.2 ⟨?_, ?_⟩, abs_le.2 ⟨?_, ?_⟩, abs_le.2 ⟨?_, ?_⟩⟩ <;> omega

/-- C8, as stated, fails: under `calmEnv` (camera at 640, window 512 wide, so
`cx - Wx/2 = 384`) with `eps = 2 ^ (-15)`, a particle at
`x = cx - Wx/2 - eps = 384 - 2 ^ (-15)`, which is a `float`, is moved by
`testParticleWrap` to `x = 896`, not to `cx + Wx/2 - eps = 896 - 2 ^ (-15)`: the
sum is stored as a `float`, and 24 significant bits at that magnitude end at
`2 ^ (-14)`. -/
theorem wrap_shift_rounds :
    (0 : ℚ) < 1 / 32768 ∧ 0 < world_coord calmEnv.visibleTilesX ∧
    0 < world_coord calmEnv.visibleTilesY ∧
    (flakeAt ⟨384 - 1 / 32768, 700, 640⟩).position.x =
      (calmEnv.playerPos.x : ℚ) - (world_coord calmEnv.visibleTilesX : ℚ) / 2 - 1 / 32768 ∧
    roundF32 (flakeAt ⟨384 - 1 / 32768, 700, 640⟩).position.x =
      (flakeAt ⟨384 - 1 / 32768, 700, 640⟩).position.x ∧
    (testParticleWrap calmEnv (flakeAt ⟨384 - 1 / 32768, 700, 640⟩)).position.x = 896 ∧
    (testParticleWrap calmEnv (flakeAt ⟨384 - 1 / 32768, 700, 640⟩)).position.x ≠
      (calmEnv.playerPos.x : ℚ) + (world_coord calmEnv.visibleTilesX : ℚ) / 2 - 1 / 32768 := by
  decide!

/-- The bound on the magnitudes in the wrap cannot be dropped: under `farEnv`
(camera at `2 ^ 25 + 258`, window 512 wide) the left bound
`cx - Wx/2 = 2 ^ 25 + 2` converts to the `float` `2 ^ 25`, and a particle at the
`float` position `x = cx - Wx/2 - 2` is not below it: `testParticleWrap` leaves
it where it is. -/
theorem wrap_bound_rounds :
    roundF32 (((farEnv.playerPos.x - Int.tdiv (world_coord farEnv.visibleTilesX) 2 : Int)) : ℚ) =
      33554432 ∧
    (flakeAt ⟨33554432, 700, 640⟩).position.x =
      (farEnv.playerPos.x : ℚ) - (world_coord farEnv.visibleTilesX : ℚ) / 2 - 2 ∧
    roundF32 (flakeAt ⟨33554432, 700, 640⟩).position.x =
      (flakeAt ⟨33554432, 700, 640⟩).position.x ∧
    testParticleWrap farEnv (flakeAt ⟨33554432, 700, 640⟩) = flakeAt ⟨33554432, 700, 640⟩ := by
  decide!

/-- C8 (amended): with camera position `(cx, cz) = playerPos.p` and window widths
`Wx = world_coord(visibleTiles.x) > 0`, `Wz = world_coord(visibleTiles.y) > 0`,
where `|cx| + Wx` and `|cz| + Wz` are at most `2 ^ 24` (so that the integer
bounds and widths convert to `float` exactly), for every `eps > 0`
`testParticleWrap` moves a particle at `x = cx - Wx/2 - eps` to the `float`
nearest to `cx + Wx/2 - eps` (ties to even) and one at `x = cx + Wx/2 + eps` to
the `float` nearest to `cx - Wx/2 + eps`, does the same on the z axis with `cz`
and `Wz`, and leaves a particle with `cx - Wx/2 ≤ x ≤ cx + Wx/2` and
`cz - Wz/2 ≤ z ≤ cz + Wz/2` unchanged. -/
theorem wrap_correct (env : Env) (psPart : ATPART) (eps : ℚ) (heps : 0 < eps)
    (hWx : 0 < world_coord env.visibleTilesX) (hWz : 0 < world_coord env.visibleTilesY)
    (hcx : |env.playerPos.x| + world_coord env.visibleTilesX ≤ 2 ^ 24)
    (hcz : |env.playerPos.z| + world_coord env.visibleTilesY ≤ 2 ^ 24) :
    (psPart.position.x =
        (env.playerPos.x : ℚ) - (world_coord env.visibleTilesX : ℚ) / 2 - eps →
      (testParticleWrap env psPart).position.x =
        roundF32 ((env.playerPos.x : ℚ) + (world_coord env.visibleTilesX : ℚ) / 2 - eps)) ∧
    (psPart.position.x =
        (env.playerPos.x : ℚ) + (world_coord env.visibleTilesX : ℚ) / 2 + eps →
      (testParticleWrap env psPart).position.x =
        roundF32 ((env.playerPos.x : ℚ) - (world_coord env.visibleTilesX : ℚ) / 2 + eps)) ∧
    (psPart.position.z =
        (env.playerPos.z : ℚ) - (world_coord env.visibleTilesY : ℚ) / 2 - eps →
      (testParticleWrap env psPart).position.z =
        roundF32 ((env.playerPos.z : ℚ) + (world_coord env.visibleTilesY : ℚ) / 2 - eps)) ∧
    (psPart.position.z =
        (env.playerPos.z : ℚ) + (world_coord env.visibleTilesY : ℚ) / 2 + eps →
      (testParticleWrap env psPart).position.z =
        roundF32 ((env.playerPos.z : ℚ) - (world_coord env.visibleTilesY : ℚ) / 2 + eps)) ∧
    ((env.playerPos.x : ℚ) - (world_coord env.visibleTilesX : ℚ) / 2 ≤ psPart.position.x ∧
        psPart.position.x ≤ (env.playerPos.x : ℚ) + (world_coord env.visibleTilesX : ℚ) / 2 ∧
        (env.playerPos.z : ℚ) - (world_coord env.visibleTilesY : ℚ) / 2 ≤ psPart.position.z ∧
        psPart.position.z ≤ (env.playerPos.z : ℚ) + (world_coord env.visibleTilesY : ℚ) / 2 →
      testParticleWrap env psPart = psPart) := by
  have hx : (0 : ℚ) < (world_coord env.visibleTilesX : ℚ) := by exact_mod_cast hWx
  have hz : (0 : ℚ) < (world_coord env.visibleTilesY : ℚ) := by exact_mod_cast hWz
  have ex := world_coord_half env.visibleTilesX
  have ez := world_coord_half env.visibleTilesY
  obtain ⟨bx1, bx2, bx3⟩ := abs_window_bound env.playerPos.x _ hWx hcx
  obtain ⟨bz1, bz2, bz3⟩ := abs_window_bound env.playerPos.z _ hWz hcz
  have rx1 := roundF32_intCast _ bx1
  have rx2 := roundF32_intCast _ bx2
  have rx3 := roundF32_intCast _ bx3
  have rz1 := roundF32_intCast _ bz1
  have rz2 := roundF32_intCast _ bz2
  have rz3 := roundF32_intCast _ bz3
  rw [Int.cast_sub, ex] at rx1
  rw [Int.cast_add, ex] at rx2
  rw [Int.cast_sub, ez] at rz1
  rw [Int.cast_add, ez] at rz2
  refine ⟨?_, ?_, ?_, ?_, ?_⟩
  · intro h
    simp only [testParticleWrap, Int.cast_sub, Int.cast_add, ex, rx1, rx2, rx3]
    rw [if_pos (by rw [h]; linarith), h]
    congr 1; ring
  · intro h
    simp only [testParticleWrap, Int.cast_sub, Int.cast_add, ex, rx1, rx2, rx3]
    rw [if_neg (by rw [h]; linarith), if_pos (by rw [h]; linarith), h]
    congr 1; ring
  · intro h
    simp only [testParticleWrap, Int.cast_sub, Int.cast_add, ez, rz1, rz2, rz3]
    rw [if_pos (by rw [h]; linarith), h]
    congr 1; ring
  · intro h
    simp only [testParticleWrap, Int.cast_sub, Int.cast_add, ez, rz1, rz2, rz3]
    rw [if_neg (by rw [h]; linarith), if_pos (by rw [h]; linarith), h]
    congr 1; ring
  · rintro ⟨h1, h2, h3, h4⟩
    simp only [testParticleWrap, Int.cast_sub, Int.cast_add, ex, ez, rx1, rx2, rz1, rz2]
    rw [if_neg (by linarith), if_neg (by linarith), if_neg (by linarith), if_neg (by linarith)]

/-- An instance of the wrap under `calmEnv` (camera at 640, window 512 wide) for
`eps = 1`: a flake at `x = 383`, `z = 897` is moved to `x = 895`, `z = 385`, which
are `float` values. -/
theorem wrap_correct_witness :
    (0 : ℚ) < 1 ∧ 0 < world_coord calmEnv.visibleTilesX ∧
    0 < world_coord calmEnv.visibleTilesY ∧
    |calmEnv.playerPos.x| + world_coord calmEnv.visibleTilesX ≤ 2 ^ 24 ∧
    |calmEnv.playerPos.z| + world_coord calmEnv.visibleTilesY ≤ 2 ^ 24 ∧
    (testParticleWrap calmEnv (flakeAt ⟨383, 700, 897⟩)).position.x = 895 ∧
    (testParticleWrap calmEnv (flakeAt ⟨383, 700, 897⟩)).position.z = 385 := by
  have h := wrap_correct calmEnv (flakeAt ⟨383, 700, 897⟩) 1 (by norm_num) (by decide)
    (by decide) (by decide) (by decide)
  refine ⟨by norm_num, by decide, by decide, by decide, by decide, ?_, ?_⟩
  · rw [h.1 (by decide!)]
    decide!
  · rw [h.2.2.2.1 (by decide!)]
    decide!

/-- C9: when the game is not paused, for every particle (in particular every
active one) and every velocity, if the position after integration and wrap has
`x < 0` or `x > (mapWidth - 1) * TILE_UNITS` or `z < 0` or
`z > (mapHeight - 1) * TILE_UNITS`, the particle is `APS_INACTIVE` after the
`processParticle` step. -/
theorem deactivation_on_exit (env : Env) (psPart : ATPART) (n : Nat)
    (hp : env.gamePaused = false)
    (hout : (testParticleWrap env (integrate env psPart)).position.x < 0 ∨
      (testParticleWrap env (integrate env psPart)).position.x >
        (((env.mapWidth - 1) * TILE_UNITS : Int) : ℚ) ∨
      (testParticleWrap env (integrate env psPart)).position.z < 0 ∨
      (testParticleWrap env (integrate env psPart)).position.z >
        (((env.mapHeight - 1) * TILE_UNITS : Int) : ℚ)) :
    (processParticle env psPart n).1.status = AP_STATUS.APS_INACTIVE := by
  have hoff : offWorld env (testParticleWrap env (integrate env psPart)) := by
    unfold offWorld
    rcases hout with h | h | h | h
    · exact Or.inl h
    · exact Or.inr (Or.inr (Or.inl h))
    · exact Or.inr (Or.inl h)
    · exact Or.inr (Or.inr (Or.inr h))
  simp [processParticle, hp, hoff]

/-- An instance of the world-exit test under `edgeEnv`: a flake at `x = 5`
moving with `x` velocity `-20` ends at `x = -15`, inside the window and off the
map. -/
theorem deactivation_on_exit_witness :
    edgeEnv.gamePaused = false ∧
    ((testParticleWrap edgeEnv
          (integrate edgeEnv (flakeMoving ⟨5, 600, 200⟩ ⟨-20, -100, 0⟩))).position.x < 0 ∨
      (testParticleWrap edgeEnv
          (integrate edgeEnv (flakeMoving ⟨5, 600, 200⟩ ⟨-20, -100, 0⟩))).position.x >
        (((edgeEnv.mapWidth - 1) * TILE_UNITS : Int) : ℚ) ∨
      (testParticleWrap edgeEnv
          (integrate edgeEnv (flakeMoving ⟨5, 600, 200⟩ ⟨-20, -100, 0⟩))).position.z < 0 ∨
      (testParticleWrap edgeEnv
          (integrate edgeEnv (flakeMoving ⟨5, 600, 200⟩ ⟨-20, -100, 0⟩))).position.z >
        (((edgeEnv.mapHeight - 1) * TILE_UNITS : Int) : ℚ)) ∧
    (processParticle edgeEnv (flakeMoving ⟨5, 600, 200⟩ ⟨-20, -100, 0⟩) 0).1.status =
      AP_STATUS.APS_INACTIVE :=
  ⟨rfl, by decide!,
    deactivation_on_exit edgeEnv (flakeMoving ⟨5, 600, 200⟩ ⟨-20, -100, 0⟩) 0 rfl
      (by decide!)⟩

theorem testParticleWrap_status (env : Env) (p : ATPART) :
    (testParticleWrap env p).status = p.status := rfl

theorem snowDrift_status (env : Env) (p : ATPART) (n : Nat) :
    (snowDrift env p n).1.status = p.status := by
  simp only [snowDrift]
  split_ifs <;> rfl

/-- C10, as stated, fails: under `highEnv` (not paused, ground height 600,
`TILE_MAX_HEIGHT = 510`) an active flake at rest at height 550 stays inside
the map, has `y < G`, and is still `APS_ACTIVE` after the `processParticle`
step, because the ground test is only made below `TILE_MAX_HEIGHT`. -/
theorem ground_contact_gate_skips :
    highEnv.gamePaused = false ∧
    (flakeAt ⟨640, 550, 640⟩).status = AP_STATUS.APS_ACTIVE ∧
    ¬ offWorld highEnv (testParticleWrap highEnv (integrate highEnv (flakeAt ⟨640, 550, 640⟩))) ∧
    (testParticleWrap highEnv (integrate highEnv (flakeAt ⟨640, 550, 640⟩))).position.y <
      ((highEnv.map_Height
        (truncToInt
          (testParticleWrap highEnv (integrate highEnv (flakeAt ⟨640, 550, 640⟩))).position.x)
        (truncToInt
          (testParticleWrap highEnv (integrate highEnv (flakeAt ⟨640, 550, 640⟩))).position.z) :
        Int) : ℚ) ∧
    (processParticle highEnv (flakeAt ⟨640, 550, 640⟩) 0).1.status = AP_STATUS.APS_ACTIVE ∧
    (processParticle highEnv (flakeAt ⟨640, 550, 640⟩) 0).1.status ≠
      AP_STATUS.APS_INACTIVE := by
  decide!

/-- C10 (amended): when the game is not paused and the particle, active before the
step, stays inside the map bounds, let `y` be its height after integration and
`G` the integer ground height `map_Height` returns at its column. If `y < G`
and the ground test is reached, that is `y < TILE_MAX_HEIGHT` (which `y < G`
implies whenever `G ≤ TILE_MAX_HEIGHT`), the particle is `APS_INACTIVE` after the
`processParticle` step; if `y ≥ G` and `y ≥ 0` it is still `APS_ACTIVE`. -/
theorem ground_contact (env : Env) (psPart : ATPART) (n : Nat)
    (hp : env.gamePaused = false) (hact : psPart.status = AP_STATUS.APS_ACTIVE)
    (hin : ¬ offWorld env (testParticleWrap env (integrate env psPart))) :
    ((testParticleWrap env (integrate env psPart)).position.y <
          ((env.map_Height
            (truncToInt (testParticleWrap env (integrate env psPart)).position.x)
            (truncToInt (testParticleWrap env (integrate env psPart)).position.z) : Int) : ℚ) ∧
        ((testParticleWrap env (integrate env psPart)).position.y <
            (env.TILE_MAX_HEIGHT : ℚ) ∨
          env.map_Height
            (truncToInt (testParticleWrap env (integrate env psPart)).position.x)
            (truncToInt (testParticleWrap env (integrate env psPart)).position.z) ≤
            env.TILE_MAX_HEIGHT) →
      (processParticle env psPart n).1.status = AP_STATUS.APS_INACTIVE) ∧
    (((env.map_Height
            (truncToInt (testParticleWrap env (integrate env psPart)).position.x)
            (truncToInt (testParticleWrap env (integrate env psPart)).position.z) : Int) : ℚ) ≤
          (testParticleWrap env (integrate env psPart)).position.y ∧
        0 ≤ (testParticleWrap env (integrate env psPart)).position.y →
      (processParticle env psPart n).1.status = AP_STATUS.APS_ACTIVE) := by
  constructor
  · rintro ⟨hlt, hgate⟩
    have hy : (testParticleWrap env (integrate env psPart)).position.y <
        (env.TILE_MAX_HEIGHT : ℚ) := by
      rcases hgate with h | h
      · exact h
      · exact lt_of_lt_of_le hlt (by exact_mod_cast h)
    have hbelow : truncToInt (testParticleWrap env (integrate env psPart)).position.y <
          env.map_Height
            (truncToInt (testParticleWrap env (integrate env psPart)).position.x)
            (truncToInt (testParticleWrap env (integrate env psPart)).position.z) ∨
        (testParticleWrap env (integrate env psPart)).position.y < 0 := by
      by_cases h0 : (testParticleWrap env (integrate env psPart)).position.y < 0
      · exact Or.inr h0
      · left
        rw [truncToInt_of_nonneg (not_lt.1 h0), Int.floor_lt]
        exact hlt
    simp [processParticle, hp, hin, groundContact, hy, hbelow]
  · rintro ⟨hge, h0⟩
    have hnot : ¬ (truncToInt (testParticleWrap env (integrate env psPart)).position.y <
          env.map_Height
            (truncToInt (testParticleWrap env (integrate env psPart)).position.x)
            (truncToInt (testParticleWrap env (integrate env psPart)).position.z) ∨
        (testParticleWrap env (integrate env psPart)).position.y < 0) := by
      rintro (h | h)
      · rw [truncToInt_of_nonneg h0, Int.floor_lt] at h
        linarith
      · linarith
    have hgc : groundContact env (testParticleWrap env (integrate env psPart)) = none := by
      unfold groundContact
      split
      · simp only
        rw [if_neg hnot]
      · rfl
    have hproc : (processParticle env psPart n).1 =
        (snowDrift env (testParticleWrap env (integrate env psPart)) n).1 := by
      simp [processParticle, hp, hin, hgc]
    rw [hproc, snowDrift_status, testParticleWrap_status]
    exact hact

/-- An instance of the ground test under `calmEnv` (flat ground at height 0):
a flake at height 5 falling by 10 ends below ground and is deactivated. -/
theorem ground_contact_witness :
    calmEnv.gamePaused = false ∧
    (flakeMoving ⟨640, 5, 640⟩ ⟨0, -10, 0⟩).status = AP_STATUS.APS_ACTIVE ∧
    ¬ offWorld calmEnv
      (testParticleWrap calmEnv (integrate calmEnv (flakeMoving ⟨640, 5, 640⟩ ⟨0, -10, 0⟩))) ∧
    (processParticle calmEnv (flakeMoving ⟨640, 5, 640⟩ ⟨0, -10, 0⟩) 0).1.status =
      AP_STATUS.APS_INACTIVE :=
  ⟨rfl, rfl, by decide!,
    (ground_contact calmEnv (flakeMoving ⟨640, 5, 640⟩ ⟨0, -10, 0⟩) 0 rfl rfl
      (by decide!)).1 ⟨by decide!, Or.inl (by decide!)⟩⟩

/-! ## Splash, weather switch, idle tick and spawn test -/

theorem integrate_type (env : Env) (p : ATPART) : (integrate env p).type = p.type := rfl

theorem testParticleWrap_type (env : Env) (p : ATPART) :
    (testParticleWrap env p).type = p.type := rfl

/-- C11: with the emitted effects as a log, a `processParticle` step (game not
paused) in which a rain drop stays on the map and meets the ground test
(height below `TILE_MAX_HEIGHT`, and below the ground height or below zero)
over a tile that is water and visible to the selected player deactivates the
drop and emits exactly one splash, of size 60, at the drop's truncated `x`, `z`
and at `y` equal to the ground height. A snow flake emits nothing in any step,
and no particle emits anything over a tile that is not water or not visible. -/
theorem splash_on_water (env : Env) (psPart : ATPART) (n : Nat)
    (hp : env.gamePaused = false) :
    (¬ offWorld env (testParticleWrap env (integrate env psPart)) →
      (testParticleWrap env (integrate env psPart)).position.y < (env.TILE_MAX_HEIGHT : ℚ) →
      (truncToInt (testParticleWrap env (integrate env psPart)).position.y <
          env.map_Height
            (truncToInt (testParticleWrap env (integrate env psPart)).position.x)
            (truncToInt (testParticleWrap env (integrate env psPart)).position.z) ∨
        (testParticleWrap env (integrate env psPart)).position.y < 0) →
      psPart.type = AP_TYPE.AP_RAIN →
      env.isWater
          (map_coord (truncToInt (testParticleWrap env (integrate env psPart)).position.x))
          (map_coord (truncToInt (testParticleWrap env (integrate env psPart)).position.z)) =
        true →
      env.tileVisible
          (map_coord (truncToInt (testParticleWrap env (integrate env psPart)).position.x))
          (map_coord (truncToInt (testParticleWrap env (integrate env psPart)).position.z)) =
        true →
      (processParticle env psPart n).1.status = AP_STATUS.APS_INACTIVE ∧
      (processParticle env psPart n).2.1 =
        [Event.splash
          ⟨truncToInt (testParticleWrap env (integrate env psPart)).position.x,
            env.map_Height
              (truncToInt (testParticleWrap env (integrate env psPart)).position.x)
              (truncToInt (testParticleWrap env (integrate env psPart)).position.z),
            truncToInt (testParticleWrap env (integrate env psPart)).position.z⟩
          60 MI.MI_SPLASH]) ∧
    (psPart.type = AP_TYPE.AP_SNOW → (processParticle env psPart n).2.1 = []) ∧
    (¬ (env.isWater
          (map_coord (truncToInt (testParticleWrap env (integrate env psPart)).position.x))
          (map_coord (truncToInt (testParticleWrap env (integrate env psPart)).position.z)) =
        true ∧
        env.tileVisible
          (map_coord (truncToInt (testParticleWrap env (integrate env psPart)).position.x))
          (map_coord (truncToInt (testParticleWrap env (integrate env psPart)).position.z)) =
        true) →
      (processParticle env psPart n).2.1 = []) := by
  have htype : (testParticleWrap env (integrate env psPart)).type = psPart.type := rfl
  refine ⟨?_, ?_, ?_⟩
  · intro hin hy hbelow hrain hw hv
    have hgc : groundContact env (testParticleWrap env (integrate env psPart)) =
        some (env.map_Height
          (truncToInt (testParticleWrap env (integrate env psPart)).position.x)
          (truncToInt (testParticleWrap env (integrate env psPart)).position.z)) := by
      unfold groundContact
      rw [if_pos hy]
      simp only
      rw [if_pos hbelow]
    have hs : splashEvents env (testParticleWrap env (integrate env psPart))
        (env.map_Height
          (truncToInt (testParticleWrap env (integrate env psPart)).position.x)
          (truncToInt (testParticleWrap env (integrate env psPart)).position.z)) =
        [Event.splash
          ⟨truncToInt (testParticleWrap env (integrate env psPart)).position.x,
            env.map_Height
              (truncToInt (testParticleWrap env (integrate env psPart)).position.x)
              (truncToInt (testParticleWrap env (integrate env psPart)).position.z),
            truncToInt (testParticleWrap env (integrate env psPart)).position.z⟩
          60 MI.MI_SPLASH] := by
      unfold splashEvents
      rw [if_pos (htype.trans hrain)]
      simp only
      rw [if_pos ⟨hw, hv⟩]
    unfold processParticle
    rw [if_neg (by simp [hp])]
    simp only
    rw [if_neg hin, hgc]
    exact ⟨rfl, hs⟩
  · intro hsnow
    unfold processParticle
    rw [if_neg (by simp [hp])]
    simp only
    split
    · rfl
    · split
      · simp only [splashEvents]
        rw [if_neg (by rw [htype, hsnow]; decide)]
      · rfl
  · intro hnot
    unfold processParticle
    rw [if_neg (by simp [hp])]
    simp only
    split
    · rfl
    · split
      · simp only [splashEvents]
        split_ifs <;> rfl
      · rfl

/-- An instance of the splash: under `lakeEnv` a rain drop at height 5 falling by
10 dies over water and leaves one splash of size 60 at ground height 0. -/
theorem splash_on_water_witness :
    lakeEnv.gamePaused = false ∧
    (processParticle lakeEnv (dropMoving ⟨640, 5, 640⟩ ⟨0, -10, 0⟩) 0).1.status =
      AP_STATUS.APS_INACTIVE ∧
    (processParticle lakeEnv (dropMoving ⟨640, 5, 640⟩ ⟨0, -10, 0⟩) 0).2.1 =
      [Event.splash ⟨640, 0, 640⟩ 60 MI.MI_SPLASH] := by
  have h := (splash_on_water lakeEnv (dropMoving ⟨640, 5, 640⟩ ⟨0, -10, 0⟩) 0 rfl).1
    (by decide!) (by decide!) (by decide!) rfl rfl rfl
  exact ⟨rfl, h.1, h.2.trans (by decide!)⟩


/-- C12: for every reachable state and every mode `m`, after
`atmosSetWeatherType(m)` the mode read by `atmosGetWeatherType` (a pure read of
the state) is `m`; if the previous mode was `WT_NONE` and `m` is not, the
pool is the fresh one, every slot inactive, and the search cursor is 0; if `m`
is `WT_NONE` there is no pool; if `m` equals the previous mode the state is
unchanged; and calling twice is the same as calling once. -/
theorem setWeatherType_contract (C : Nat) (st : AtmosState) (type : WT_CLASS)
    (hreach : Reachable C st) :
    atmosGetWeatherType (atmosSetWeatherType C type st) = type ∧
    (st.weather = WT_CLASS.WT_NONE → type ≠ WT_CLASS.WT_NONE →
      (atmosSetWeatherType C type st).asAtmosParts = some (List.replicate C zeroPart) ∧
      (∀ p ∈ List.replicate C zeroPart, p.status = AP_STATUS.APS_INACTIVE) ∧
      (atmosSetWeatherType C type st).freeParticle = 0) ∧
    (type = WT_CLASS.WT_NONE → (atmosSetWeatherType C type st).asAtmosParts = none) ∧
    (type = st.weather → atmosSetWeatherType C type st = st) ∧
    atmosSetWeatherType C type (atmosSetWeatherType C type st) =
      atmosSetWeatherType C type st := by
  have hinv := pool_iff_weather C st hreach
  refine ⟨?_, ?_, ?_, ?_, ?_⟩
  · unfold atmosGetWeatherType atmosSetWeatherType atmosInitSystem
    by_cases h : type = st.weather
    · simp only [h, ne_eq, not_true_eq_false, if_false]
      split_ifs <;> rfl
    · simp only [ne_eq, h, not_false_eq_true, if_true]
      split_ifs <;> rfl
  · intro hnone htype
    have hpool : st.asAtmosParts = none := by
      by_contra hne
      exact (hinv.1 hne) hnone
    have hne : type ≠ st.weather := by rw [hnone]; exact htype
    refine ⟨?_, ?_, ?_⟩
    · simp [atmosSetWeatherType, atmosInitSystem, hne, hpool, htype]
    · intro p hp
      rw [List.eq_of_mem_replicate hp]
      rfl
    · simp [atmosSetWeatherType, atmosInitSystem, hne, hpool, htype]
  · intro htype
    unfold atmosSetWeatherType atmosInitSystem
    by_cases h : type = st.weather <;> by_cases hp : st.asAtmosParts = none <;> simp_all
  · intro hsame
    have hpool : type = WT_CLASS.WT_NONE → st.asAtmosParts = none := by
      intro h
      by_contra hne
      exact (hinv.1 hne) (hsame ▸ h)
    unfold atmosSetWeatherType
    by_cases h2 : type = WT_CLASS.WT_NONE
    · simp [hsame, hpool h2]
    · simp [hsame, h2, hsame ▸ h2]
  · unfold atmosSetWeatherType atmosInitSystem
    by_cases h : type = st.weather <;> by_cases h2 : type = WT_CLASS.WT_NONE <;>
      by_cases hp : st.asAtmosParts = none <;> simp_all

/-- An instance of the contract: switching the weather off in `snowPool 3`. -/
theorem setWeatherType_contract_witness :
    Reachable 3 (snowPool 3) ∧
    atmosGetWeatherType (atmosSetWeatherType 3 WT_CLASS.WT_NONE (snowPool 3)) =
      WT_CLASS.WT_NONE ∧
    (atmosSetWeatherType 3 WT_CLASS.WT_NONE (snowPool 3)).asAtmosParts = none :=
  ⟨Reachable.setWeatherType _ Reachable.start,
    (setWeatherType_contract 3 (snowPool 3) WT_CLASS.WT_NONE
      (Reachable.setWeatherType _ Reachable.start)).1,
    (setWeatherType_contract 3 (snowPool 3) WT_CLASS.WT_NONE
      (Reachable.setWeatherType _ Reachable.start)).2.2.1 rfl⟩

/-- C13: for every state, if the game is paused or the weather mode is
`WT_NONE`, `atmosUpdateSystem` returns the state as it was (every pool slot, the
search cursor and the accumulator), emits no event (no splash, no allocator
call) and draws no random number; and while the game is paused
`processParticle` leaves every particle as it was. -/
theorem idle_tick_noop (C : Nat) (env : Env) (st : AtmosState) (n : Nat)
    (hidle : env.gamePaused = true ∨ st.weather = WT_CLASS.WT_NONE) :
    atmosUpdateSystem C env st n = some (st, [], n) ∧
    (env.gamePaused = true → ∀ (psPart : ATPART) (m : Nat),
      processParticle env psPart m = (psPart, [], m)) := by
  constructor
  · unfold atmosUpdateSystem
    rw [if_neg]
    rintro ⟨h1, h2⟩
    rcases hidle with h | h
    · rw [h] at h1; exact absurd h1 (by decide)
    · exact h2 h
  · intro h psPart m
    unfold processParticle
    rw [if_pos h]

/-- An instance of the idle tick: `snowPool 3` under `pausedEnv`. -/
theorem idle_tick_noop_witness :
    (pausedEnv.gamePaused = true ∨ (snowPool 3).weather = WT_CLASS.WT_NONE) ∧
    atmosUpdateSystem 3 pausedEnv (snowPool 3) 0 = some (snowPool 3, [], 0) :=
  ⟨Or.inl rfl, (idle_tick_noop 3 pausedEnv (snowPool 3) 0 (Or.inl rfl)).1⟩


theorem spawnPos_y (env : Env) (r1 r2 : Nat) : (spawnPos env r1 r2).y = 1000 := rfl

theorem spawnOne_events {C : Nat} {env : Env} {st st1 : AtmosState} {n n1 : Nat}
    {evs : List Event} (h : spawnOne C env st n = some (st1, evs, n1)) :
    ∀ pos type, Event.spawn pos type ∈ evs →
      onGrid env pos ∧ pos.y = 1000 ∧ kindOfWeather st.weather = some type := by
  intro pos type hmem
  unfold spawnOne at h
  split at h
  · simp at h
  · simp only at h
    split at h
    · rename_i hgrid
      split at h
      · rename_i hw
        split at h
        · simp at h
        · simp only [Option.some.injEq, Prod.mk.injEq] at h
          obtain ⟨_, rfl, _⟩ := h
          simp only [List.mem_singleton, Event.spawn.injEq] at hmem
          obtain ⟨rfl, rfl⟩ := hmem
          exact ⟨hgrid, rfl, by rw [hw]; rfl⟩
      · rename_i hw
        split at h
        · simp at h
        · simp only [Option.some.injEq, Prod.mk.injEq] at h
          obtain ⟨_, rfl, _⟩ := h
          simp only [List.mem_singleton, Event.spawn.injEq] at hmem
          obtain ⟨rfl, rfl⟩ := hmem
          exact ⟨hgrid, rfl, by rw [hw]; rfl⟩
      · simp only [Option.some.injEq, Prod.mk.injEq] at h
        obtain ⟨_, rfl, _⟩ := h
        simp at hmem
    · simp only [Option.some.injEq, Prod.mk.injEq] at h
      obtain ⟨_, rfl, _⟩ := h
      simp at hmem

theorem spawnLoop_events {C : Nat} {env : Env} :
    ∀ (k : Nat) (st st1 : AtmosState) (n n1 : Nat) (evs : List Event),
      spawnLoop C env k st n = some (st1, evs, n1) →
      ∀ pos type, Event.spawn pos type ∈ evs →
        onGrid env pos ∧ pos.y = 1000 ∧ kindOfWeather st.weather = some type := by
  intro k
  induction k with
  | zero =>
    intro st st1 n n1 evs h pos type hmem
    simp only [spawnLoop, Option.some.injEq, Prod.mk.injEq] at h
    obtain ⟨_, rfl, _⟩ := h
    simp at hmem
  | succ k ih =>
    intro st st1 n n1 evs h pos type hmem
    unfold spawnLoop at h
    split at h
    · simp at h
    · rename_i sa ea na ha
      split at h
      · simp at h
      · rename_i s2 e2 n2 hl
        simp only [Option.some.injEq, Prod.mk.injEq] at h
        obtain ⟨_, rfl, _⟩ := h
        rcases List.mem_append.1 hmem with hm | hm
        · exact spawnOne_events ha pos type hm
        · have := ih _ _ _ _ _ hl pos type hm
          rw [(spawnOne_frame ha).1] at this
          exact this

/-- C14: in every tick that returns, under every environment and random stream,
each allocator call logged by `atmosUpdateSystem` has a position with
`0 < x < world_coord(mapWidth - 1)`, `0 < z < world_coord(mapHeight - 1)` and
`y = 1000`, and its kind is snow when the mode is `WT_SNOWING` and rain when it
is `WT_RAINING`; a candidate that fails the bounds test leaves the whole state
(pool and cursor included) as it was and calls nothing. -/
theorem spawn_only_on_grid (C : Nat) (env : Env) (st st1 : AtmosState) (n n1 : Nat)
    (evs : List Event) (h : atmosUpdateSystem C env st n = some (st1, evs, n1)) :
    (∀ pos type, Event.spawn pos type ∈ evs →
      (0 < pos.x ∧ pos.x < ((world_coord (env.mapWidth - 1) : Int) : ℚ)) ∧
      (0 < pos.z ∧ pos.z < ((world_coord (env.mapHeight - 1) : Int) : ℚ)) ∧
      pos.y = 1000 ∧
      ((st.weather = WT_CLASS.WT_SNOWING ∧ type = AP_TYPE.AP_SNOW) ∨
        (st.weather = WT_CLASS.WT_RAINING ∧ type = AP_TYPE.AP_RAIN))) ∧
    (∀ (s : AtmosState) (m : Nat), env.visibleTilesX ≠ 0 →
      ¬ onGrid env (spawnPos env (env.rand m) (env.rand (m + 1))) →
      spawnOne C env s m = some (s, [], m + 2)) := by
  constructor
  · intro pos type hmem
    have key : onGrid env pos ∧ pos.y = 1000 ∧ kindOfWeather st.weather = some type := by
      unfold atmosUpdateSystem at h
      split at h
      · cases hparts : st.asAtmosParts with
        | none => rw [hparts] at h; simp at h
        | some parts =>
          rw [hparts] at h
          simp only at h
          split at h
          · simp at h
          · split at h
            · simp at h
            · rename_i s2 e2 n2 hl
              simp only [Option.some.injEq, Prod.mk.injEq] at h
              obtain ⟨_, rfl, _⟩ := h
              rcases List.mem_append.1 hmem with hm | hm
              · have := processAll_no_spawn env parts n _ hm
                simp [Event.isSpawn] at this
              · exact spawnLoop_events _ _ _ _ _ _ hl pos type hm
      · simp only [Option.some.injEq, Prod.mk.injEq] at h
        obtain ⟨_, rfl, _⟩ := h
        simp at hmem
    obtain ⟨hg, hy, hk⟩ := key
    unfold onGrid at hg
    refine ⟨⟨hg.1, hg.2.2.1⟩, ⟨hg.2.1, hg.2.2.2⟩, hy, ?_⟩
    cases hw : st.weather <;> rw [hw] at hk <;> simp [kindOfWeather] at hk
    · exact Or.inr ⟨rfl, hk.symm⟩
    · exact Or.inl ⟨rfl, hk.symm⟩
  · intro s m hv hng
    unfold spawnOne
    rw [if_neg hv]
    simp only
    rw [if_neg hng]

/-- An instance of the spawn test: one tick of `snowPool 3` under `calmEnv`. -/
theorem spawn_only_on_grid_witness :
    ∃ st1 evs n1, atmosUpdateSystem 3 calmEnv (snowPool 3) 0 = some (st1, evs, n1) ∧
      ∀ pos type, Event.spawn pos type ∈ evs →
        (0 < pos.x ∧ pos.x < ((world_coord (calmEnv.mapWidth - 1) : Int) : ℚ)) ∧
        (0 < pos.z ∧ pos.z < ((world_coord (calmEnv.mapHeight - 1) : Int) : ℚ)) ∧
        pos.y = 1000 ∧
        (((snowPool 3).weather = WT_CLASS.WT_SNOWING ∧ type = AP_TYPE.AP_SNOW) ∨
          ((snowPool 3).weather = WT_CLASS.WT_RAINING ∧ type = AP_TYPE.AP_RAIN)) := by
  have h : (atmosUpdateSystem 3 calmEnv (snowPool 3) 0).isSome = true := by decide!
  obtain ⟨⟨st1, evs, n1⟩, hr⟩ := Option.isSome_iff_exists.1 h
  exact ⟨st1, evs, n1, hr, (spawn_only_on_grid 3 calmEnv (snowPool 3) st1 0 n1 evs hr).1⟩

/-! ## Scan order, velocities and spawn window -/

/-- C15: the code at the failing input. On a pool of capacity `C ≥ 3` with the
cursor on slot `C - 1`, that slot active and slots 0 and 1 inactive, the first
inactive slot in the circular order `C-1, 0, 1, ...` is slot 0, yet the scan of
`atmosAddParticle` goes from slot `C - 1` to slot 1 (the reset `i = 0` is
followed by the loop's `i++`), ends there, and the call activates slot 1 while
slot 0 stays as it was. -/
theorem scan_wrap_skips_first (C : Nat) (hC : 3 ≤ C) (rand : Nat → Nat) (st : AtmosState)
    (parts : List ATPART) (pos : Vector3f) (type : AP_TYPE) (n : Nat)
    (p0 p1 pl : ATPART)
    (hst : st.asAtmosParts = some parts) (hlen : parts.length = C)
    (hcur : st.freeParticle = C - 1)
    (h0 : parts[0]? = some p0) (hs0 : p0.status = AP_STATUS.APS_INACTIVE)
    (h1 : parts[1]? = some p1) (hs1 : p1.status = AP_STATUS.APS_INACTIVE)
    (hl : parts[C - 1]? = some pl) (hsl : pl.status = AP_STATUS.APS_ACTIVE) :
    firstFreeCircular C parts st.freeParticle = some 0 ∧
    scanLoop C parts (C + 1) st.freeParticle 0 = some (1, 1) ∧
    atmosAddParticle C rand st pos type n =
      some ({ st with
              freeParticle := 1,
              asAtmosParts := some (parts.set 1
                (spawnedPart p1 pos type (rand n) (rand (n + 1)) (rand (n + 2)))) }, n + 3) ∧
    (parts.set 1 (spawnedPart p1 pos type (rand n) (rand (n + 1)) (rand (n + 2))))[0]? =
      some p0 := by
  have hscan : scanLoop C parts (C + 1) st.freeParticle 0 = some (1, 1) := by
    rw [hcur, scanLoop_active C parts C (C - 1) 0 pl hl hsl (by omega)]
    rw [if_pos (le_refl _)]
    obtain ⟨f, hf⟩ : ∃ f, C = f + 1 := ⟨C - 1, by omega⟩
    conv => lhs; arg 3; rw [hf]
    exact scanLoop_inactive C parts f 1 1 p1 h1 hs1
  refine ⟨?_, hscan, ?_, ?_⟩
  · obtain ⟨c, hc⟩ : ∃ c, C = c + 2 := ⟨C - 2, by omega⟩
    have hm0 : (C - 1 + 0) % C = C - 1 := by
      rw [Nat.add_zero]; exact Nat.mod_eq_of_lt (by omega)
    have hm1 : (C - 1 + 1) % C = 0 := by
      rw [Nat.sub_add_cancel (by omega)]; exact Nat.mod_self C
    unfold firstFreeCircular
    rw [hcur]
    conv => lhs; arg 2; arg 2; rw [hc, List.range_succ_eq_map, List.range_succ_eq_map]
    simp only [List.map_cons, List.find?_cons, Nat.succ_eq_add_one, Nat.zero_add]
    rw [hm0, hm1, hl, h0]
    simp [hsl, hs0]
  · simp only [atmosAddParticle, hst, hscan, h1]
    rw [if_neg (by omega)]
  · rw [List.getElem?_set_ne (by decide)]
    exact h0

/-- An instance of the skipped slot: capacity 3, slots 0 and 1 inactive, slot 2
active, cursor 2. -/
theorem scan_wrap_skips_first_witness :
    3 ≤ 3 ∧
    lastPlaced.asAtmosParts =
      some [zeroPart, zeroPart, spawnedPart zeroPart skyPos AP_TYPE.AP_SNOW 0 0 0] ∧
    lastPlaced.freeParticle = 3 - 1 ∧
    firstFreeCircular 3 [zeroPart, zeroPart, spawnedPart zeroPart skyPos AP_TYPE.AP_SNOW 0 0 0]
      lastPlaced.freeParticle = some 0 ∧
    scanLoop 3 [zeroPart, zeroPart, spawnedPart zeroPart skyPos AP_TYPE.AP_SNOW 0 0 0] (3 + 1)
      lastPlaced.freeParticle 0 = some (1, 1) ∧
    atmosAddParticle 3 zeroRand lastPlaced skyPos AP_TYPE.AP_SNOW 0 =
      some ({ lastPlaced with
              freeParticle := 1,
              asAtmosParts := some
                ([zeroPart, zeroPart, spawnedPart zeroPart skyPos AP_TYPE.AP_SNOW 0 0 0].set 1
                  (spawnedPart zeroPart skyPos AP_TYPE.AP_SNOW (zeroRand 0) (zeroRand (0 + 1))
                    (zeroRand (0 + 2)))) }, 0 + 3) ∧
    ([zeroPart, zeroPart, spawnedPart zeroPart skyPos AP_TYPE.AP_SNOW 0 0 0].set 1
        (spawnedPart zeroPart skyPos AP_TYPE.AP_SNOW (zeroRand 0) (zeroRand (0 + 1))
          (zeroRand (0 + 2))))[0]? = some zeroPart :=
  ⟨by decide, rfl, rfl,
    scan_wrap_skips_first 3 (by decide) zeroRand lastPlaced
      [zeroPart, zeroPart, spawnedPart zeroPart skyPos AP_TYPE.AP_SNOW 0 0 0] skyPos
      AP_TYPE.AP_SNOW 0 zeroPart zeroPart (spawnedPart zeroPart skyPos AP_TYPE.AP_SNOW 0 0 0)
      rfl rfl rfl rfl rfl rfl rfl rfl (by decide)⟩


theorem spawnedPart_velocity_rain (old : ATPART) (pos : Vector3f) (rx ry rz : Nat) :
    (spawnedPart old pos AP_TYPE.AP_RAIN rx ry rz).velocity =
      ⟨((RAIN_SPEED_DRIFT rx : Int) : ℚ), ((RAIN_SPEED_FALL ry : Int) : ℚ),
        ((RAIN_SPEED_DRIFT rz : Int) : ℚ)⟩ := by
  simp [spawnedPart]

theorem spawnedPart_velocity_snow (old : ATPART) (pos : Vector3f) (rx ry rz : Nat) :
    (spawnedPart old pos AP_TYPE.AP_SNOW rx ry rz).velocity =
      ⟨((SNOW_SPEED_DRIFT rx : Int) : ℚ), ((SNOW_SPEED_FALL ry : Int) : ℚ),
        ((SNOW_SPEED_DRIFT rz : Int) : ℚ)⟩ := by
  simp [spawnedPart]

theorem RAIN_SPEED_FALL_range (r : Nat) : -999 ≤ RAIN_SPEED_FALL r ∧ RAIN_SPEED_FALL r ≤ -700 := by
  unfold RAIN_SPEED_FALL
  have := Nat.mod_lt r (show 0 < 300 by decide)
  omega

theorem SNOW_SPEED_FALL_range (r : Nat) : -119 ≤ SNOW_SPEED_FALL r ∧ SNOW_SPEED_FALL r ≤ -80 := by
  unfold SNOW_SPEED_FALL
  have := Nat.mod_lt r (show 0 < 40 by decide)
  omega

theorem RAIN_SPEED_DRIFT_range (r : Nat) : 0 ≤ RAIN_SPEED_DRIFT r ∧ RAIN_SPEED_DRIFT r ≤ 49 := by
  unfold RAIN_SPEED_DRIFT
  have := Nat.mod_lt r (show 0 < 50 by decide)
  omega

theorem SNOW_SPEED_DRIFT_range (r : Nat) : -39 ≤ SNOW_SPEED_DRIFT r ∧ SNOW_SPEED_DRIFT r ≤ 40 := by
  unfold SNOW_SPEED_DRIFT
  have := Nat.mod_lt r (show 0 < 80 by decide)
  omega

theorem spawnedPart_fall (old : ATPART) (pos : Vector3f) (type : AP_TYPE) (rx ry rz : Nat) :
    (spawnedPart old pos type rx ry rz).velocity.y < 0 ∧
    (type = AP_TYPE.AP_RAIN →
      -999 ≤ (spawnedPart old pos type rx ry rz).velocity.y ∧
      (spawnedPart old pos type rx ry rz).velocity.y ≤ -700 ∧
      |(spawnedPart old pos type rx ry rz).velocity.x| <
        |(spawnedPart old pos type rx ry rz).velocity.y| ∧
      |(spawnedPart old pos type rx ry rz).velocity.z| <
        |(spawnedPart old pos type rx ry rz).velocity.y|) ∧
    (type = AP_TYPE.AP_SNOW →
      -119 ≤ (spawnedPart old pos type rx ry rz).velocity.y ∧
      (spawnedPart old pos type rx ry rz).velocity.y ≤ -80) := by
  cases type
  · rw [spawnedPart_velocity_rain]
    obtain ⟨f1, f2⟩ := RAIN_SPEED_FALL_range ry
    obtain ⟨x1, x2⟩ := RAIN_SPEED_DRIFT_range rx
    obtain ⟨z1, z2⟩ := RAIN_SPEED_DRIFT_range rz
    have f1q : (-999 : ℚ) ≤ (RAIN_SPEED_FALL ry : ℚ) := by exact_mod_cast f1
    have f2q : (RAIN_SPEED_FALL ry : ℚ) ≤ -700 := by exact_mod_cast f2
    have x1q : (0 : ℚ) ≤ (RAIN_SPEED_DRIFT rx : ℚ) := by exact_mod_cast x1
    have x2q : (RAIN_SPEED_DRIFT rx : ℚ) ≤ 49 := by exact_mod_cast x2
    have z1q : (0 : ℚ) ≤ (RAIN_SPEED_DRIFT rz : ℚ) := by exact_mod_cast z1
    have z2q : (RAIN_SPEED_DRIFT rz : ℚ) ≤ 49 := by exact_mod_cast z2
    refine ⟨by simp only; linarith, fun _ => ⟨f1q, f2q, ?_, ?_⟩, fun h => absurd h (by decide)⟩
    · simp only
      rw [abs_of_nonneg x1q, abs_of_neg (by linarith)]
      linarith
    · simp only
      rw [abs_of_nonneg z1q, abs_of_neg (by linarith)]
      linarith
  · rw [spawnedPart_velocity_snow]
    obtain ⟨f1, f2⟩ := SNOW_SPEED_FALL_range ry
    have f1q : (-119 : ℚ) ≤ (SNOW_SPEED_FALL ry : ℚ) := by exact_mod_cast f1
    have f2q : (SNOW_SPEED_FALL ry : ℚ) ≤ -80 := by exact_mod_cast f2
    exact ⟨by simp only; linarith, fun h => absurd h (by decide), fun _ => ⟨f1q, f2q⟩⟩

/-- C16: whatever the random draws, an `atmosAddParticle` call that is not
dropped returns and leaves in the slot it selected a particle whose fall
component `velocity.y` is strictly negative, lies in `[-999, -700]` for rain
and in `[-119, -80]` for snow, and for rain exceeds in magnitude each of the
two drift components; and every rain fall speed exceeds in magnitude every
snow fall speed. -/
theorem spawn_fall_velocities (C : Nat) (rand : Nat → Nat) (st : AtmosState)
    (parts : List ATPART) (pos : Vector3f) (type : AP_TYPE) (n i activeCount : Nat)
    (hst : st.asAtmosParts = some parts)
    (hscan : scanLoop C parts (C + 1) st.freeParticle 0 = some (i, activeCount))
    (hkeep : ¬ activeCount ≥ C - 1) :
    (∃ st1 parts1 new,
      atmosAddParticle C rand st pos type n = some (st1, n + 3) ∧
      st1.asAtmosParts = some parts1 ∧ parts1[i]? = some new ∧
      new.velocity.y < 0 ∧
      (type = AP_TYPE.AP_RAIN →
        -999 ≤ new.velocity.y ∧ new.velocity.y ≤ -700 ∧
        |new.velocity.x| < |new.velocity.y| ∧ |new.velocity.z| < |new.velocity.y|) ∧
      (type = AP_TYPE.AP_SNOW → -119 ≤ new.velocity.y ∧ new.velocity.y ≤ -80)) ∧
    (∀ (o1 o2 : ATPART) (q1 q2 : Vector3f) (a1 a2 a3 b1 b2 b3 : Nat),
      |(spawnedPart o2 q2 AP_TYPE.AP_SNOW b1 b2 b3).velocity.y| <
        |(spawnedPart o1 q1 AP_TYPE.AP_RAIN a1 a2 a3).velocity.y|) := by
  constructor
  · obtain ⟨old, hold, _⟩ := scanLoop_exit C parts _ _ _ _ _ hscan
    have hi : i < parts.length := by
      by_contra hge
      rw [List.getElem?_eq_none (by omega)] at hold
      simp at hold
    obtain ⟨h1, h2, h3⟩ :=
      spawnedPart_fall old pos type (rand n) (rand (n + 1)) (rand (n + 2))
    refine ⟨{ st with freeParticle := i, asAtmosParts := some (parts.set i
        (spawnedPart old pos type (rand n) (rand (n + 1)) (rand (n + 2)))) },
      parts.set i (spawnedPart old pos type (rand n) (rand (n + 1)) (rand (n + 2))),
      spawnedPart old pos type (rand n) (rand (n + 1)) (rand (n + 2)),
      ?_, rfl, List.getElem?_set_self hi, h1, h2, h3⟩
    simp only [atmosAddParticle, hst, hscan, hold]
    rw [if_neg hkeep]
  · intro o1 o2 q1 q2 a1 a2 a3 b1 b2 b3
    obtain ⟨r0, r1, _⟩ := spawnedPart_fall o1 q1 AP_TYPE.AP_RAIN a1 a2 a3
    obtain ⟨s0, _, s1⟩ := spawnedPart_fall o2 q2 AP_TYPE.AP_SNOW b1 b2 b3
    obtain ⟨r2, r3, _⟩ := r1 rfl
    obtain ⟨s2, s3⟩ := s1 rfl
    rw [abs_of_neg r0, abs_of_neg s0]
    linarith

/-- An instance of the fall velocities: a snow request on the fresh pool of
capacity 3. -/
theorem spawn_fall_velocities_witness :
    (snowPool 3).asAtmosParts = some (List.replicate 3 zeroPart) ∧
    scanLoop 3 (List.replicate 3 zeroPart) (3 + 1) (snowPool 3).freeParticle 0 = some (0, 0) ∧
    ¬ 0 ≥ 3 - 1 ∧
    ∃ (st1 : AtmosState) (parts1 : List ATPART) (new : ATPART),
      atmosAddParticle 3 zeroRand (snowPool 3) skyPos AP_TYPE.AP_SNOW 0 = some (st1, 0 + 3) ∧
      st1.asAtmosParts = some parts1 ∧ parts1[0]? = some new ∧
      new.velocity.y < 0 ∧
      (AP_TYPE.AP_SNOW = AP_TYPE.AP_RAIN →
        -999 ≤ new.velocity.y ∧ new.velocity.y ≤ -700 ∧
        |new.velocity.x| < |new.velocity.y| ∧ |new.velocity.z| < |new.velocity.y|) ∧
      (AP_TYPE.AP_SNOW = AP_TYPE.AP_SNOW → -119 ≤ new.velocity.y ∧ new.velocity.y ≤ -80) :=
  ⟨by decide, by decide, by decide,
    (spawn_fall_velocities 3 zeroRand (snowPool 3) (List.replicate 3 zeroPart) skyPos
      AP_TYPE.AP_SNOW 0 0 0 (by decide) (by decide) (by decide)).1⟩


theorem driftAttainable_rain (v : ℚ) :
    DriftAttainable AP_TYPE.AP_RAIN v ↔ ∃ r : Nat, v = ((RAIN_SPEED_DRIFT r : Int) : ℚ) := by
  constructor
  · rintro ⟨old, pos, rx, ry, rz, h | h⟩
    · rw [spawnedPart_velocity_rain] at h; exact ⟨rx, h.symm⟩
    · rw [spawnedPart_velocity_rain] at h; exact ⟨rz, h.symm⟩
  · rintro ⟨r, rfl⟩
    exact ⟨zeroPart, ⟨0, 0, 0⟩, r, 0, 0, Or.inl (by rw [spawnedPart_velocity_rain])⟩

theorem driftAttainable_snow (v : ℚ) :
    DriftAttainable AP_TYPE.AP_SNOW v ↔ ∃ r : Nat, v = ((SNOW_SPEED_DRIFT r : Int) : ℚ) := by
  constructor
  · rintro ⟨old, pos, rx, ry, rz, h | h⟩
    · rw [spawnedPart_velocity_snow] at h; exact ⟨rx, h.symm⟩
    · rw [spawnedPart_velocity_snow] at h; exact ⟨rz, h.symm⟩
  · rintro ⟨r, rfl⟩
    exact ⟨zeroPart, ⟨0, 0, 0⟩, r, 0, 0, Or.inl (by rw [spawnedPart_velocity_snow])⟩

/-- C17, as stated, fails: a rain particle can get the drift 49 and can never get
the drift -49. -/
theorem rain_drift_one_sided :
    DriftAttainable AP_TYPE.AP_RAIN 49 ∧ ¬ DriftAttainable AP_TYPE.AP_RAIN (-49) := by
  constructor
  · rw [driftAttainable_rain]
    exact ⟨49, by norm_num [RAIN_SPEED_DRIFT]⟩
  · rw [driftAttainable_rain]
    rintro ⟨r, hr⟩
    have h0 := (RAIN_SPEED_DRIFT_range r).1
    have h0q : (0 : ℚ) ≤ (RAIN_SPEED_DRIFT r : ℚ) := by exact_mod_cast h0
    linarith

/-- C17 (amended): over all random draws, the drift components of a rain particle
take exactly the values `0, 1, ..., 49`, none of them negative, so that a value
and its opposite are both attainable only for 0; the drift components of a
snow particle take every integer value `v` with `-39 ≤ v ≤ 39`, together with
`-v`. -/
theorem drift_ranges :
    (∀ v : ℚ, DriftAttainable AP_TYPE.AP_RAIN v ↔ ∃ k : Nat, k ≤ 49 ∧ v = (k : ℚ)) ∧
    (∀ v : ℚ, DriftAttainable AP_TYPE.AP_RAIN v → DriftAttainable AP_TYPE.AP_RAIN (-v) →
      v = 0) ∧
    (∀ k : Int, -39 ≤ k → k ≤ 39 →
      DriftAttainable AP_TYPE.AP_SNOW (k : ℚ) ∧ DriftAttainable AP_TYPE.AP_SNOW (-(k : ℚ))) := by
  refine ⟨?_, ?_, ?_⟩
  · intro v
    rw [driftAttainable_rain]
    constructor
    · rintro ⟨r, rfl⟩
      refine ⟨r % 50, ?_, ?_⟩
      · have := Nat.mod_lt r (show 0 < 50 by decide); omega
      · unfold RAIN_SPEED_DRIFT
        push_cast
        rfl
    · rintro ⟨k, hk, rfl⟩
      refine ⟨k, ?_⟩
      have : k % 50 = k := Nat.mod_eq_of_lt (by omega)
      simp [RAIN_SPEED_DRIFT, this]
  · intro v h1 h2
    rw [driftAttainable_rain] at h1 h2
    obtain ⟨r1, hr1⟩ := h1
    obtain ⟨r2, hr2⟩ := h2
    have a := (RAIN_SPEED_DRIFT_range r1).1
    have b := (RAIN_SPEED_DRIFT_range r2).1
    have aq : (0 : ℚ) ≤ (RAIN_SPEED_DRIFT r1 : ℚ) := by exact_mod_cast a
    have bq : (0 : ℚ) ≤ (RAIN_SPEED_DRIFT r2 : ℚ) := by exact_mod_cast b
    linarith
  · intro k h1 h2
    have key : ∀ j : Int, -39 ≤ j → j ≤ 39 → DriftAttainable AP_TYPE.AP_SNOW (j : ℚ) := by
      intro j hj1 hj2
      rw [driftAttainable_snow]
      refine ⟨(40 - j).toNat, ?_⟩
      have hn : ((40 - j).toNat : Int) = 40 - j := Int.toNat_of_nonneg (by omega)
      have hlt : (40 - j).toNat < 80 := by omega
      have : SNOW_SPEED_DRIFT (40 - j).toNat = j := by
        unfold SNOW_SPEED_DRIFT
        rw [Nat.mod_eq_of_lt hlt, hn]
        ring
      rw [this]
    refine ⟨key k h1 h2, ?_⟩
    have := key (-k) (by omega) (by omega)
    simpa using this

/-- C18: the code at the failing input. Under `wideEnv` (window of 10 x 2 tiles,
camera at `z = 640`, every `rand()` result 9) the spawn candidate has
`z - cameraZ = world_coord(9 % 10 - 2 / 2) = 1024`, beyond the half window
`world_coord(2) / 2 = 128`; the candidate is on the grid and the tick passes it
to the allocator. Line 285 takes `rand() % visibleTiles.x` where the window on
this axis is `visibleTiles.y`. -/
theorem spawn_z_leaves_window :
    0 < wideEnv.visibleTilesX ∧ 0 < wideEnv.visibleTilesY ∧
    (spawnPos wideEnv (wideEnv.rand 0) (wideEnv.rand 1)).z - (wideEnv.playerPos.z : ℚ) = 1024 ∧
    ((world_coord wideEnv.visibleTilesY : Int) : ℚ) / 2 = 128 ∧
    ¬ (|(spawnPos wideEnv (wideEnv.rand 0) (wideEnv.rand 1)).z - (wideEnv.playerPos.z : ℚ)| ≤
        ((world_coord wideEnv.visibleTilesY : Int) : ℚ) / 2) ∧
    onGrid wideEnv (spawnPos wideEnv (wideEnv.rand 0) (wideEnv.rand 1)) ∧
    (atmosUpdateSystem 3 wideEnv (snowPool 3) 0).map (fun r => r.2.1) =
      some [Event.spawn (spawnPos wideEnv (wideEnv.rand 0) (wideEnv.rand 1)) AP_TYPE.AP_SNOW,
        Event.spawn (spawnPos wideEnv (wideEnv.rand 0) (wideEnv.rand 1)) AP_TYPE.AP_SNOW] := by
  decide!

/-- On the x axis, where line 284 uses `visibleTiles.x` twice, every candidate lies
inside the window. -/
theorem spawn_x_in_window (env : Env) (r1 r2 : Nat) (hx : 0 < env.visibleTilesX) :
    |(spawnPos env r1 r2).x - (env.playerPos.x : ℚ)| ≤
      ((world_coord env.visibleTilesX : Int) : ℚ) / 2 := by
  have hmod : Int.tmod (r1 : Int) env.visibleTilesX = (r1 : Int) % env.visibleTilesX :=
    Int.tmod_eq_emod (Int.natCast_nonneg _) (le_of_lt hx)
  have hdiv : Int.tdiv env.visibleTilesX 2 = env.visibleTilesX / 2 :=
    Int.tdiv_eq_ediv (le_of_lt hx) (by decide)
  have h0 : 0 ≤ (r1 : Int) % env.visibleTilesX := Int.emod_nonneg _ (ne_of_gt hx)
  have h1 : (r1 : Int) % env.visibleTilesX < env.visibleTilesX := Int.emod_lt_of_pos _ hx
  have hlo : -env.visibleTilesX ≤ 2 * ((r1 : Int) % env.visibleTilesX - env.visibleTilesX / 2) := by
    omega
  have hhi : 2 * ((r1 : Int) % env.visibleTilesX - env.visibleTilesX / 2) ≤ env.visibleTilesX := by
    omega
  have hloq : -(env.visibleTilesX : ℚ) ≤
      2 * (((r1 : Int) % env.visibleTilesX - env.visibleTilesX / 2 : Int) : ℚ) := by
    exact_mod_cast hlo
  have hhiq : 2 * (((r1 : Int) % env.visibleTilesX - env.visibleTilesX / 2 : Int) : ℚ) ≤
      (env.visibleTilesX : ℚ) := by
    exact_mod_cast hhi
  simp only [spawnPos, world_coord, TILE_SHIFT, hmod, hdiv, add_sub_cancel_left]
  rw [abs_le]
  push_cast at hloq hhiq ⊢
  constructor <;> nlinarith

/-! ## No starvation and index safety -/

theorem visit_eq (C : Nat) :
    ∀ (j i : Nat), i ≤ C - 1 → j ≤ C - 1 →
      visit C i j = if i + j ≤ C - 1 then i + j else i + j - (C - 1) := by
  intro j
  induction j with
  | zero => intro i hi _; simp [visit, hi]
  | succ j ih =>
    intro i hi hj
    simp only [visit]
    by_cases hlast : i ≥ C - 1
    · have h1 : scanNext C i = 1 := by simp [scanNext, hlast]
      rw [h1, ih 1 (by omega) (by omega)]
      rw [if_pos (by omega), if_neg (by omega)]
      omega
    · have h1 : scanNext C i = i + 1 := by simp [scanNext, hlast]
      rw [h1, ih (i + 1) (by omega) (by omega)]
      by_cases h2 : i + (j + 1) ≤ C - 1
      · rw [if_pos (by omega), if_pos h2]; omega
      · rw [if_neg (by omega), if_neg h2]; omega

theorem scanLoop_visited (C : Nat) (parts : List ATPART) :
    ∀ (fuel i ac i1 ac1 : Nat), scanLoop C parts fuel i ac = some (i1, ac1) →
      ac ≤ ac1 ∧ ∀ j, j < ac1 - ac →
        ∃ p, parts[visit C i j]? = some p ∧ p.status = AP_STATUS.APS_ACTIVE := by
  intro fuel
  induction fuel with
  | zero => intro i ac i1 ac1 h; simp [scanLoop] at h
  | succ f ih =>
    intro i ac i1 ac1 h
    unfold scanLoop at h
    cases hp : parts[i]? with
    | none => rw [hp] at h; simp at h
    | some p =>
      rw [hp] at h
      simp only at h
      split at h
      · rename_i hc
        obtain ⟨hle, hvis⟩ := ih _ _ _ _ h
        refine ⟨by omega, ?_⟩
        intro j hj
        cases j with
        | zero => exact ⟨p, hp, hc.1⟩
        | succ j => exact hvis j (by omega)
      · simp only [Option.some.injEq, Prod.mk.injEq] at h
        obtain ⟨rfl, rfl⟩ := h
        exact ⟨le_refl _, fun j hj => by omega⟩

theorem activeSlots_ge_of_range :
    ∀ (parts : List ATPART) (a m : Nat),
      (∀ j, a ≤ j → j < a + m → ∃ p, parts[j]? = some p ∧ p.status = AP_STATUS.APS_ACTIVE) →
      m ≤ activeSlots parts := by
  intro parts
  induction parts with
  | nil =>
    intro a m h
    cases m with
    | zero => exact Nat.zero_le _
    | succ m =>
      obtain ⟨p, hp, _⟩ := h a (le_refl _) (by omega)
      simp at hp
  | cons q qs ih =>
    intro a m h
    cases a with
    | zero =>
      cases m with
      | zero => exact Nat.zero_le _
      | succ m =>
        obtain ⟨p, hp, hs⟩ := h 0 (le_refl _) (by omega)
        simp only [List.getElem?_cons_zero, Option.some.injEq] at hp
        subst hp
        have hrest : m ≤ activeSlots qs := by
          apply ih 0 m
          intro j _ hj
          have := h (j + 1) (by omega) (by omega)
          simpa using this
        unfold activeSlots at hrest ⊢
        rw [List.countP_cons_of_pos _ _ (by simpa using hs)]
        omega
    | succ a =>
      have hrest : m ≤ activeSlots qs := by
        apply ih a m
        intro j hj1 hj2
        have := h (j + 1) (by omega) (by omega)
        simpa using this
      unfold activeSlots at hrest ⊢
      have := List.countP_cons (fun p : ATPART => decide (p.status = AP_STATUS.APS_ACTIVE)) q qs
      omega

theorem activeSlots_set :
    ∀ (parts : List ATPART) (i : Nat) (old new : ATPART),
      parts[i]? = some old → old.status = AP_STATUS.APS_INACTIVE →
      new.status = AP_STATUS.APS_ACTIVE →
      activeSlots (parts.set i new) = activeSlots parts + 1 := by
  intro parts
  induction parts with
  | nil => intro i old new h; simp at h
  | cons q qs ih =>
    intro i old new h ho hn
    cases i with
    | zero =>
      simp only [List.getElem?_cons_zero, Option.some.injEq] at h
      subst h
      unfold activeSlots
      rw [List.set_cons_zero, List.countP_cons_of_pos _ _ (by simpa using hn),
        List.countP_cons_of_neg _ _ (by simp [ho])]
    | succ i =>
      have h2 : qs[i]? = some old := by simpa using h
      have := ih i old new h2 ho hn
      unfold activeSlots at this ⊢
      rw [List.set_cons_succ, List.countP_cons, List.countP_cons, this]
      omega


theorem scan_finds_free (C : Nat) (parts : List ATPART) (k : Nat) (hlen : parts.length = C)
    (hk : k < C) (hfew : activeSlots parts < C - 1) :
    ∃ i ac old, scanLoop C parts (C + 1) k 0 = some (i, ac) ∧ ac < C - 1 ∧ i < C ∧
      parts[i]? = some old ∧ old.status = AP_STATUS.APS_INACTIVE := by
  have hC : 2 ≤ C := by omega
  obtain ⟨i, ac, hscan, hi, _⟩ :=
    scanLoop_total C parts hC hlen (C + 1) k 0 hk (Nat.zero_le _) (by omega)
  obtain ⟨_, hvis⟩ := scanLoop_visited C parts _ _ _ _ _ hscan
  have hac : ac < C - 1 := by
    by_contra hge
    have hall : ∀ j, j < C - 1 →
        ∃ p, parts[visit C k j]? = some p ∧ p.status = AP_STATUS.APS_ACTIVE :=
      fun j hj => hvis j (by omega)
    have hcount : C - 1 ≤ activeSlots parts := by
      by_cases hk0 : k = 0
      · apply activeSlots_ge_of_range parts 0 (C - 1)
        intro s _ hs
        have := hall s (by omega)
        rw [visit_eq C s k (by omega) (by omega), hk0, if_pos (by omega)] at this
        simpa using this
      · apply activeSlots_ge_of_range parts 1 (C - 1)
        intro s hs1 hs2
        by_cases hsk : k ≤ s
        · have := hall (s - k) (by omega)
          rw [visit_eq C (s - k) k (by omega) (by omega), if_pos (by omega)] at this
          have e : k + (s - k) = s := by omega
          rw [e] at this
          exact this
        · have := hall (s + (C - 1) - k) (by omega)
          rw [visit_eq C (s + (C - 1) - k) k (by omega) (by omega), if_neg (by omega)] at this
          have e : k + (s + (C - 1) - k) - (C - 1) = s := by omega
          rw [e] at this
          exact this
    omega
  obtain ⟨old, hold, hor⟩ := scanLoop_exit C parts _ _ _ _ _ hscan
  have hinact : old.status = AP_STATUS.APS_INACTIVE := by
    rcases hor with h | h
    · exact h
    · omega
  exact ⟨i, ac, old, hscan, hac, hi, hold, hinact⟩

/-- C19: for every pool of capacity `C` with cursor `< C` in which fewer than
`C - 1` slots are active, `atmosAddParticle` returns and succeeds: it writes the
new, active particle into one slot that was inactive, sets the cursor to that
slot, and the number of active slots grows by exactly one. -/
theorem no_starvation (C : Nat) (rand : Nat → Nat) (st : AtmosState) (parts : List ATPART)
    (pos : Vector3f) (type : AP_TYPE) (n : Nat)
    (hst : st.asAtmosParts = some parts) (hlen : parts.length = C)
    (hcur : st.freeParticle < C) (hfew : activeSlots parts < C - 1) :
    ∃ i old,
      parts[i]? = some old ∧ old.status = AP_STATUS.APS_INACTIVE ∧
      atmosAddParticle C rand st pos type n =
        some ({ st with
                freeParticle := i,
                asAtmosParts := some (parts.set i
                  (spawnedPart old pos type (rand n) (rand (n + 1)) (rand (n + 2)))) },
              n + 3) ∧
      (spawnedPart old pos type (rand n) (rand (n + 1)) (rand (n + 2))).status =
        AP_STATUS.APS_ACTIVE ∧
      activeSlots (parts.set i
          (spawnedPart old pos type (rand n) (rand (n + 1)) (rand (n + 2)))) =
        activeSlots parts + 1 := by
  obtain ⟨i, ac, old, hscan, hac, _, hold, hinact⟩ :=
    scan_finds_free C parts st.freeParticle hlen hcur hfew
  refine ⟨i, old, hold, hinact, ?_, spawnedPart_status _ _ _ _ _ _,
    activeSlots_set parts i old _ hold hinact (spawnedPart_status _ _ _ _ _ _)⟩
  simp only [atmosAddParticle, hst, hscan, hold]
  rw [if_neg (by omega)]

/-- An instance of the successful request: the fresh pool of capacity 3, with no
active slot. -/
theorem no_starvation_witness :
    (snowPool 3).asAtmosParts = some (List.replicate 3 zeroPart) ∧
    (List.replicate 3 zeroPart).length = 3 ∧ (snowPool 3).freeParticle < 3 ∧
    activeSlots (List.replicate 3 zeroPart) < 3 - 1 ∧
    ∃ i old,
      (List.replicate 3 zeroPart)[i]? = some old ∧ old.status = AP_STATUS.APS_INACTIVE ∧
      atmosAddParticle 3 zeroRand (snowPool 3) skyPos AP_TYPE.AP_SNOW 0 =
        some ({ snowPool 3 with
                freeParticle := i,
                asAtmosParts := some ((List.replicate 3 zeroPart).set i
                  (spawnedPart old skyPos AP_TYPE.AP_SNOW (zeroRand 0) (zeroRand (0 + 1))
                    (zeroRand (0 + 2)))) },
              0 + 3) ∧
      (spawnedPart old skyPos AP_TYPE.AP_SNOW (zeroRand 0) (zeroRand (0 + 1))
          (zeroRand (0 + 2))).status = AP_STATUS.APS_ACTIVE ∧
      activeSlots ((List.replicate 3 zeroPart).set i
          (spawnedPart old skyPos AP_TYPE.AP_SNOW (zeroRand 0) (zeroRand (0 + 1))
            (zeroRand (0 + 2)))) =
        activeSlots (List.replicate 3 zeroPart) + 1 :=
  ⟨by decide, by decide, by decide, by decide,
    no_starvation 3 zeroRand (snowPool 3) (List.replicate 3 zeroPart) skyPos AP_TYPE.AP_SNOW 0
      (by decide) (by decide) (by decide) (by decide)⟩


/-- The record of reads agrees with the scan: when the scan ends at `(i1, ac1)`,
it has read `ac1 - ac + 1` slots, the indices `visit C i j` in order, the last
of which is `i1`. -/
theorem scanReads_of_scanLoop (C : Nat) (parts : List ATPART) :
    ∀ (fuel i ac i1 ac1 : Nat), scanLoop C parts fuel i ac = some (i1, ac1) →
      scanReads C parts fuel i ac = (List.range (ac1 - ac + 1)).map (visit C i) ∧
      visit C i (ac1 - ac) = i1 := by
  intro fuel
  induction fuel with
  | zero => intro i ac i1 ac1 h; simp [scanLoop] at h
  | succ f ih =>
    intro i ac i1 ac1 h
    have hle := (scanLoop_visited C parts _ _ _ _ _ h).1
    unfold scanLoop at h
    unfold scanReads
    cases hp : parts[i]? with
    | none => rw [hp] at h; simp at h
    | some p =>
      rw [hp] at h
      simp only at h ⊢
      split at h
      · rename_i hc
        rw [if_pos hc]
        have hle2 := (scanLoop_visited C parts _ _ _ _ _ h).1
        obtain ⟨h1, h2⟩ := ih _ _ _ _ h
        have e : ac1 - ac = (ac1 - (ac + 1)) + 1 := by omega
        constructor
        · rw [h1, e, List.range_succ_eq_map (ac1 - (ac + 1) + 1)]
          simp only [List.map_cons, List.map_map]
          rfl
        · rw [e]
          exact h2
      · rename_i hc
        rw [if_neg hc]
        simp only [Option.some.injEq, Prod.mk.injEq] at h
        obtain ⟨rfl, rfl⟩ := h
        simp only [Nat.sub_self, Nat.zero_add, visit, and_true]
        rfl

theorem scanReads_lt (C : Nat) (parts : List ATPART) (hC : 2 ≤ C) (hlen : parts.length = C) :
    ∀ (fuel i ac : Nat), i < C → ∀ r ∈ scanReads C parts fuel i ac, r < C := by
  intro fuel
  induction fuel with
  | zero => intro i ac _ r hr; simp [scanReads] at hr
  | succ f ih =>
    intro i ac hi r hr
    unfold scanReads at hr
    obtain ⟨p, hp⟩ := slot_exists parts i (by omega)
    rw [hp] at hr
    simp only at hr
    split at hr
    · rcases List.mem_cons.1 hr with h | h
      · omega
      · exact ih _ _ (by split <;> omega) r h
    · simp only [List.mem_singleton] at hr
      omega

theorem cursorInv_init (C : Nat) (hC : 1 ≤ C) (st : AtmosState) (h : CursorInv C st) :
    CursorInv C (atmosInitSystem C st) := by
  unfold atmosInitSystem
  refine ⟨by simpa using hC, ?_⟩
  intro parts hparts
  simp only at hparts
  split at hparts
  · simp only [Option.some.injEq] at hparts
    subst hparts
    refine ⟨by simp, fun _ p hp => ?_⟩
    rw [List.eq_of_mem_replicate hp]
    rfl
  · exact h.2 parts hparts

theorem cursorInv_weather (C : Nat) (st : AtmosState) (w : WT_CLASS) (h : CursorInv C st) :
    CursorInv C { st with weather := w } := h

theorem cursorInv_setWeatherType (C : Nat) (hC : 1 ≤ C) (type : WT_CLASS) (st : AtmosState)
    (h : CursorInv C st) : CursorInv C (atmosSetWeatherType C type st) := by
  have h1 : CursorInv C
      (if type ≠ st.weather then atmosInitSystem C { st with weather := type } else st) := by
    split
    · exact cursorInv_init C hC _ (cursorInv_weather C st type h)
    · exact h
  have key : ∀ s1 : AtmosState, CursorInv C s1 →
      CursorInv C (if type = WT_CLASS.WT_NONE ∧ s1.asAtmosParts ≠ none then
        { s1 with asAtmosParts := none } else s1) := by
    intro s1 hs1
    split
    · exact ⟨hs1.1, fun parts hp => by simp at hp⟩
    · exact hs1
  exact key _ h1

theorem cursorInv_add (C : Nat) (hC : 1 ≤ C) (rand : Nat → Nat) (pos : Vector3f)
    (type : AP_TYPE) (n n1 : Nat) (st st1 : AtmosState) (h : CursorInv C st)
    (hadd : atmosAddParticle C rand st pos type n = some (st1, n1)) : CursorInv C st1 := by
  cases hparts : st.asAtmosParts with
  | none => simp [atmosAddParticle, hparts] at hadd
  | some parts =>
    obtain ⟨hlen, hone⟩ := h.2 parts hparts
    by_cases h2 : 2 ≤ C
    · obtain ⟨s, m, parts1, hs, hp1, hl1, hc1⟩ :=
        atmosAddParticle_total C h2 rand st parts hparts hlen h.1 pos type n
      rw [hs] at hadd
      simp only [Option.some.injEq, Prod.mk.injEq] at hadd
      obtain ⟨rfl, _⟩ := hadd
      refine ⟨hc1, fun q hq => ?_⟩
      rw [hp1] at hq
      simp only [Option.some.injEq] at hq
      subst hq
      exact ⟨hl1, fun h1 => by omega⟩
    · have hC1 : C = 1 := by omega
      subst hC1
      have hcur : st.freeParticle = 0 := by have := h.1; omega
      obtain ⟨p, hp⟩ := slot_exists parts 0 (by omega)
      have hin : p.status = AP_STATUS.APS_INACTIVE :=
        hone rfl p (List.getElem?_mem hp)
      have hscan : scanLoop 1 parts (1 + 1) st.freeParticle 0 = some (0, 0) := by
        rw [hcur]; exact scanLoop_inactive 1 parts 1 0 0 p hp hin
      simp only [atmosAddParticle, hparts, hscan] at hadd
      rw [if_pos (by omega)] at hadd
      simp only [Option.some.injEq, Prod.mk.injEq] at hadd
      obtain ⟨rfl, _⟩ := hadd
      exact h

theorem scanReads_inactive (C : Nat) (parts : List ATPART) (fuel i ac : Nat) (p : ATPART)
    (hp : parts[i]? = some p) (hs : p.status = AP_STATUS.APS_INACTIVE) :
    scanReads C parts (fuel + 1) i ac = [i] := by
  simp [scanReads, hp, hs]

theorem processAll_length (env : Env) :
    ∀ (parts : List ATPART) (n : Nat), (processAll env parts n).1.length = parts.length := by
  intro parts
  induction parts with
  | nil => intro n; rfl
  | cons p ps ih =>
    intro n
    simp only [processAll, List.length_cons, ih]

theorem processAll_inactive (env : Env) :
    ∀ (parts : List ATPART) (n : Nat),
      (∀ p ∈ parts, p.status = AP_STATUS.APS_INACTIVE) →
      (processAll env parts n).1 = parts := by
  intro parts
  induction parts with
  | nil => intro n _; rfl
  | cons p ps ih =>
    intro n h
    have hp : ¬ p.status = AP_STATUS.APS_ACTIVE := by
      rw [h p (List.mem_cons_self _ _)]; decide
    simp only [processAll, if_neg hp]
    rw [ih n (fun q hq => h q (List.mem_cons_of_mem _ hq))]

theorem cursorInv_spawnOne (C : Nat) (hC : 1 ≤ C) (env : Env) (st st1 : AtmosState)
    (n n1 : Nat) (evs : List Event) (h : CursorInv C st)
    (hs : spawnOne C env st n = some (st1, evs, n1)) : CursorInv C st1 := by
  unfold spawnOne at hs
  split at hs
  · simp at hs
  · simp only at hs
    split at hs
    · split at hs
      · cases hadd : atmosAddParticle C env.rand st
            (spawnPos env (env.rand n) (env.rand (n + 1))) AP_TYPE.AP_SNOW (n + 2) with
        | none => rw [hadd] at hs; simp at hs
        | some r =>
          obtain ⟨s2, m2⟩ := r
          rw [hadd] at hs
          simp only [Option.some.injEq, Prod.mk.injEq] at hs
          obtain ⟨rfl, _, _⟩ := hs
          exact cursorInv_add C hC _ _ _ _ _ _ _ h hadd
      · cases hadd : atmosAddParticle C env.rand st
            (spawnPos env (env.rand n) (env.rand (n + 1))) AP_TYPE.AP_RAIN (n + 2) with
        | none => rw [hadd] at hs; simp at hs
        | some r =>
          obtain ⟨s2, m2⟩ := r
          rw [hadd] at hs
          simp only [Option.some.injEq, Prod.mk.injEq] at hs
          obtain ⟨rfl, _, _⟩ := hs
          exact cursorInv_add C hC _ _ _ _ _ _ _ h hadd
      · simp only [Option.some.injEq, Prod.mk.injEq] at hs
        obtain ⟨rfl, _, _⟩ := hs
        exact h
    · simp only [Option.some.injEq, Prod.mk.injEq] at hs
      obtain ⟨rfl, _, _⟩ := hs
      exact h

theorem cursorInv_spawnLoop (C : Nat) (hC : 1 ≤ C) (env : Env) :
    ∀ (k : Nat) (st st1 : AtmosState) (n n1 : Nat) (evs : List Event), CursorInv C st →
      spawnLoop C env k st n = some (st1, evs, n1) → CursorInv C st1 := by
  intro k
  induction k with
  | zero =>
    intro st st1 n n1 evs h hs
    simp only [spawnLoop, Option.some.injEq, Prod.mk.injEq] at hs
    obtain ⟨rfl, _, _⟩ := hs
    exact h
  | succ k ih =>
    intro st st1 n n1 evs h hs
    unfold spawnLoop at hs
    cases h1 : spawnOne C env st n with
    | none => rw [h1] at hs; simp at hs
    | some r1 =>
      obtain ⟨s1, e1, m1⟩ := r1
      rw [h1] at hs
      simp only at hs
      cases h2 : spawnLoop C env k s1 m1 with
      | none => rw [h2] at hs; simp at hs
      | some r2 =>
        obtain ⟨s2, e2, m2⟩ := r2
        rw [h2] at hs
        simp only [Option.some.injEq, Prod.mk.injEq] at hs
        obtain ⟨rfl, _, _⟩ := hs
        exact ih _ _ _ _ _ (cursorInv_spawnOne C hC env _ _ _ _ _ h h1) h2

theorem cursorInv_update (C : Nat) (hC : 1 ≤ C) (env : Env) (st st1 : AtmosState)
    (n n1 : Nat) (evs : List Event) (h : CursorInv C st)
    (hu : atmosUpdateSystem C env st n = some (st1, evs, n1)) : CursorInv C st1 := by
  unfold atmosUpdateSystem at hu
  split at hu
  · cases hparts : st.asAtmosParts with
    | none => rw [hparts] at hu; simp at hu
    | some parts =>
      rw [hparts] at hu
      simp only at hu
      obtain ⟨hlen, hone⟩ := h.2 parts hparts
      rw [if_neg (by simpa using hlen)] at hu
      have hmid : CursorInv C
          { st with asAtmosParts := some (processAll env parts n).1,
                    accumulatedParticlesToAdd :=
                      (accumulate st.weather env.gameTimeMod st.accumulatedParticlesToAdd).2 } := by
        refine ⟨h.1, fun q hq => ?_⟩
        simp only [Option.some.injEq] at hq
        subst hq
        refine ⟨by rw [processAll_length, hlen], fun h1 p hp => ?_⟩
        rw [processAll_inactive env parts n (hone h1)] at hp
        exact hone h1 p hp
      cases hl : spawnLoop C env
          (accumulate st.weather env.gameTimeMod st.accumulatedParticlesToAdd).1
          { st with asAtmosParts := some (processAll env parts n).1,
                    accumulatedParticlesToAdd :=
                      (accumulate st.weather env.gameTimeMod st.accumulatedParticlesToAdd).2 }
          (processAll env parts n).2.2 with
      | none => rw [hl] at hu; simp at hu
      | some r =>
        obtain ⟨s2, e2, m2⟩ := r
        rw [hl] at hu
        simp only [Option.some.injEq, Prod.mk.injEq] at hu
        obtain ⟨rfl, _, _⟩ := hu
        exact cursorInv_spawnLoop C hC env _ _ _ _ _ _ hmid hl
  · simp only [Option.some.injEq, Prod.mk.injEq] at hu
    obtain ⟨rfl, _, _⟩ := hu
    exact h

theorem allocReachable_inv (C : Nat) (hC : 1 ≤ C) (st : AtmosState)
    (h : AllocReachable C st) : CursorInv C st := by
  induction h with
  | start => exact ⟨by simpa [initialState] using hC, fun parts hp => by simp [initialState] at hp⟩
  | setWeatherType type _ ih => exact cursorInv_setWeatherType C hC type _ ih
  | initSystem _ ih => exact cursorInv_init C hC _ ih
  | addParticle rand pos type n _ hadd ih => exact cursorInv_add C hC rand pos type n _ _ _ ih hadd
  | updateSystem env n _ hu ih => exact cursorInv_update C hC env _ _ _ _ _ ih hu

/-- One call of the allocator on a pool of `C` slots with the cursor below `C`,
where `C ≥ 2` or no slot is active: every index read is `< C`, the call returns,
the selected index is `< C`, and so is the cursor afterwards. -/
theorem add_index_safe (C : Nat) (st : AtmosState) (parts : List ATPART)
    (hst : st.asAtmosParts = some parts) (hlen : parts.length = C) (hcur : st.freeParticle < C)
    (hsafe : 2 ≤ C ∨ ∀ p ∈ parts, p.status = AP_STATUS.APS_INACTIVE) :
    (∀ r ∈ scanReads C parts (C + 1) st.freeParticle 0, r < C) ∧
    ∀ (rand : Nat → Nat) (pos : Vector3f) (type : AP_TYPE) (n : Nat),
      ∃ i activeCount st1 n1,
        scanLoop C parts (C + 1) st.freeParticle 0 = some (i, activeCount) ∧ i < C ∧
        (scanReads C parts (C + 1) st.freeParticle 0).getLast? = some i ∧
        atmosAddParticle C rand st pos type n = some (st1, n1) ∧
        st1.freeParticle < C ∧
        (activeCount ≥ C - 1 → st1 = st) ∧
        (¬ activeCount ≥ C - 1 → st1.freeParticle = i ∧
          ∃ new, st1.asAtmosParts = some (parts.set i new)) := by
  have hreads : ∀ r ∈ scanReads C parts (C + 1) st.freeParticle 0, r < C := by
    rcases hsafe with h2 | hall
    · exact scanReads_lt C parts h2 hlen _ _ _ hcur
    · obtain ⟨p, hp⟩ := slot_exists parts st.freeParticle (by omega)
      rw [scanReads_inactive C parts C _ 0 p hp (hall p (List.getElem?_mem hp))]
      intro r hr
      simp only [List.mem_singleton] at hr
      omega
  have hscan : ∃ i ac, scanLoop C parts (C + 1) st.freeParticle 0 = some (i, ac) ∧ i < C := by
    rcases hsafe with h2 | hall
    · obtain ⟨i, ac, hscan, hi, _⟩ :=
        scanLoop_total C parts h2 hlen (C + 1) st.freeParticle 0 hcur (Nat.zero_le _)
          (by omega)
      exact ⟨i, ac, hscan, hi⟩
    · obtain ⟨p, hp⟩ := slot_exists parts st.freeParticle (by omega)
      exact ⟨st.freeParticle, 0,
        scanLoop_inactive C parts C _ 0 p hp (hall p (List.getElem?_mem hp)), hcur⟩
  refine ⟨hreads, ?_⟩
  intro rand pos type n
  obtain ⟨i, ac, hscan, hi⟩ := hscan
  obtain ⟨old, hget⟩ := slot_exists parts i (by omega)
  have hlast : (scanReads C parts (C + 1) st.freeParticle 0).getLast? = some i := by
    obtain ⟨h1, h2⟩ := scanReads_of_scanLoop C parts _ _ _ _ _ hscan
    rw [h1, Nat.sub_zero, List.range_succ, List.map_append, List.map_singleton,
      List.getLast?_append, List.getLast?_singleton]
    simpa using h2
  by_cases hdrop : ac ≥ C - 1
  · refine ⟨i, ac, st, n, hscan, hi, hlast, ?_, hcur, fun _ => rfl, fun h => absurd hdrop h⟩
    simp only [atmosAddParticle, hst, hscan]
    rw [if_pos hdrop]
  · refine ⟨i, ac, { st with freeParticle := i, asAtmosParts := some (parts.set i
        (spawnedPart old pos type (rand n) (rand (n + 1)) (rand (n + 2)))) }, n + 3,
      hscan, hi, hlast, ?_, hi, fun h => absurd h hdrop, fun _ => ⟨rfl, _, rfl⟩⟩
    simp only [atmosAddParticle, hst, hscan, hget]
    rw [if_neg hdrop]

/-- A pool of capacity 1 with its slot active is not reachable: at capacity 1
the allocator drops every request. -/
theorem soleActive_unreachable : ¬ AllocReachable 1 soleActive := by
  intro h
  have hinv := (allocReachable_inv 1 (by decide) _ h).2 _ rfl
  have := hinv.2 rfl _ (List.mem_singleton.2 rfl)
  revert this
  decide

/-! ## The accumulator through the update ticks -/

theorem allocReachable_pool_iff (C : Nat) (st : AtmosState) (h : AllocReachable C st) :
    st.asAtmosParts ≠ none ↔ st.weather ≠ WT_CLASS.WT_NONE := by
  induction h with
  | start => simp [initialState]
  | setWeatherType type _ ih => exact atmosSetWeatherType_inv C type _ ih
  | initSystem _ ih => exact atmosInitSystem_inv C _ ih
  | addParticle rand pos type n _ hadd ih =>
    obtain ⟨hw, _, parts, parts1, hp, hp1, _⟩ := atmosAddParticle_frame hadd
    rw [hw, hp1]
    rw [hp] at ih
    simpa using ih
  | updateSystem env n _ hu ih =>
    obtain ⟨hw, hn⟩ := atmosUpdateSystem_frame hu
    rw [hw, Ne, hn]
    exact ih

theorem atmosAddParticle_returns (C : Nat) (rand : Nat → Nat) (st : AtmosState)
    (parts : List ATPART) (hinv : CursorInv C st) (hst : st.asAtmosParts = some parts)
    (pos : Vector3f) (type : AP_TYPE) (n : Nat) :
    ∃ r, atmosAddParticle C rand st pos type n = some r := by
  obtain ⟨hlen, hone⟩ := hinv.2 parts hst
  have hsafe : 2 ≤ C ∨ ∀ p ∈ parts, p.status = AP_STATUS.APS_INACTIVE := by
    by_cases h2 : 2 ≤ C
    · exact Or.inl h2
    · have := hinv.1
      exact Or.inr (hone (by omega))
  obtain ⟨_, h⟩ := add_index_safe C st parts hst hlen hinv.1 hsafe
  obtain ⟨i, ac, st1, n1, _, _, _, hadd, _⟩ := h rand pos type n
  exact ⟨(st1, n1), hadd⟩

theorem spawnOne_returns (C : Nat) (env : Env) (st : AtmosState) (n : Nat)
    (hinv : CursorInv C st) (hpool : st.asAtmosParts ≠ none) (hv : env.visibleTilesX ≠ 0) :
    ∃ r, spawnOne C env st n = some r := by
  obtain ⟨parts, hst⟩ := Option.ne_none_iff_exists'.1 hpool
  unfold spawnOne
  rw [if_neg hv]
  simp only
  split
  · split
    · obtain ⟨r, hr⟩ := atmosAddParticle_returns C env.rand st parts hinv hst
        (spawnPos env (env.rand n) (env.rand (n + 1))) AP_TYPE.AP_SNOW (n + 2)
      rw [hr]
      exact ⟨_, rfl⟩
    · obtain ⟨r, hr⟩ := atmosAddParticle_returns C env.rand st parts hinv hst
        (spawnPos env (env.rand n) (env.rand (n + 1))) AP_TYPE.AP_RAIN (n + 2)
      rw [hr]
      exact ⟨_, rfl⟩
    · exact ⟨_, rfl⟩
  · exact ⟨_, rfl⟩

theorem spawnLoop_returns (C : Nat) (hC : 1 ≤ C) (env : Env) (hv : env.visibleTilesX ≠ 0) :
    ∀ (k : Nat) (st : AtmosState) (n : Nat), CursorInv C st → st.asAtmosParts ≠ none →
      ∃ r, spawnLoop C env k st n = some r := by
  intro k
  induction k with
  | zero => intro st n _ _; exact ⟨_, rfl⟩
  | succ k ih =>
    intro st n hinv hpool
    obtain ⟨⟨s1, e1, m1⟩, h1⟩ := spawnOne_returns C env st n hinv hpool hv
    have hinv1 := cursorInv_spawnOne C hC env _ _ _ _ _ hinv h1
    have hpool1 : s1.asAtmosParts ≠ none := by
      obtain ⟨_, hn, _⟩ := spawnOne_frame h1
      rw [Ne, hn]; exact hpool
    obtain ⟨⟨s2, e2, m2⟩, h2⟩ := ih s1 m1 hinv1 hpool1
    unfold spawnLoop
    rw [h1]
    simp only
    rw [h2]
    exact ⟨_, rfl⟩

theorem atmosUpdateSystem_returns (C : Nat) (hC : 1 ≤ C) (env : Env) (st : AtmosState) (n : Nat)
    (hinv : CursorInv C st)
    (hiff : st.asAtmosParts ≠ none ↔ st.weather ≠ WT_CLASS.WT_NONE)
    (hv : env.visibleTilesX ≠ 0) :
    ∃ r, atmosUpdateSystem C env st n = some r := by
  by_cases hgo : env.gamePaused = false ∧ st.weather ≠ WT_CLASS.WT_NONE
  · obtain ⟨parts, hst⟩ := Option.ne_none_iff_exists'.1 (hiff.2 hgo.2)
    obtain ⟨hlen, hone⟩ := hinv.2 parts hst
    rw [atmosUpdateSystem_spawnLoop C env st n parts hgo.1 hgo.2 hst hlen]
    have hmid : CursorInv C
        { st with asAtmosParts := some (processAll env parts n).1,
                  accumulatedParticlesToAdd :=
                    (accumulate st.weather env.gameTimeMod st.accumulatedParticlesToAdd).2 } := by
      refine ⟨hinv.1, fun q hq => ?_⟩
      simp only [Option.some.injEq] at hq
      subst hq
      refine ⟨by rw [processAll_length, hlen], fun h1 p hp => ?_⟩
      rw [processAll_inactive env parts n (hone h1)] at hp
      exact hone h1 p hp
    obtain ⟨r, hr⟩ := spawnLoop_returns C hC env hv (tickNumberToAdd env st) _
      (processAll env parts n).2.2 hmid (by simp)
    rw [hr]
    exact ⟨_, rfl⟩
  · unfold atmosUpdateSystem
    rw [if_neg hgo]
    exact ⟨_, rfl⟩

theorem runUpdates_returns (C : Nat) (hC : 1 ≤ C) :
    ∀ (ticks : List (WT_CLASS × Env)) (st : AtmosState) (n : Nat),
      CursorInv C st → (st.asAtmosParts ≠ none ↔ st.weather ≠ WT_CLASS.WT_NONE) →
      (∀ t ∈ ticks, t.2.visibleTilesX ≠ 0) →
      ∃ st1 n1 ks, runUpdates C ticks st n = some (st1, n1, ks) := by
  intro ticks
  induction ticks with
  | nil => intro st n _ _ _; exact ⟨st, n, [], rfl⟩
  | cons t ts ih =>
    intro st n hinv hiff hv
    have hinv1 := cursorInv_setWeatherType C hC t.1 st hinv
    have hiff1 := atmosSetWeatherType_inv C t.1 st hiff
    obtain ⟨⟨s1, e1, m1⟩, h1⟩ := atmosUpdateSystem_returns C hC t.2 _ n hinv1 hiff1
      (hv t (List.mem_cons_self _ _))
    have hinv2 := cursorInv_update C hC t.2 _ _ _ _ _ hinv1 h1
    have hiff2 : s1.asAtmosParts ≠ none ↔ s1.weather ≠ WT_CLASS.WT_NONE := by
      obtain ⟨hw, hn⟩ := atmosUpdateSystem_frame h1
      rw [hw, Ne, hn]
      exact hiff1
    obtain ⟨s2, m2, ks, h2⟩ := ih s1 m1 hinv2 hiff2 (fun u hu => hv u (List.mem_cons_of_mem _ hu))
    unfold runUpdates
    rw [h1]
    simp only
    rw [h2]
    exact ⟨_, _, _, rfl⟩

/-- C6, as stated, fails: one snow tick at game speed `2 ^ 31`, from accumulator 0,
brings the accumulator to `2 ^ 32`; its conversion to the 32-bit `UDWORD` gives
`numberToAdd = 0`, not `⌊2 * 2 ^ 31⌋`, and the accumulator left is `2 ^ 32`,
outside `[0, 1)`. -/
theorem accumulator_overflows :
    (snowPool 3).accumulatedParticlesToAdd = 0 ∧
    (speedEnv (2 ^ 31)).gamePaused = false ∧
    (speedEnv (2 ^ 31)).gameTimeMod = some (2 ^ 31) ∧ (0 : ℚ) ≤ 2 ^ 31 ∧
    (runUpdates 3 [(WT_CLASS.WT_SNOWING, speedEnv (2 ^ 31))] (snowPool 3) 0).map
        (fun r => (r.1.accumulatedParticlesToAdd, r.2.2)) = some (4294967296, [0]) ∧
    ⌊([(WT_CLASS.WT_SNOWING, speedEnv (2 ^ 31))].map tickRate).sum⌋ = 4294967296 ∧
    ¬ ((4294967296 : ℚ) < 1) := by
  decide!

/-- C6 (amended): with the `double` accumulator in exact rational arithmetic and
`numberToAdd` a 32-bit `UDWORD`, starting from accumulator 0, for every finite
sequence of ticks of `atmosUpdateSystem`, each not paused, under snow or rain,
with a multiplier `m_i ≥ 0` that is not NaN and a rate `r_i = kindRate` (2 for
snow, 4 for rain) such that `r_i * m_i ≤ 2 ^ 32 - 1`: the `numberToAdd` of the
ticks sum to `⌊Σ r_i * m_i⌋`, and the accumulator left in the state is
`Σ r_i * m_i` minus that sum and lies in `[0, 1)`. With snow and multiplier 1
every tick has `numberToAdd = 2` and the accumulator is left at 0. The ticks do
return, with these values, from every reachable state of a pool of capacity
`C ≥ 1` when `visibleTiles.x` is not zero. The `numberToAdd` of a tick is the
number of turns of its spawn loop: the tick is the simulation pass followed by
`spawnLoop` run `tickNumberToAdd` times on the state with the new accumulator. -/
theorem accumulator_conservation (C : Nat) (ticks : List (WT_CLASS × Env))
    (st : AtmosState) (n : Nat)
    (hstart : st.accumulatedParticlesToAdd = 0)
    (hticks : ∀ t ∈ ticks, t.1 ≠ WT_CLASS.WT_NONE ∧ t.2.gamePaused = false ∧
      ∃ m : ℚ, t.2.gameTimeMod = some m ∧ 0 ≤ m ∧ kindRate t.1 * m ≤ 2 ^ 32 - 1) :
    (∀ (st1 : AtmosState) (n1 : Nat) (ks : List Nat),
      runUpdates C ticks st n = some (st1, n1, ks) →
      ((ks.sum : Nat) : Int) = ⌊(ticks.map tickRate).sum⌋ ∧
      st1.accumulatedParticlesToAdd = (ticks.map tickRate).sum - ((ks.sum : Nat) : ℚ) ∧
      0 ≤ st1.accumulatedParticlesToAdd ∧ st1.accumulatedParticlesToAdd < 1 ∧
      ks.length = ticks.length ∧
      ((∀ t ∈ ticks, t.1 = WT_CLASS.WT_SNOWING ∧ t.2.gameTimeMod = some 1) →
        (∀ k ∈ ks, k = 2) ∧ st1.accumulatedParticlesToAdd = 0)) ∧
    (1 ≤ C → AllocReachable C st → (∀ t ∈ ticks, t.2.visibleTilesX ≠ 0) →
      ∃ st1 n1 ks, runUpdates C ticks st n = some (st1, n1, ks)) ∧
    (∀ (env : Env) (s : AtmosState) (m : Nat) (parts : List ATPART),
      env.gamePaused = false → s.weather ≠ WT_CLASS.WT_NONE →
      s.asAtmosParts = some parts → parts.length = C →
      atmosUpdateSystem C env s m =
        (spawnLoop C env (tickNumberToAdd env s)
          { s with
            asAtmosParts := some (processAll env parts m).1,
            accumulatedParticlesToAdd :=
              (accumulate s.weather env.gameTimeMod s.accumulatedParticlesToAdd).2 }
          (processAll env parts m).2.2).map
          (fun r => (r.1, (processAll env parts m).2.1 ++ r.2.1, r.2.2))) := by
  refine ⟨fun st1 n1 ks hrun => ?_,
    fun hC hreach hv => runUpdates_returns C hC ticks st n (allocReachable_inv C hC st hreach)
      (allocReachable_pool_iff C st hreach) hv,
    fun env s m parts hp hw hst hlen => atmosUpdateSystem_spawnLoop C env s m parts hp hw hst hlen⟩
  obtain ⟨h1, h2, h3, h4, h5⟩ :=
    runUpdates_conserve C ticks st st1 n n1 ks (by rw [hstart]) (by rw [hstart]; exact zero_lt_one)
      hticks hrun
  rw [hstart, zero_add] at h1
  refine ⟨?_, by linarith, h2, h3, h4, fun hs => h5 hs hstart⟩
  symm
  rw [Int.floor_eq_iff, Int.cast_natCast]
  constructor <;> linarith

/-- An instance of the conservation of the accumulator: the three ticks of
`demoTicks` on `snowPool 3`, whose rates sum to `23 / 6`. -/
theorem accumulator_conservation_witness :
    (snowPool 3).accumulatedParticlesToAdd = 0 ∧
    (∀ t ∈ demoTicks, t.1 ≠ WT_CLASS.WT_NONE ∧ t.2.gamePaused = false ∧
      ∃ m : ℚ, t.2.gameTimeMod = some m ∧ 0 ≤ m ∧ kindRate t.1 * m ≤ 2 ^ 32 - 1) ∧
    1 ≤ 3 ∧ AllocReachable 3 (snowPool 3) ∧ (∀ t ∈ demoTicks, t.2.visibleTilesX ≠ 0) ∧
    ∃ st1 n1 ks, runUpdates 3 demoTicks (snowPool 3) 0 = some (st1, n1, ks) ∧
      ((ks.sum : Nat) : Int) = ⌊(demoTicks.map tickRate).sum⌋ ∧
      st1.accumulatedParticlesToAdd = (demoTicks.map tickRate).sum - ((ks.sum : Nat) : ℚ) ∧
      0 ≤ st1.accumulatedParticlesToAdd ∧ st1.accumulatedParticlesToAdd < 1 := by
  have hticks : ∀ t ∈ demoTicks, t.1 ≠ WT_CLASS.WT_NONE ∧ t.2.gamePaused = false ∧
      ∃ m : ℚ, t.2.gameTimeMod = some m ∧ 0 ≤ m ∧ kindRate t.1 * m ≤ 2 ^ 32 - 1 := by
    intro t ht
    simp only [demoTicks, List.mem_cons, List.mem_singleton, List.not_mem_nil, or_false] at ht
    rcases ht with rfl | rfl | rfl
    · exact ⟨by decide, rfl, 1 / 2, rfl, by norm_num, by norm_num [kindRate]⟩
    · exact ⟨by decide, rfl, 1 / 3, rfl, by norm_num, by decide!⟩
    · exact ⟨by decide, rfl, 3 / 4, rfl, by norm_num, by norm_num [kindRate]⟩
  have hreach : AllocReachable 3 (snowPool 3) :=
    AllocReachable.setWeatherType _ AllocReachable.start
  have hv : ∀ t ∈ demoTicks, t.2.visibleTilesX ≠ 0 := by
    intro t ht
    simp only [demoTicks, List.mem_cons, List.mem_singleton, List.not_mem_nil, or_false] at ht
    rcases ht with rfl | rfl | rfl <;> decide
  have hthm := accumulator_conservation 3 demoTicks (snowPool 3) 0 rfl hticks
  obtain ⟨st1, n1, ks, hr⟩ := hthm.2.1 (by decide) hreach hv
  obtain ⟨c1, c2, c3, c4, _⟩ := hthm.1 st1 n1 ks hr
  exact ⟨rfl, hticks, by decide, hreach, hv, st1, n1, ks, hr, c1, c2, c3, c4⟩

/-! ## Index safety of the allocator -/

/-- C20: for every capacity `C ≥ 1`, in every state reachable through
`atmosInitSystem`, `atmosSetWeatherType`, `atmosAddParticle` and
`atmosUpdateSystem` the search cursor is `< C`, and when the state has a pool, the
pool has `C` slots and a call of `atmosAddParticle` reads only slot indices
`< C` during its scan (the record of reads is the whole scan, ending at the
selected index `i`), returns, has `i < C`, writes no slot but `i` on success, and
leaves the cursor `< C` (at `i` on success, unchanged on a drop). For `C ≥ 2` the
same holds of a call on any pool of `C` slots with any cursor `< C`, reachable
or not. -/
theorem allocator_index_safety (C : Nat) (hC : 1 ≤ C) :
    (∀ st : AtmosState, AllocReachable C st →
      st.freeParticle < C ∧
      ∀ parts : List ATPART, st.asAtmosParts = some parts →
        parts.length = C ∧
        (∀ r ∈ scanReads C parts (C + 1) st.freeParticle 0, r < C) ∧
        ∀ (rand : Nat → Nat) (pos : Vector3f) (type : AP_TYPE) (n : Nat),
          ∃ i activeCount st1 n1,
            scanLoop C parts (C + 1) st.freeParticle 0 = some (i, activeCount) ∧ i < C ∧
            (scanReads C parts (C + 1) st.freeParticle 0).getLast? = some i ∧
            atmosAddParticle C rand st pos type n = some (st1, n1) ∧
            st1.freeParticle < C ∧
            (activeCount ≥ C - 1 → st1 = st) ∧
            (¬ activeCount ≥ C - 1 → st1.freeParticle = i ∧
              ∃ new, st1.asAtmosParts = some (parts.set i new))) ∧
    (2 ≤ C → ∀ (st : AtmosState) (parts : List ATPART),
      st.asAtmosParts = some parts → parts.length = C → st.freeParticle < C →
        (∀ r ∈ scanReads C parts (C + 1) st.freeParticle 0, r < C) ∧
        ∀ (rand : Nat → Nat) (pos : Vector3f) (type : AP_TYPE) (n : Nat),
          ∃ i activeCount st1 n1,
            scanLoop C parts (C + 1) st.freeParticle 0 = some (i, activeCount) ∧ i < C ∧
            (scanReads C parts (C + 1) st.freeParticle 0).getLast? = some i ∧
            atmosAddParticle C rand st pos type n = some (st1, n1) ∧
            st1.freeParticle < C ∧
            (activeCount ≥ C - 1 → st1 = st) ∧
            (¬ activeCount ≥ C - 1 → st1.freeParticle = i ∧
              ∃ new, st1.asAtmosParts = some (parts.set i new))) := by
  constructor
  · intro st hreach
    have hinv := allocReachable_inv C hC st hreach
    refine ⟨hinv.1, fun parts hparts => ?_⟩
    obtain ⟨hlen, hone⟩ := hinv.2 parts hparts
    refine ⟨hlen, ?_⟩
    apply add_index_safe C st parts hparts hlen hinv.1
    by_cases h2 : 2 ≤ C
    · exact Or.inl h2
    · exact Or.inr (hone (by omega))
  · intro h2 st parts hparts hlen hcur
    exact add_index_safe C st parts hparts hlen hcur (Or.inl h2)

/-- An instance of the index safety at capacity 1: the fresh pool reached by
`atmosSetWeatherType(WT_SNOWING)`, whose scan reads slot 0 only. -/
theorem allocator_index_safety_witness :
    1 ≤ 1 ∧ AllocReachable 1 (snowPool 1) ∧ (snowPool 1).asAtmosParts = some [zeroPart] ∧
    (snowPool 1).freeParticle < 1 ∧
    (∀ r ∈ scanReads 1 [zeroPart] (1 + 1) (snowPool 1).freeParticle 0, r < 1) :=
  ⟨by decide, AllocReachable.setWeatherType _ AllocReachable.start, by decide,
    ((allocator_index_safety 1 (by decide)).1 (snowPool 1)
      (AllocReachable.setWeatherType _ AllocReachable.start)).1,
    (((allocator_index_safety 1 (by decide)).1 (snowPool 1)
      (AllocReachable.setWeatherType _ AllocReachable.start)).2 [zeroPart] (by decide)).2.1⟩

end Atmos
